import Mathlib

/-!
Job manager: dispatch selection, lease promotion, group operations, policy
remediation and resource status.

A shallow embedding of `jobmanager-service` (packages `models`, `repository`,
`service`, `controllers`).  Go structs become Lean structures with the same
field names, the repository interfaces become records of state-passing
functions, and the gorm-backed job, group and resource repositories are
modelled over in-memory tables: `jobs`, whose rows carry their resource and its
conditions, and `job_groups`.

Conventions
* `time.Time` is an `Int` count of nanoseconds; `second` is `time.Second`.
* A Go `(value, error)` result is `Except String value`; the error text is the
  text of the Go error.  HandlePolicyIncompliance, whose claims speak of both
  places of the result, returns the pair itself.  A method that receives a
  pointer and writes through it returns an `Outcome`.  CreateJobGroup, which
  can end the process through `Fatalf`, returns a `Completion`.
* SQL conditions are evaluated in three-valued logic (`SqlBool`); a row is
  selected when the condition is TRUE.  String comparison is exact (binary).
-/

namespace JobManager

/-! ## models/models.go -/

/-- JobState is `type JobState int`. -/
abbrev JobState := Int

/-- JobType is `type JobType int`. -/
abbrev JobType := Int

/-- RemediationType is `type RemediationType string`. -/
abbrev RemediationType := String

/-- OrchestratorType is `type OrchestratorType string`. -/
abbrev OrchestratorType := String

/-- ResourceState is `type ResourceState string`. -/
abbrev ResourceState := String

/-- ConditionStatus is `type ConditionStatus string`. -/
abbrev ConditionStatus := String

/-! The constants of JobState and JobType are declared in ONE `const ( ... )`
block; `iota` is the index of the constant specification inside the block, so
it is 0 at `JobCreated` and 4 at `CreateDeployment`. -/

/-- JobCreated is `JobCreated JobState = iota + 1` with iota = 0. -/
def JobCreated : JobState := 0 + 1

/-- JobProgressing repeats `iota + 1` with iota = 1. -/
def JobProgressing : JobState := 1 + 1

/-- JobFinished repeats `iota + 1` with iota = 2. -/
def JobFinished : JobState := 2 + 1

/-- JobDegraded repeats `iota + 1` with iota = 3. -/
def JobDegraded : JobState := 3 + 1

/-- CreateDeployment is `CreateDeployment JobType = iota + 1` with iota = 4. -/
def CreateDeployment : JobType := 4 + 1

/-- DeleteDeployment repeats `iota + 1` with iota = 5. -/
def DeleteDeployment : JobType := 5 + 1

/-- UpdateDeployment repeats `iota + 1` with iota = 6. -/
def UpdateDeployment : JobType := 6 + 1

/-- ReplaceDeployment repeats `iota + 1` with iota = 7. -/
def ReplaceDeployment : JobType := 7 + 1

/-- Condition entity (BaseUINT embedded); field Type is spelled Type_ because Type is reserved. -/
structure Condition where
  ID : Nat := 0
  CreatedAt : Int := 0
  UpdatedAt : Int := 0
  ResourceID : String := ""
  Type_ : ResourceState := ""
  Status : ConditionStatus := ""
  ObservedGeneration : Int := 0
  LastTransitionTime : Int := 0
  Reason : String := ""
  Message : String := ""
deriving DecidableEq, Repr, Inhabited

/-- Resource entity (BaseUUID embedded). -/
structure Resource where
  ID : String := ""
  CreatedAt : Int := 0
  UpdatedAt : Int := 0
  JobID : String := ""
  ResourceUID : String := ""
  ResourceName : String := ""
  Conditions : List Condition := []
deriving DecidableEq, Repr, Inhabited

/-- PlainManifest entity (BaseUINT embedded). -/
structure PlainManifest where
  ID : Nat := 0
  CreatedAt : Int := 0
  UpdatedAt : Int := 0
  JobID : String := ""
  YamlString : String := ""
deriving DecidableEq, Repr, Inhabited

/-- Target entity (BaseUINT embedded). -/
structure Target where
  ID : Nat := 0
  CreatedAt : Int := 0
  UpdatedAt : Int := 0
  JobID : String := ""
  ClusterName : String := ""
  NodeName : String := ""
  Orchestrator : OrchestratorType := ""
deriving DecidableEq, Repr, Inhabited

/-- Job entity (BaseUUID embedded); the defaults are the Go zero values and field Type is
spelled Type_. -/
structure Job where
  ID : String := ""
  CreatedAt : Int := 0
  UpdatedAt : Int := 0
  JobGroupID : String := ""
  OwnerID : String := ""
  JobGroupName : String := ""
  JobGroupDescription : String := ""
  Type_ : JobType := 0
  SubType : RemediationType := ""
  State : JobState := 0
  Manifests : List PlainManifest := []
  Targets : Target := {}
  Orchestrator : OrchestratorType := ""
  Resource : Option Resource := none
  Namespace : String := ""
deriving DecidableEq, Repr, Inhabited

/-- JobGroup entity (BaseUUID embedded). -/
structure JobGroup where
  ID : String := ""
  CreatedAt : Int := 0
  UpdatedAt : Int := 0
  AppName : String := ""
  AppDescription : String := ""
  Jobs : List Job := []
deriving DecidableEq, Repr, Inhabited

/-- JobOwnershipDTO is the body of the promote request. -/
structure JobOwnershipDTO where
  OwnerID : String := ""
deriving DecidableEq, Repr, Inhabited

/-! ## The `jobs` table -/

/-- A row of table `jobs` together with the rows associated to it: manifests,
target, and the resource with its conditions, as they are stored.  Column
`owner_id` is declared `char(36) default ''` without `not null`, and the
dispatch query tests it with `IS NULL`, so it is nullable here.  Every other
column carries the value of the Go field of the same name: the query compares
them only positively (`=`, `<`), where a NULL would make the comparison
UNKNOWN and the row unselected, as any non-matching value does. -/
structure JobRow where
  ID : String := ""
  CreatedAt : Int := 0
  UpdatedAt : Int := 0
  JobGroupID : String := ""
  OwnerID : Option String := some ""
  JobGroupName : String := ""
  JobGroupDescription : String := ""
  Type_ : JobType := 0
  SubType : RemediationType := ""
  State : JobState := 0
  Manifests : List PlainManifest := []
  Targets : Target := {}
  Orchestrator : OrchestratorType := ""
  Resource : Option Resource := none
  Namespace : String := ""
deriving DecidableEq, Repr, Inhabited

/-- Scan of a row into a fresh `models.Job`: a NULL column leaves the zero
value of the field.  The job repository preloads `Resource` but never
`Resource.Conditions`, so the resource of the job read carries no conditions. -/
def JobRow.scan (r : JobRow) : Job :=
  { ID := r.ID, CreatedAt := r.CreatedAt, UpdatedAt := r.UpdatedAt,
    JobGroupID := r.JobGroupID, OwnerID := r.OwnerID.getD "",
    JobGroupName := r.JobGroupName, JobGroupDescription := r.JobGroupDescription,
    Type_ := r.Type_, SubType := r.SubType, State := r.State,
    Manifests := r.Manifests, Targets := r.Targets,
    Orchestrator := r.Orchestrator,
    Resource := r.Resource.map (fun x => { x with Conditions := [] }),
    Namespace := r.Namespace }

/-- The row gorm writes for a `models.Job`: a Go string is never written as
NULL. -/
def Job.toRow (j : Job) : JobRow :=
  { ID := j.ID, CreatedAt := j.CreatedAt, UpdatedAt := j.UpdatedAt,
    JobGroupID := j.JobGroupID, OwnerID := some j.OwnerID,
    JobGroupName := j.JobGroupName, JobGroupDescription := j.JobGroupDescription,
    Type_ := j.Type_, SubType := j.SubType, State := j.State,
    Manifests := j.Manifests, Targets := j.Targets,
    Orchestrator := j.Orchestrator, Resource := j.Resource,
    Namespace := j.Namespace }

/-! ## SQL conditions -/

/-- SQL truth value; `none` is UNKNOWN. -/
abbrev SqlBool := Option Bool

/-- SQL `AND`. -/
def sqlAnd : SqlBool → SqlBool → SqlBool
  | some false, _ => some false
  | _, some false => some false
  | some true, some true => some true
  | _, _ => none

/-- SQL `OR`. -/
def sqlOr : SqlBool → SqlBool → SqlBool
  | some true, _ => some true
  | _, some true => some true
  | some false, some false => some false
  | _, _ => none

/-- SQL `a = b`: UNKNOWN when an operand is NULL. -/
def sqlEq {α : Type} [DecidableEq α] : Option α → Option α → SqlBool
  | some a, some b => some (decide (a = b))
  | _, _ => none

/-- SQL `a != b`: UNKNOWN when an operand is NULL. -/
def sqlNe {α : Type} [DecidableEq α] : Option α → Option α → SqlBool
  | some a, some b => some (decide (a ≠ b))
  | _, _ => none

/-- SQL `a < b` on timestamps: UNKNOWN when an operand is NULL. -/
def sqlLt : Option Int → Option Int → SqlBool
  | some a, some b => some (decide (a < b))
  | _, _ => none

/-- SQL `a IS NULL`. -/
def sqlIsNull {α : Type} (a : Option α) : SqlBool := some a.isNone

/-- Nanoseconds in `time.Second`. -/
def second : Int := 1000000000

/-- The bound `time.Now().Local().Add(time.Second*time.Duration(-300))`. -/
def staleBefore (now : Int) : Int := now + second * (-300)

/-- First disjunct of the dispatch condition:
`(type = ?) AND state = ? AND (owner_id = '' OR owner_id IS NULL) AND orchestrator = ?`
with CreateDeployment, JobCreated, orchestratorType. -/
def toExecuteClause1 (r : JobRow) (orchestratorType : String) : SqlBool :=
  sqlAnd
    (sqlAnd
      (sqlAnd (sqlEq (some r.Type_) (some CreateDeployment))
        (sqlEq (some r.State) (some JobCreated)))
      (sqlOr (sqlEq r.OwnerID (some "")) (sqlIsNull r.OwnerID)))
    (sqlEq (some r.Orchestrator) (some orchestratorType))

/-- Second disjunct:
`(type = ?) AND (state = ? OR state = ?) AND owner_id != ? AND updated_at < ? AND orchestrator = ?`
with CreateDeployment, JobProgressing, JobDegraded, ownerID, now - 300s,
orchestratorType. -/
def toExecuteClause2 (r : JobRow) (orchestratorType ownerID : String) (now : Int) : SqlBool :=
  sqlAnd
    (sqlAnd
      (sqlAnd
        (sqlAnd (sqlEq (some r.Type_) (some CreateDeployment))
          (sqlOr (sqlEq (some r.State) (some JobProgressing))
            (sqlEq (some r.State) (some JobDegraded))))
        (sqlNe r.OwnerID (some ownerID)))
      (sqlLt (some r.UpdatedAt) (some (staleBefore now))))
    (sqlEq (some r.Orchestrator) (some orchestratorType))

/-- Third disjunct:
`type = ? AND state = ? AND owner_id = ? AND orchestrator = ?`
with UpdateDeployment, JobCreated, ownerID, orchestratorType. -/
def toExecuteClause3 (r : JobRow) (orchestratorType ownerID : String) : SqlBool :=
  sqlAnd
    (sqlAnd
      (sqlAnd (sqlEq (some r.Type_) (some UpdateDeployment))
        (sqlEq (some r.State) (some JobCreated)))
      (sqlEq r.OwnerID (some ownerID)))
    (sqlEq (some r.Orchestrator) (some orchestratorType))

/-- Fourth disjunct:
`type = ? AND state = ? AND owner_id = ? AND orchestrator = ?`
with DeleteDeployment, JobCreated, ownerID, orchestratorType. -/
def toExecuteClause4 (r : JobRow) (orchestratorType ownerID : String) : SqlBool :=
  sqlAnd
    (sqlAnd
      (sqlAnd (sqlEq (some r.Type_) (some DeleteDeployment))
        (sqlEq (some r.State) (some JobCreated)))
      (sqlEq r.OwnerID (some ownerID)))
    (sqlEq (some r.Orchestrator) (some orchestratorType))

/-- The whole condition of `FindJobsToExecute`: the four disjuncts joined by
`OR`. -/
def toExecuteWhere (r : JobRow) (orchestratorType ownerID : String) (now : Int) : SqlBool :=
  sqlOr
    (sqlOr
      (sqlOr (toExecuteClause1 r orchestratorType)
        (toExecuteClause2 r orchestratorType ownerID now))
      (toExecuteClause3 r orchestratorType ownerID))
    (toExecuteClause4 r orchestratorType ownerID)

/-- Rows the statement `Find(&jobs, cond, args...)` of `FindJobsToExecute`
selects from the table: those on which the condition is TRUE. -/
def toExecuteRows (now : Int) (orchestratorType ownerID : String) (rows : List JobRow) :
    List JobRow :=
  rows.filter (fun r => toExecuteWhere r orchestratorType ownerID now == some true)

/-! ## repository/job_repository.go -/

/-- Statements the job repository sends through the gorm handle; each may be
reported failed by the database. -/
inductive Stmt where
  | FindJobByUUID_Take
  | FindJobsToExecute_Find
  | JobPromote_Updates
  | JobPromote_Take
  | JobPromote_Commit
  | FindJobByResourceUUID_First
  | UpdateJob_Updates
  | UpdateJob_Commit
  | UpdateAResource_Updates
  | UpdateAResource_Take
  | AddCondition_Create
  | FindJobGroupByUUID_First
  | UpdateJobGroup_Begin
  | UpdateJobGroup_Updates
  | UpdateJobGroup_Commit
  | DeleteJobGroup_Delete
  | DeleteJobGroup_Commit
deriving DecidableEq, Repr

/-- The rows associated to one row of `jobs`: its manifests, its target and its
resource with the conditions. -/
structure Associations where
  Manifests : List PlainManifest := []
  Targets : Target := {}
  Resource : Option Resource := none
deriving DecidableEq, Repr, Inhabited

/-- What the repository gets from outside the program: the clock reading
(`time.Now()`, also used by gorm for `updated_at`); per statement the error it
ends with (`none`: the statement succeeds), be it reported by the database or
raised by a hook gorm runs with the statement; `fullSave job stored`, the rows
associated to the row of `job` after gorm has saved the associations of `job`
under `FullSaveAssociations`, `stored` being those rows before (the upserts are
the library's; rows associated to other jobs stay as they are); and
`newUUID n`, the key `uuid.New().String()` gives a new row while the table
holds `n` rows. -/
structure Env where
  now : Int
  fault : Stmt → Option String
  fullSave : Job → Associations → Associations
  newUUID : Nat → String

/-- The stored state: the rows of table `jobs`. -/
structure DB where
  jobs : List JobRow := []
deriving DecidableEq, Repr, Inhabited

/-- JobRepository is the interface the job service is built on (the methods the
modelled operations use).  A method takes the store and returns its Go result
and the store it leaves. -/
structure JobRepository (σ : Type) where
  FindJobByUUID : String → σ → Except String Job × σ
  FindJobsToExecute : String → String → σ → Except String (List Job) × σ
  JobPromote : Job → σ → Except String Job × σ
  FindJobByResourceUUID : String → σ → Except String Job × σ
  UpdateJob : Job → σ → Except String Job × σ

/-- FindJobByUUID: `Where("id = ?", id)...Take(&job)`; a missing row is
reported as "job not found", any other error as it is. -/
def jobRepository.FindJobByUUID (env : Env) (id : String) (db : DB) :
    Except String Job × DB :=
  match env.fault Stmt.FindJobByUUID_Take with
  | some err => (Except.error err, db)
  | none =>
    match db.jobs.find? (fun r => r.ID == id) with
    | none => (Except.error "job not found", db)
    | some r => (Except.ok r.scan, db)

/-- FindJobsToExecute: the rows selected by the dispatch condition, scanned
into `[]models.Job`. -/
def jobRepository.FindJobsToExecute (env : Env) (orchestratorType ownerID : String) (db : DB) :
    Except String (List Job) × DB :=
  match env.fault Stmt.FindJobsToExecute_Find with
  | some err => (Except.error err, db)
  | none =>
    (Except.ok ((toExecuteRows env.now orchestratorType ownerID db.jobs).map JobRow.scan), db)

/-- Effect of `Updates(models.Job{OwnerID: job.OwnerID, State: job.State})` on
one row: gorm writes the non-zero fields of the struct and sets `updated_at`
to the current time. -/
def promoteRow (now : Int) (job : Job) (r : JobRow) : JobRow :=
  { r with
    OwnerID := if job.OwnerID = "" then r.OwnerID else some job.OwnerID,
    State := if job.State = 0 then r.State else job.State,
    UpdatedAt := now }

/-- Result of `Take(job)` on a row: the columns and the preloaded Targets and
Resource overwrite the fields of `job`; Manifests are not preloaded and keep
the value `job` had. -/
def takeInto (job : Job) (r : JobRow) : Job :=
  { r.scan with Manifests := job.Manifests }

/-- JobPromote of the repository: inside one transaction, update `owner_id`
and `state` of the rows with `id = job.ID`, then read the row back into `job`
(`Take(job)` with Targets and Resource preloaded; Manifests are not reloaded).
A failing statement rolls the transaction back. -/
def jobRepository.JobPromote (env : Env) (job : Job) (db : DB) : Except String Job × DB :=
  match env.fault Stmt.JobPromote_Updates with
  | some err => (Except.error err, db)
  | none =>
    let jobs1 := db.jobs.map (fun r => if r.ID = job.ID then promoteRow env.now job r else r)
    match env.fault Stmt.JobPromote_Take with
    | some err => (Except.error err, db)
    | none =>
      match jobs1.find? (fun r => r.ID == job.ID) with
      | none => (Except.error "record not found", db)
      | some r =>
        match env.fault Stmt.JobPromote_Commit with
        | some err => (Except.error err, db)
        | none => (Except.ok (takeInto job r), { db with jobs := jobs1 })

/-- FindJobByResourceUUID: `Joins("JOIN resources ON resources.job_id = jobs.id")
.Where("resources.resource_uid = ?", uid)...First(&job)`: the first job row
(the table is kept in primary-key order) whose resource has the given
`resource_uid`; a missing row is reported as "job not found".  Only Targets
and Resource are preloaded, so the job returned carries no manifests. -/
def jobRepository.FindJobByResourceUUID (env : Env) (uid : String) (db : DB) :
    Except String Job × DB :=
  match env.fault Stmt.FindJobByResourceUUID_First with
  | some err => (Except.error err, db)
  | none =>
    match db.jobs.find? (fun r =>
        match r.Resource with
        | some x => x.JobID == r.ID && x.ResourceUID == uid
        | none => false) with
    | none => (Except.error "job not found", db)
    | some r => (Except.ok { r.scan with Manifests := [] }, db)

/-- Effect of `Where("id = ?", job.ID).Updates(job)` under
`FullSaveAssociations` on a row it selects: gorm writes the non-zero fields
of `job` and sets `updated_at` to the current time; the primary key is not
written; the associations of `job` are saved. -/
def updatesRow (env : Env) (job : Job) (r : JobRow) : JobRow :=
  let saved := env.fullSave job
    { Manifests := r.Manifests, Targets := r.Targets, Resource := r.Resource }
  { r with
    CreatedAt := if job.CreatedAt = 0 then r.CreatedAt else job.CreatedAt,
    UpdatedAt := env.now,
    JobGroupID := if job.JobGroupID = "" then r.JobGroupID else job.JobGroupID,
    OwnerID := if job.OwnerID = "" then r.OwnerID else some job.OwnerID,
    JobGroupName := if job.JobGroupName = "" then r.JobGroupName else job.JobGroupName,
    JobGroupDescription :=
      if job.JobGroupDescription = "" then r.JobGroupDescription else job.JobGroupDescription,
    Type_ := if job.Type_ = 0 then r.Type_ else job.Type_,
    SubType := if job.SubType = "" then r.SubType else job.SubType,
    State := if job.State = 0 then r.State else job.State,
    Orchestrator := if job.Orchestrator = "" then r.Orchestrator else job.Orchestrator,
    Namespace := if job.Namespace = "" then r.Namespace else job.Namespace,
    Manifests := saved.Manifests, Targets := saved.Targets, Resource := saved.Resource }

/-- UpdateJob: inside one transaction, `Session(FullSaveAssociations)
.Where("id = ?", job.ID).Updates(job)` on the rows with `id = job.ID`; a
failing statement (the BeforeUpdate hook of the job, which validates it, runs
with the update) rolls back and its error is returned, otherwise `job` is
returned, in which gorm has set UpdatedAt to the time it wrote. -/
def jobRepository.UpdateJob (env : Env) (job : Job) (db : DB) : Except String Job × DB :=
  match env.fault Stmt.UpdateJob_Updates with
  | some err => (Except.error err, db)
  | none =>
    match env.fault Stmt.UpdateJob_Commit with
    | some err => (Except.error err, db)
    | none =>
      (Except.ok { job with UpdatedAt := env.now },
        { db with jobs := db.jobs.map (fun r => if r.ID = job.ID then updatesRow env job r else r) })

/-- NewJobRepository builds the gorm-backed implementation of the interface. -/
def NewJobRepository (env : Env) : JobRepository DB :=
  { FindJobByUUID := jobRepository.FindJobByUUID env,
    FindJobsToExecute := jobRepository.FindJobsToExecute env,
    JobPromote := jobRepository.JobPromote env,
    FindJobByResourceUUID := jobRepository.FindJobByResourceUUID env,
    UpdateJob := jobRepository.UpdateJob env }

/-! ## service/job_service.go -/

/-- FindJobByUUID of the service delegates to the repository. -/
def jobService.FindJobByUUID {σ : Type} (repo : JobRepository σ) (id : String) (s : σ) :
    Except String Job × σ :=
  repo.FindJobByUUID id s

/-- FindJobsToExecute of the service delegates to the repository. -/
def jobService.FindJobsToExecute {σ : Type} (repo : JobRepository σ)
    (orchestratorType ownerID : String) (s : σ) : Except String (List Job) × σ :=
  repo.FindJobsToExecute orchestratorType ownerID s

/-- JobPromote of the service.  `job_uuid` is the path variable of the request
and `body` the outcome of decoding the request body into a JobOwnershipDTO. -/
def jobService.JobPromote {σ : Type} (repo : JobRepository σ) (job_uuid : String)
    (body : Except String JobOwnershipDTO) (s : σ) : Except String Job × σ :=
  if job_uuid = "" then (Except.error "job ID Cannot be empty", s)
  else
    match body with
    | Except.error err => (Except.error err, s)
    | Except.ok jobOwnershipDTO =>
      if jobOwnershipDTO.OwnerID = "" then (Except.error "owner ID Cannot be empty", s)
      else
        match jobService.FindJobByUUID repo job_uuid s with
        | (Except.error err, s1) => (Except.error err, s1)
        | (Except.ok jobGotten, s1) =>
          if jobGotten.State = JobCreated then
            match repo.JobPromote
                { jobGotten with OwnerID := jobOwnershipDTO.OwnerID, State := JobProgressing } s1 with
            | (Except.error err, s2) => (Except.error err, s2)
            | (Except.ok updatedJob, s2) => (Except.ok updatedJob, s2)
          else if jobGotten.State = JobProgressing ∨ jobGotten.State = JobFinished
              ∨ jobGotten.State = JobDegraded then
            (Except.error "job cannot be promoted", s1)
          else
            (Except.error "job cannot be promoted", s1)

/-! ## repository/jobgroup_repository.go (interface) and service/jobgroup_service.go -/

/-- Outcome of a repository method that receives a pointer: the Go result
`ret`, the value `arg` behind the pointer once the method returns (a gorm
`Create` or `Take` writes into it, a mock leaves it alone) and the store. -/
structure Outcome (α : Type) (σ : Type) where
  ret : Except String α
  arg : α
  store : σ

/-- JobGroupRepository is the interface the group service is built on.
CreateJobGroup returns the group behind the pointer it handed to SaveJobGroup,
so that method returns an `Outcome`. -/
structure JobGroupRepository (σ : Type) where
  SaveJobGroup : JobGroup → σ → Outcome JobGroup σ
  UpdateJobGroup : JobGroup → σ → Except String JobGroup × σ
  DeleteJobGroup : String → σ → Except String Int × σ
  FindJobGroupByUUID : String → σ → Except String JobGroup × σ

/-- FindJobGroupByUUID of the service delegates to the repository. -/
def jobGroupService.FindJobGroupByUUID {σ : Type} (repo : JobGroupRepository σ) (id : String)
    (s : σ) : Except String JobGroup × σ :=
  repo.FindJobGroupByUUID id s

/-- The gating loop of DeleteJobGroupByID over the member jobs, in order: the
error of the first member that blocks the deletion, `none` when the loop runs
to its end. -/
def deleteGate : List Job → Option String
  | [] => none
  | job :: rest =>
    if job.Type_ = DeleteDeployment then
      if job.State ≠ JobFinished ∧ job.State ≠ JobCreated then
        some "JobGroup cannot be deleted, one or more jobs are not in JobFinished state"
      else deleteGate rest
    else
      some "JobGroup cannot be deleted, one or more jobs are not of type DeleteDeployment"

/-- DeleteJobGroupByID of the service. -/
def jobGroupService.DeleteJobGroupByID {σ : Type} (repo : JobGroupRepository σ) (id : String)
    (s : σ) : Except String JobGroup × σ :=
  if id = "" then (Except.error "ID Cannot be empty", s)
  else
    match repo.FindJobGroupByUUID id s with
    | (Except.error err, s1) => (Except.error err, s1)
    | (Except.ok jobGroupGotten, s1) =>
      match deleteGate jobGroupGotten.Jobs with
      | some err => (Except.error err, s1)
      | none =>
        match repo.DeleteJobGroup id s1 with
        | (Except.error err, s2) => (Except.error err, s2)
        | (Except.ok _, s2) => (Except.ok jobGroupGotten, s2)

/-- Body of the loop of StopJobGroupByID on one member job (the `switch
job.State`). -/
def stopJob (job : Job) : Job :=
  if job.State = JobCreated then { job with State := JobFinished, OwnerID := "" }
  else { job with State := JobCreated, Type_ := DeleteDeployment }

/-- StopJobGroupByID of the service. -/
def jobGroupService.StopJobGroupByID {σ : Type} (repo : JobGroupRepository σ) (stringID : String)
    (s : σ) : Except String JobGroup × σ :=
  if stringID = "" then (Except.error "ID Cannot be empty", s)
  else
    match jobGroupService.FindJobGroupByUUID repo stringID s with
    | (Except.error _, s1) => (Except.error "JobGroup not found", s1)
    | (Except.ok jobGroupGotten, s1) =>
      match repo.UpdateJobGroup { jobGroupGotten with Jobs := jobGroupGotten.Jobs.map stopJob } s1 with
      | (Except.error _, s2) => (Except.error "error updating JobGroup", s2)
      | (Except.ok updatedJobGroup, s2) => (Except.ok updatedJobGroup, s2)

/-! ## service/mocks/mock_jobgroup_repository.go -/

/-- A call received by the mock repository, with its argument. -/
inductive JobGroupRepoCall where
  | SaveJobGroup (jg : JobGroup)
  | UpdateJobGroup (jg : JobGroup)
  | DeleteJobGroup (id : String)
  | FindJobGroupByUUID (id : String)
deriving DecidableEq, Repr

/-- The returns configured on the mock (`On(...).Return(...)`), per method and
argument. -/
structure MockReturns where
  SaveJobGroup : JobGroup → Except String JobGroup
  UpdateJobGroup : JobGroup → Except String JobGroup
  DeleteJobGroup : String → Except String Int
  FindJobGroupByUUID : String → Except String JobGroup

/-- MockJobGroupRepository: every method records the call (`m.Called(...)`)
and answers with the configured return; the group behind the pointer is left
as it is.  The store is the list of calls received so far, oldest first. -/
def MockJobGroupRepository (ret : MockReturns) : JobGroupRepository (List JobGroupRepoCall) :=
  { SaveJobGroup := fun jg calls =>
      ⟨ret.SaveJobGroup jg, jg, calls ++ [JobGroupRepoCall.SaveJobGroup jg]⟩,
    UpdateJobGroup := fun jg calls =>
      (ret.UpdateJobGroup jg, calls ++ [JobGroupRepoCall.UpdateJobGroup jg]),
    DeleteJobGroup := fun id calls =>
      (ret.DeleteJobGroup id, calls ++ [JobGroupRepoCall.DeleteJobGroup id]),
    FindJobGroupByUUID := fun id calls =>
      (ret.FindJobGroupByUUID id, calls ++ [JobGroupRepoCall.FindJobGroupByUUID id]) }

/-! ## The dispatch claim in the words of the specification -/

/-- Eligibility as the specification words it for `FindJobsToExecute(o, c)` at
time `now`: the orchestrator matches and one of (1) CreateDeployment, Created,
owner empty or null; (2) CreateDeployment, Progressing or Degraded, owner
different from `c`, updated before `now - 300s`; (3) UpdateDeployment, Created,
owner `c`; (4) DeleteDeployment, Created, owner `c`.  It follows the wording,
not the query: in (2) a null owner counts as different from `c`. -/
def claimedEligible (j : JobRow) (o c : String) (now : Int) : Prop :=
  j.Orchestrator = o ∧
    ((j.Type_ = CreateDeployment ∧ j.State = JobCreated ∧
        (j.OwnerID = some "" ∨ j.OwnerID = none)) ∨
      (j.Type_ = CreateDeployment ∧ (j.State = JobProgressing ∨ j.State = JobDegraded) ∧
        j.OwnerID ≠ some c ∧ j.UpdatedAt < now - 300 * second) ∨
      (j.Type_ = UpdateDeployment ∧ j.State = JobCreated ∧ j.OwnerID = some c) ∨
      (j.Type_ = DeleteDeployment ∧ j.State = JobCreated ∧ j.OwnerID = some c))

/-- A stored CreateDeployment job in state Progressing whose `owner_id` is
NULL, for orchestrator "ocm", last updated at time 0. -/
def staleNullOwnerRow : JobRow :=
  { ID := "6616b77c-dbb0-47aa-bc9b-ff45548db029", Type_ := CreateDeployment,
    State := JobProgressing, OwnerID := none, Orchestrator := "ocm", UpdatedAt := 0 }

/-- An environment with the given clock reading in which no statement fails;
the full save of a job leaves the rows associated to its row as they are (the
case of a job written back with the associations it was read with), and the
keys drawn are "uuid-0", "uuid-1" and so on. -/
def quietEnv (now : Int) : Env :=
  { now := now, fault := fun _ => none, fullSave := fun _ stored => stored,
    newUUID := fun n => "uuid-" ++ toString n }

/-- A stored CreateDeployment job in state Created with the empty owner, for
orchestrator "ocm". -/
def unclaimedRow : JobRow :=
  { ID := "27a69131-f34d-44b3-9063-81501a1c0fc8", Type_ := CreateDeployment,
    State := JobCreated, OwnerID := some "", Orchestrator := "ocm" }

/-- A stored CreateDeployment job in state Progressing leased to owner "A",
for orchestrator "ocm", last updated at time 0. -/
def leasedRow : JobRow :=
  { ID := "19d0baf9-0b90-4c36-8e41-5b18e8acbeec", Type_ := CreateDeployment,
    State := JobProgressing, OwnerID := some "A", Orchestrator := "ocm", UpdatedAt := 0 }

/-- Returns configured on the mock for the examples: the lookup answers with
`jg`, the delete reports one row, save and update answer with their argument. -/
def mockReturns (jg : JobGroup) : MockReturns :=
  { SaveJobGroup := fun g => Except.ok g,
    UpdateJobGroup := fun g => Except.ok g,
    DeleteJobGroup := fun _ => Except.ok 1,
    FindJobGroupByUUID := fun _ => Except.ok jg }

/-- A group whose only member is a DeleteDeployment job in state Finished (the
group of the DeleteJobGroupByID test). -/
def finishedGroup : JobGroup :=
  { ID := "g-1", AppName := "example-jobgroup",
    Jobs := [{ ID := "j-1", Type_ := DeleteDeployment, State := JobFinished }] }

/-- A group with a Created member owned by "A" and a Progressing
CreateDeployment member owned by "B". -/
def runningGroup : JobGroup :=
  { ID := "g-2", AppName := "example-jobgroup",
    Jobs := [{ ID := "j-1", Type_ := CreateDeployment, State := JobCreated, OwnerID := "A" },
             { ID := "j-2", Type_ := CreateDeployment, State := JobProgressing, OwnerID := "B" }] }

/-! ## models/models.go: incompliance reports and remediation kinds -/

/-- ScaleUp remediation kind. -/
def ScaleUp : RemediationType := "scale-up"

/-- ScaleDown remediation kind. -/
def ScaleDown : RemediationType := "scale-down"

/-- ScaleOut remediation kind. -/
def ScaleOut : RemediationType := "scale-out"

/-- ScaleIn remediation kind. -/
def ScaleIn : RemediationType := "scale-in"

/-- PatchDeployment remediation kind. -/
def PatchDeployment : RemediationType := "patch"

/-- Reallocation remediation kind. -/
def Reallocation : RemediationType := "reallocation"

/-- Subject entity (BaseUUID embedded); field Type is spelled Type_. -/
structure Subject where
  ID : String := ""
  CreatedAt : Int := 0
  UpdatedAt : Int := 0
  IncomplianceID : String := ""
  Type_ : String := ""
  AppName : String := ""
  AppComponent : String := ""
  AppInstance : String := ""
  ResourceID : String := ""
deriving DecidableEq, Repr, Inhabited

/-- Incompliance entity (BaseUUID embedded); `ExtraLabels` (a string map) is
kept as its list of entries. -/
structure Incompliance where
  ID : String := ""
  CreatedAt : Int := 0
  UpdatedAt : Int := 0
  CurrentValue : String := ""
  Threshold : String := ""
  PolicyName : String := ""
  PolicyID : String := ""
  MeasurementBackend : String := ""
  ExtraLabels : List (String × String) := []
  Subject : Subject := {}
  Remediation : RemediationType := ""
deriving DecidableEq, Repr, Inhabited

/-! ## repository/policy_repository.go (interface) and service/policy_service.go -/

/-- PolicyRepository is the interface of the incompliance store. -/
structure PolicyRepository (σ : Type) where
  SaveIncompliance : Incompliance → σ → Outcome Incompliance σ

/-- The `switch incompliance.Remediation` of HandlePolicyIncompliance: the
sub-type of the job after it, `current` being the sub-type before.  The switch
has the cases ScaleUp, ScaleDown, ScaleIn, ScaleOut and Reallocation and no
default. -/
def remediationSubType (remediation current : RemediationType) : RemediationType :=
  if remediation = ScaleUp then ScaleUp
  else if remediation = ScaleDown then ScaleDown
  else if remediation = ScaleIn then ScaleIn
  else if remediation = ScaleOut then ScaleOut
  else if remediation = Reallocation then Reallocation
  else current

/-- The job HandlePolicyIncompliance hands to `UpdateJob`: `jobGotten` after
the assignments to State, Type and SubType. -/
def remediatedJob (incompliance : Incompliance) (jobGotten : Job) : Job :=
  { jobGotten with
    State := JobCreated,
    Type_ := UpdateDeployment,
    SubType := remediationSubType incompliance.Remediation jobGotten.SubType }

/-- HandlePolicyIncompliance of the policy service.  `incomplianceBody` is the
outcome of `json.Unmarshal` on the request body.  The result is the Go pair
(record, error): `none` in the first place is the nil pointer, `none` in the
second the nil error. -/
def policyService.HandlePolicyIncompliance {σ : Type} (policyRepository : PolicyRepository σ)
    (jobRepository : JobRepository σ) (incomplianceBody : Except String Incompliance) (s : σ) :
    (Option Incompliance × Option String) × σ :=
  match incomplianceBody with
  | Except.error err => ((none, some err), s)
  | Except.ok parsed =>
    match policyRepository.SaveIncompliance parsed s with
    | ⟨Except.error err, _, s1⟩ => ((none, some err), s1)
    | ⟨Except.ok _, incompliance, s1⟩ =>
      match jobRepository.FindJobByResourceUUID incompliance.Subject.ResourceID s1 with
      | (Except.error err, s2) => ((none, some err), s2)
      | (Except.ok jobGotten, s2) =>
        if jobGotten.OwnerID = "" then ((none, some "OwnerID cannot be nil"), s2)
        else if jobGotten.State ≠ JobFinished then ((none, some "job cannot be remediated"), s2)
        else
          match jobRepository.UpdateJob (remediatedJob incompliance jobGotten) s2 with
          | (Except.error err, s3) => ((none, some err), s3)
          | (Except.ok _, s3) => ((some incompliance, none), s3)

/-! ## service/jobgroup_service.go: UpdateJobGroup -/

/-- The `jobMap` of UpdateJobGroup after the loop `jobMap[updatedJob.ID] =
updatedJob` over the incoming jobs: a later job overwrites an earlier one with
the same ID. -/
def buildJobMap (incoming : List Job) : String → Option Job :=
  incoming.foldl
    (fun jobMap updatedJob => fun key => if key = updatedJob.ID then some updatedJob else jobMap key)
    (fun _ => none)

/-- The merge of UpdateJobGroup: when the incoming list is not empty, every
slot of the existing list whose ID is a key of `jobMap` is assigned the job
stored under that key. -/
def mergeJobs (existing incoming : List Job) : List Job :=
  if incoming.length > 0 then
    existing.map (fun job =>
      match buildJobMap incoming job.ID with
      | some updatedJob => updatedJob
      | none => job)
  else existing

/-- Body of the second loop of UpdateJobGroup on one member job. -/
def resetJob (job : Job) : Job :=
  if job.OwnerID ≠ "" then { job with State := JobCreated, Type_ := ReplaceDeployment }
  else { job with State := JobCreated, Type_ := CreateDeployment }

/-- UpdateJobGroup of the service.  `bodyJob` is the outcome of
`json.Unmarshal` on the request body. -/
def jobGroupService.UpdateJobGroup {σ : Type} (repo : JobGroupRepository σ)
    (bodyJob : Except String JobGroup) (s : σ) : Except String JobGroup × σ :=
  match bodyJob with
  | Except.error err => (Except.error err, s)
  | Except.ok jobGroupUpdate =>
    match jobGroupService.FindJobGroupByUUID repo jobGroupUpdate.ID s with
    | (Except.error err, s1) => (Except.error err, s1)
    | (Except.ok existingJobGroup, s1) =>
      match repo.UpdateJobGroup
          { existingJobGroup with
            AppName := jobGroupUpdate.AppName,
            AppDescription := jobGroupUpdate.AppDescription,
            Jobs := (mergeJobs existingJobGroup.Jobs jobGroupUpdate.Jobs).map resetJob } s1 with
      | (Except.error err, s2) => (Except.error err, s2)
      | (Except.ok jobGroupUpdated, s2) => (Except.ok jobGroupUpdated, s2)

/-- The existing group of the UpdateJobGroup test extended by a second member:
a finished CreateDeployment job without owner and a progressing job owned by
"owner-1". -/
def existingGroup : JobGroup :=
  { ID := "27a69131-f34d-44b3-9063-81501a1c0fc8", AppName := "existing-jobgroup",
    AppDescription := "existing-description",
    Jobs := [{ ID := "6616b77c-dbb0-47aa-bc9b-ff45548db029", Type_ := CreateDeployment,
               State := JobFinished, Namespace := "old" },
             { ID := "j-2", Type_ := DeleteDeployment, State := JobProgressing,
               OwnerID := "owner-1" }] }

/-- An update document for `existingGroup`: it renames the group, replaces the
first member (twice: the later entry counts) and carries a job that is not a
member. -/
def updateDocument : JobGroup :=
  { ID := "27a69131-f34d-44b3-9063-81501a1c0fc8", AppName := "updated-jobgroup",
    AppDescription := "updated-description",
    Jobs := [{ ID := "6616b77c-dbb0-47aa-bc9b-ff45548db029", Type_ := DeleteDeployment,
               State := JobDegraded, Namespace := "first" },
             { ID := "j-9", Type_ := CreateDeployment, State := JobCreated },
             { ID := "6616b77c-dbb0-47aa-bc9b-ff45548db029", Type_ := DeleteDeployment,
               State := JobDegraded, OwnerID := "owner-2", Namespace := "second" }] }

/-! ## repository/resource_repository.go (interface) -/

/-- ResourceRepository is the interface of the resource store (the methods
UpdateResourceState calls).  Every method receives `*models.Resource`. -/
structure ResourceRepository (σ : Type) where
  UpdateAResource : Resource → σ → Outcome Resource σ
  AddCondition : Resource → Condition → σ → Outcome Resource σ
  RemoveConditions : Resource → σ → Outcome Resource σ

/-! ## service/mocks: recording repositories for the job, policy and resource stores -/

/-- A call received by a recording repository, with its arguments. -/
inductive RepoCall where
  | SaveIncompliance (incompliance : Incompliance)
  | FindJobByUUID (id : String)
  | FindJobsToExecute (orchestratorType ownerID : String)
  | JobPromote (job : Job)
  | FindJobByResourceUUID (uid : String)
  | UpdateJob (job : Job)
  | UpdateAResource (r : Resource)
  | AddCondition (r : Resource) (c : Condition)
  | RemoveConditions (r : Resource)
deriving DecidableEq, Repr

/-- The returns configured on the recording repositories, per method and
argument. -/
structure RepoReturns where
  SaveIncompliance : Incompliance → Except String Incompliance
  FindJobByUUID : String → Except String Job
  FindJobsToExecute : String → String → Except String (List Job)
  JobPromote : Job → Except String Job
  FindJobByResourceUUID : String → Except String Job
  UpdateJob : Job → Except String Job
  UpdateAResource : Resource → Except String Resource
  AddCondition : Resource → Condition → Except String Resource
  RemoveConditions : Resource → Except String Resource

/-- MockResourceRepository (mock_resource_repository.go): every method records
the call and answers with the configured return; the resource behind the
pointer is left as it is. -/
def MockResourceRepository (ret : RepoReturns) : ResourceRepository (List RepoCall) :=
  { UpdateAResource := fun r calls =>
      ⟨ret.UpdateAResource r, r, calls ++ [RepoCall.UpdateAResource r]⟩,
    AddCondition := fun r c calls =>
      ⟨ret.AddCondition r c, r, calls ++ [RepoCall.AddCondition r c]⟩,
    RemoveConditions := fun r calls =>
      ⟨ret.RemoveConditions r, r, calls ++ [RepoCall.RemoveConditions r]⟩ }

/-- MockJobRepository, the recording job repository the service tests use (its
file is not among the sources; it is written here in the manner of the two
mocks that are): every method records the call and answers with the
configured return. -/
def MockJobRepository (ret : RepoReturns) : JobRepository (List RepoCall) :=
  { FindJobByUUID := fun id calls => (ret.FindJobByUUID id, calls ++ [RepoCall.FindJobByUUID id]),
    FindJobsToExecute := fun o c calls =>
      (ret.FindJobsToExecute o c, calls ++ [RepoCall.FindJobsToExecute o c]),
    JobPromote := fun job calls => (ret.JobPromote job, calls ++ [RepoCall.JobPromote job]),
    FindJobByResourceUUID := fun uid calls =>
      (ret.FindJobByResourceUUID uid, calls ++ [RepoCall.FindJobByResourceUUID uid]),
    UpdateJob := fun job calls => (ret.UpdateJob job, calls ++ [RepoCall.UpdateJob job]) }

/-- MockPolicyRepository, the recording policy repository the service tests use
(written in the manner of the mocks among the sources): it records the call,
answers with the configured return and leaves the record behind the pointer
as it is. -/
def MockPolicyRepository (ret : RepoReturns) : PolicyRepository (List RepoCall) :=
  { SaveIncompliance := fun incompliance calls =>
      ⟨ret.SaveIncompliance incompliance, incompliance,
        calls ++ [RepoCall.SaveIncompliance incompliance]⟩ }

/-- The job of the HandlePolicyIncompliance test: Finished, owned by
"owner-123", of type UpdateDeployment, with the given sub-type. -/
def finishedJob (subType : RemediationType) : Job :=
  { ID := "6616b77c-dbb0-47aa-bc9b-ff45548db029",
    JobGroupID := "27a69131-f34d-44b3-9063-81501a1c0fc8", OwnerID := "owner-123",
    State := JobFinished, Type_ := UpdateDeployment, SubType := subType,
    Resource := some { ID := "19d0baf9-0b90-4c36-8e41-5b18e8acbeec", ResourceName := "producer" } }

/-- The report of the HandlePolicyIncompliance test with the given remediation
kind. -/
def report (remediation : RemediationType) : Incompliance :=
  { CurrentValue := "235.365", Threshold := "warning",
    PolicyName := "compss-low-performance-20",
    PolicyID := "fd745e25-0ca3-418b-b310-257693e3f3bf", MeasurementBackend := "prom-1",
    Subject := { Type_ := "app", AppComponent := "producer",
                 AppInstance := "27a69131-f34d-44b3-9063-81501a1c0fc8",
                 ResourceID := "19d0baf9-0b90-4c36-8e41-5b18e8acbeec" },
    Remediation := remediation }

/-- Returns configured for the examples: every lookup answers with `job`, the
job update answers with `update`, every other method with its argument. -/
def repoReturns (job : Job) (update : Except String Job) : RepoReturns :=
  { SaveIncompliance := fun i => Except.ok i,
    FindJobByUUID := fun _ => Except.ok job,
    FindJobsToExecute := fun _ _ => Except.ok [job],
    JobPromote := fun j => Except.ok j,
    FindJobByResourceUUID := fun _ => Except.ok job,
    UpdateJob := fun _ => update,
    UpdateAResource := fun r => Except.ok r,
    AddCondition := fun r _ => Except.ok r,
    RemoveConditions := fun r => Except.ok r }

/-! ## repository/resource_repository.go (gorm implementation) -/

/-- State of the gorm-backed resource repository: the database and the handle
`repo.db`, which UpdateAResource re-assigns with the statement it has just run
(`repo.db = repo.db.Session(...).Where("job_id = ?", ...).Updates(...)`).  Of
that handle the state keeps what later statements inherit from it: its `Error`
(`handleError`; gorm runs no statement on a handle that carries an error) and
the conditions `job_id = ?` added so far (`handleJobIDs`, oldest first).  A
re-assigned handle, one whose `handleJobIDs` is not empty, also carries the
model `models.Resource`, so a statement that names no model of its own is
built for table `resources`.  The rows of `resources` are the resources of the
job rows together with `strayResources`, the rows AddCondition writes into
that table; they carry the id of a resource as `job_id` and belong to no job
row.  The rows of `conditions` are the conditions of the resources. -/
structure ResourceStore where
  db : DB := {}
  handleError : Option String := none
  handleJobIDs : List String := []
  strayResources : List Resource := []
deriving DecidableEq, Repr, Inhabited

/-- Apply an update to every row of table `resources`. -/
def mapResources (f : Resource → Resource) (jobs : List JobRow) : List JobRow :=
  jobs.map (fun r => { r with Resource := r.Resource.map f })

/-- The rows of table `resources`, each with its conditions. -/
def resourcesOf (jobs : List JobRow) : List Resource :=
  jobs.filterMap (fun r => r.Resource)

/-- The rows of table `conditions`. -/
def conditionsOf (jobs : List JobRow) : List Condition :=
  ((resourcesOf jobs).map (fun x => x.Conditions)).flatten

/-- UpdateAResource: the statement `Where("job_id = ?", resource.JobID)
.Updates(&models.Resource{ResourceUID: ..., ResourceName: ...})` is built on
the handle and becomes the new handle `repo.db`, so it runs under every
`job_id = ?` the handle carries and the new one (gorm writes the non-zero
fields and `updated_at`; a statement that matches no row is no error).  Then
`Where("job_id = ?", resource.JobID).Preload("Conditions").Take(&resource)`,
built on the new handle, reads the stored row with its stored conditions into
the resource behind the pointer (gorm adds the primary key of a non-zero
`resource.ID` to the condition).  On a handle that carries an error nothing
runs and that error is returned. -/
def resourceRepository.UpdateAResource (env : Env) (resource : Resource) (st : ResourceStore) :
    Outcome Resource ResourceStore :=
  let carried := st.handleJobIDs ++ [resource.JobID]
  match st.handleError with
  | some err => ⟨Except.error err, resource, { st with handleJobIDs := carried }⟩
  | none =>
    match env.fault Stmt.UpdateAResource_Updates with
    | some err =>
      ⟨Except.error err, resource, { st with handleError := some err, handleJobIDs := carried }⟩
    | none =>
      let jobs1 := mapResources (fun x =>
        if carried.all (fun id => x.JobID == id) then
          { x with
            ResourceUID := if resource.ResourceUID = "" then x.ResourceUID else resource.ResourceUID,
            ResourceName :=
              if resource.ResourceName = "" then x.ResourceName else resource.ResourceName,
            UpdatedAt := env.now }
        else x) st.db.jobs
      let st1 : ResourceStore := { st with db := { st.db with jobs := jobs1 }, handleJobIDs := carried }
      match env.fault Stmt.UpdateAResource_Take with
      | some err => ⟨Except.error err, resource, st1⟩
      | none =>
        match (resourcesOf jobs1).find? (fun x =>
            carried.all (fun id => x.JobID == id) &&
              (resource.ID == "" || x.ID == resource.ID)) with
        | none => ⟨Except.error "record not found", resource, st1⟩
        | some x => ⟨Except.ok x, x, st1⟩

/-- RemoveConditions: `Model(&models.Resource{}).Where("resource_id =?",
resource.ID).Delete(&models.Condition{})`.  The model named is the resource,
so the DELETE is built for table `resources`, which has no column
`resource_id`: the database rejects it on every call and no row is deleted.
The method then returns an empty resource with `repo.db.Error`, the error of
the handle and not of the statement. -/
def resourceRepository.RemoveConditions (resource : Resource) (st : ResourceStore) :
    Outcome Resource ResourceStore :=
  match st.handleError with
  | some err => ⟨Except.error err, resource, st⟩
  | none => ⟨Except.ok {}, resource, st⟩

/-- Effect of `Create(&condition)` on table `conditions`, for a handle that
carries no model: the insert is refused when the database reports an error,
when the primary key is already taken, or when no resource has the id
`condition.ResourceID` (foreign key); otherwise the row is added to the
conditions of that resource, a zero ID being replaced by the next free one and
zero timestamps by the current time. -/
def createCondition (env : Env) (condition : Condition) (jobs : List JobRow) : List JobRow :=
  match env.fault Stmt.AddCondition_Create with
  | some _ => jobs
  | none =>
    if condition.ID ≠ 0 ∧ (conditionsOf jobs).any (fun c => c.ID == condition.ID) then jobs
    else
      let row : Condition :=
        { condition with
          ID := if condition.ID = 0 then
              ((conditionsOf jobs).map (fun c => c.ID)).foldl max 0 + 1
            else condition.ID,
          CreatedAt := if condition.CreatedAt = 0 then env.now else condition.CreatedAt,
          UpdatedAt := if condition.UpdatedAt = 0 then env.now else condition.UpdatedAt }
      mapResources (fun x =>
        if x.ID = condition.ResourceID then { x with Conditions := x.Conditions ++ [row] } else x)
        jobs

/-- The row of table `resources` that `Create(&condition)` builds on a handle
carrying the model `models.Resource`: gorm reads the columns of the model off
the condition by position, so `id` is the condition's ID, `job_id` its
ResourceID, `resource_uid` its Type and `resource_name` its Status; zero
timestamps are replaced by the current time. -/
def strayResource (env : Env) (condition : Condition) : Resource :=
  { ID := toString condition.ID, JobID := condition.ResourceID, ResourceUID := condition.Type_,
    ResourceName := condition.Status,
    CreatedAt := if condition.CreatedAt = 0 then env.now else condition.CreatedAt,
    UpdatedAt := if condition.UpdatedAt = 0 then env.now else condition.UpdatedAt }

/-- Effect of `Create(&condition)` on a re-assigned handle: the INSERT goes to
table `resources`, never to `conditions`.  The row is refused when the database
reports an error (a database that enforces the foreign key of `job_id` does)
or when its primary key is already taken. -/
def createStray (env : Env) (condition : Condition) (st : ResourceStore) : List Resource :=
  match env.fault Stmt.AddCondition_Create with
  | some _ => st.strayResources
  | none =>
    if (resourcesOf st.db.jobs ++ st.strayResources).any
        (fun x => x.ID == toString condition.ID) then st.strayResources
    else st.strayResources ++ [strayResource env condition]

/-- AddCondition: `err := repo.db.Debug().Create(&condition)` runs the insert
on the handle: into `conditions` while the handle is the one the repository
was built with, into `resources` once UpdateAResource has re-assigned it, not
at all when the handle carries an error.  `err` is the `*gorm.DB` the call
returns, never nil, so `if err != nil` always returns an empty resource with
`repo.db.Error`, the error of the handle and not of the insert; the `Take`
below it is never reached. -/
def resourceRepository.AddCondition (env : Env) (resource : Resource) (condition : Condition)
    (st : ResourceStore) : Outcome Resource ResourceStore :=
  match st.handleError with
  | some err => ⟨Except.error err, resource, st⟩
  | none =>
    if st.handleJobIDs = [] then
      ⟨Except.ok {}, resource,
        { st with db := { st.db with jobs := createCondition env condition st.db.jobs } }⟩
    else
      ⟨Except.ok {}, resource, { st with strayResources := createStray env condition st }⟩

/-- NewResourceRepository builds the gorm-backed resource repository. -/
def NewResourceRepository (env : Env) : ResourceRepository ResourceStore :=
  { UpdateAResource := resourceRepository.UpdateAResource env,
    AddCondition := resourceRepository.AddCondition env,
    RemoveConditions := resourceRepository.RemoveConditions }

/-- The gorm-backed job repository acting on the database of a ResourceStore
(both repositories are built on the same `server.DB`). -/
def NewJobRepositoryOnStore (env : Env) : JobRepository ResourceStore :=
  { FindJobByUUID := fun id st =>
      ((jobRepository.FindJobByUUID env id st.db).1,
        { st with db := (jobRepository.FindJobByUUID env id st.db).2 }),
    FindJobsToExecute := fun o c st =>
      ((jobRepository.FindJobsToExecute env o c st.db).1,
        { st with db := (jobRepository.FindJobsToExecute env o c st.db).2 }),
    JobPromote := fun job st =>
      ((jobRepository.JobPromote env job st.db).1,
        { st with db := (jobRepository.JobPromote env job st.db).2 }),
    FindJobByResourceUUID := fun uid st =>
      ((jobRepository.FindJobByResourceUUID env uid st.db).1,
        { st with db := (jobRepository.FindJobByResourceUUID env uid st.db).2 }),
    UpdateJob := fun job st =>
      ((jobRepository.UpdateJob env job st.db).1,
        { st with db := (jobRepository.UpdateJob env job st.db).2 }) }

/-! ## service/resource_service.go -/

/-- The loop `for _, condition := range resource.Conditions` of
UpdateResourceState over the conditions still to add: each is given
`resource.ID` and handed to AddCondition; the first error ends the operation. -/
def addConditions {σ : Type} (resourceRepository : ResourceRepository σ) (resource : Resource) :
    List Condition → σ → Except String Resource × σ
  | [], s => (Except.ok resource, s)
  | condition :: rest, s =>
    match resourceRepository.AddCondition resource
        { condition with ResourceID := resource.ID } s with
    | ⟨Except.error err, _, s1⟩ => (Except.error err, s1)
    | ⟨Except.ok _, resource1, s1⟩ => addConditions resourceRepository resource1 rest s1

/-- UpdateResourceState of the resource service.  `resourceBody` is the outcome
of `json.Unmarshal` on the request body.  A job found without a resource makes
`jobGotten.Resource.ID` dereference a nil pointer; that panic is the error
"panic: nil pointer dereference" here.  The result of RemoveConditions is
discarded by the code. -/
def resourceService.UpdateResourceState {σ : Type} (resourceRepository : ResourceRepository σ)
    (jobRepository : JobRepository σ) (resourceBody : Except String Resource) (s : σ) :
    Except String Resource × σ :=
  match resourceBody with
  | Except.error err => (Except.error err, s)
  | Except.ok parsed =>
    match jobRepository.FindJobByResourceUUID parsed.ResourceUID s with
    | (Except.error err, s1) => (Except.error err, s1)
    | (Except.ok jobGotten, s1) =>
      match jobGotten.Resource with
      | none => (Except.error "panic: nil pointer dereference", s1)
      | some jobResource =>
        match resourceRepository.UpdateAResource
            { parsed with ResourceUID := jobGotten.ID, ID := jobResource.ID,
                          JobID := jobGotten.ID } s1 with
        | ⟨Except.error err, _, s2⟩ => (Except.error err, s2)
        | ⟨Except.ok _, resource1, s2⟩ =>
          match resourceRepository.RemoveConditions resource1 s2 with
          | ⟨_, resource2, s3⟩ => addConditions resourceRepository resource2 resource2.Conditions s3

/-! ## controllers/resource_controller.go -/

/-- What a handler writes: the HTTP status with either the error text
(`responses.ERROR(w, status, err)`) or the data (`responses.JSON(w, status,
data)`): a resource for the resource handler, a list of jobs for the job
handler.  Package `responses` is not among the sources; its two functions are
taken to write the status they are given. -/
structure Response where
  status : Nat
  error : Option String := none
  resource : Option Resource := none
  jobs : Option (List Job) := none
deriving DecidableEq, Repr

/-- UpdateResourceStateByUUID, the handler of `PUT /jobmanager/resources/status`.
`body` is the outcome of `io.ReadAll(r.Body)` and, inside, of decoding the
bytes read. -/
def Server.UpdateResourceStateByUUID {σ : Type} (resourceRepository : ResourceRepository σ)
    (jobRepository : JobRepository σ) (body : Except String (Except String Resource)) (s : σ) :
    Response × σ :=
  match body with
  | Except.error err => ({ status := 422, error := some err }, s)
  | Except.ok resourceBody =>
    match resourceService.UpdateResourceState resourceRepository jobRepository resourceBody s with
    | (Except.error err, s1) =>
      if err = "not found" then ({ status := 404, error := some err }, s1)
      else ({ status := 400, error := some err }, s1)
    | (Except.ok updatedResource, s1) => ({ status := 200, resource := some updatedResource }, s1)

/-- A stored job "j-1" whose resource "r-1", known by `resource_uid` "R1",
holds the two conditions Progressing and Degraded. -/
def jobWithStatus : JobRow :=
  { ID := "j-1", Type_ := CreateDeployment, State := JobProgressing, OwnerID := some "A",
    Orchestrator := "ocm",
    Resource := some
      { ID := "r-1", JobID := "j-1", ResourceUID := "R1", ResourceName := "producer",
        Conditions := [{ ID := 1, ResourceID := "r-1", Type_ := "Progressing", Status := "True",
                         CreatedAt := 5, UpdatedAt := 5 },
                       { ID := 2, ResourceID := "r-1", Type_ := "Degraded", Status := "False",
                         CreatedAt := 5, UpdatedAt := 5 }] } }

/-- The status document of the specification's example: resource "R1" with the
single condition Ready. -/
def statusDocument : Resource :=
  { ResourceUID := "R1", Conditions := [{ Type_ := "Ready", Status := "True" }] }

/-- The row `jobWithStatus` as UpdateAResource leaves it at time 9: the
`resource_uid` of its resource is overwritten with the job id. -/
def jobWithStatusAfter : JobRow :=
  { jobWithStatus with
    Resource := some
      { ID := "r-1", JobID := "j-1", ResourceUID := "j-1", ResourceName := "producer",
        UpdatedAt := 9,
        Conditions := [{ ID := 1, ResourceID := "r-1", Type_ := "Progressing", Status := "True",
                         CreatedAt := 5, UpdatedAt := 5 },
                       { ID := 2, ResourceID := "r-1", Type_ := "Degraded", Status := "False",
                         CreatedAt := 5, UpdatedAt := 5 }] } }

/-! ## models/models.go: orchestrator types; controllers/job_controller.go -/

/-- OCM orchestrator type. -/
def OCM : OrchestratorType := "ocm"

/-- Nuvla orchestrator type. -/
def Nuvla : OrchestratorType := "nuvla"

/-- None is the empty orchestrator type. -/
def None : OrchestratorType := ""

/-- OrchestratorTypeMapper: the `switch orchestratorType` with the cases
`string(Nuvla)`, `string(OCM)` and `default`.  Go compares strings byte by
byte. -/
def OrchestratorTypeMapper (orchestratorType : String) : OrchestratorType :=
  if orchestratorType = Nuvla then Nuvla
  else if orchestratorType = OCM then OCM
  else None

/-- GetJobsByState, the handler of `GET /jobmanager/jobs/executable/
{orchestrator}/{owner_id}`; `orch` and `ownerID` are the two path variables.
The job service it calls is the one built on `jobRepository`.
`isRecordNotFound err` is `errors.Is(err, gorm.ErrRecordNotFound)`: whether the
error the service returned is, or wraps, that value of package gorm, which the
text of an error does not decide. -/
def Server.GetJobsByState {σ : Type} (jobRepository : JobRepository σ)
    (isRecordNotFound : String → Bool) (orch ownerID : String) (s : σ) : Response × σ :=
  if None = OrchestratorTypeMapper orch then
    ({ status := 400, error := some "no valid orchestrator type provided" }, s)
  else
    match jobService.FindJobsToExecute jobRepository orch ownerID s with
    | (Except.error err, s1) =>
      if isRecordNotFound err then ({ status := 404, error := some err }, s1)
      else ({ status := 500, error := some err }, s1)
    | (Except.ok jobGotten, s1) => ({ status := 200, jobs := some jobGotten }, s1)

/-! ## repository/job_repository_test.go: MockJob -/

/-- MockJob of the repository tests as it is stored: the three ids are fresh
uuids (parameters here); the fields carry the literals of the test, among them
`Type: 1` (commented there as CreateDeployment) and `State: 1` (JobCreated). -/
def MockJob (id groupID ownerID : String) : Job :=
  { ID := id, JobGroupID := groupID, OwnerID := ownerID,
    JobGroupName := "Mock Job Group Name",
    JobGroupDescription := "Mock Job Group Description",
    Type_ := 1, SubType := "", State := 1, Manifests := [], Targets := {},
    Orchestrator := "Mock Orchestrator", Resource := some {}, Namespace := "Mock Namespace" }

/-! ## models/models.go: application descriptor; service/jobgroup_service.go: CreateJobGroup -/

/-- ManifestDTO names one manifest of a component. -/
structure ManifestDTO where
  Name : String := ""
deriving DecidableEq, Repr, Inhabited

/-- The dynamic value of field `Targets interface{}` of a Component, as far as
the type switch of CreateJobGroup tells values apart.  `object` is a
`map[string]interface{}` (a JSON object); `decoded` is what `json.Marshal` of
the map followed by `json.Unmarshal` into `models.Target` gives, the target or
the error of the step that failed.  `array` is a `[]interface{}` with its
length.  `other` is any other dynamic type (a scalar, nil for a missing or
null field, the `map[interface{}]interface{}` of a YAML mapping) with the text
`%T` prints for it. -/
inductive TargetsValue where
  | object (decoded : Except String Target)
  | array (length : Nat)
  | other (typeName : String)

/-- Component of an application descriptor.  Fields Requirements and Policies,
which CreateJobGroup does not read, are left out; field Type is spelled
Type_. -/
structure Component where
  Name : String := ""
  Type_ : String := ""
  Manifests : List ManifestDTO := []
  Targets : TargetsValue := TargetsValue.other "<nil>"

/-- One entry of `Manifests []map[string]interface{}` of the descriptor, as far
as CreateJobGroup looks at it: `metadataName` is `manifest["metadata"]["name"]`
when `metadata` is a map and `name` a string (`none` otherwise), `yaml` the
outcome of `yaml.Marshal(manifest)` and `decodeError` the error, if any, of
`decodeYAMLToObject` on the marshalled text (the decoding is done by the
Kubernetes libraries). -/
structure Manifest where
  metadataName : Option String := none
  yaml : Except String String := Except.ok ""
  decodeError : Option String := none

/-- JobGroupHeader is the application descriptor (field Policies, which
CreateJobGroup does not read, is left out). -/
structure JobGroupHeader where
  Name : String := ""
  Description : String := ""
  Components : List Component := []
  Manifests : List Manifest := []

/-- How a call ends: it returns its Go result to the caller, or the process is
ended inside it.  `logs.Logger.Fatalf` (package `utils/logs` is not among the
sources) is taken as the Fatalf of a Go `log.Logger`: it writes the message
and calls `os.Exit(1)`; `exited` carries the message written. -/
inductive Completion (α : Type) where
  | returned (result : Except String α)
  | exited (message : String)

/-- The two conditions every new resource is given; `t1` and `t2` are the two
readings of `time.Now()`. -/
def jobGroupService.conditions (t1 t2 : Int) : List Condition :=
  [{ Type_ := "Created", Status := "True", ObservedGeneration := 1, LastTransitionTime := t1,
     Reason := "AwaitingForTarget", Message := "Waiting for the Target" },
   { Type_ := "Created", Status := "True", ObservedGeneration := 1, LastTransitionTime := t2,
     Reason := "AwaitingForExecution", Message := "Waiting an Orchestrator to take the Job" }]

/-- The loop over `applicationDescriptor.Manifests` inside the component loop:
for each manifest with a name, and each reference of the component with that
name, the marshalled manifest is appended when it marshals and decodes; every
failure skips (`continue`). -/
def jobGroupService.manifestsOf (manifests : List Manifest) (comp : Component) :
    List PlainManifest :=
  (manifests.map (fun manifest =>
    match manifest.metadataName with
    | none => []
    | some manifestName =>
      comp.Manifests.filterMap (fun manifestRef =>
        if manifestRef.Name = manifestName then
          match manifest.yaml, manifest.decodeError with
          | Except.ok manifestYAML, none => some { YamlString := manifestYAML }
          | _, _ => none
        else none))).flatten

/-- Body of the loop of CreateJobGroup on one component: the new job, the type
switch on `comp.Targets` and the manifests. -/
def jobGroupService.componentJob (applicationDescriptor : JobGroupHeader) (appName : String)
    (conditions : List Condition) (comp : Component) : Completion Job :=
  let job : Job :=
    { Type_ := CreateDeployment, State := JobCreated, JobGroupName := appName,
      Namespace := applicationDescriptor.Name,
      Resource := some { ResourceName := comp.Name, Conditions := conditions } }
  match comp.Targets with
  | TargetsValue.object (Except.error err) => Completion.returned (Except.error err)
  | TargetsValue.object (Except.ok targetStruct) =>
    Completion.returned (Except.ok
      { job with Targets := targetStruct, Orchestrator := targetStruct.Orchestrator,
                 Manifests := jobGroupService.manifestsOf applicationDescriptor.Manifests comp })
  | TargetsValue.array 0 =>
    Completion.returned (Except.ok
      { job with Targets := {},
                 Manifests := jobGroupService.manifestsOf applicationDescriptor.Manifests comp })
  | TargetsValue.array (_ + 1) => Completion.exited "Unexpected non-empty array for targets"
  | TargetsValue.other typeName => Completion.exited ("Unexpected type for targets: " ++ typeName)

/-- The loop `for _, comp := range applicationDescriptor.Components` of
CreateJobGroup; `jobs` is `jobGroup.Jobs` so far. -/
def jobGroupService.componentJobs (applicationDescriptor : JobGroupHeader) (appName : String)
    (conditions : List Condition) : List Component → List Job → Completion (List Job)
  | [], jobs => Completion.returned (Except.ok jobs)
  | comp :: rest, jobs =>
    match jobGroupService.componentJob applicationDescriptor appName conditions comp with
    | Completion.exited message => Completion.exited message
    | Completion.returned (Except.error err) => Completion.returned (Except.error err)
    | Completion.returned (Except.ok job) =>
      jobGroupService.componentJobs applicationDescriptor appName conditions rest (jobs ++ [job])

/-- CreateJobGroup of the group service.  `resolved` is the outcome of the
first part of the function, which touches no repository: the request body
unmarshalled as YAML into the descriptor, the body posted to the matchmaker,
and the JSON answer unmarshalled into the same descriptor; a failing step
returns its error.  `t1` and `t2` are the two readings of `time.Now()` and
`newUUID` is `uuid.New().String()`.  On success the function returns the group
behind the pointer it handed to SaveJobGroup. -/
def jobGroupService.CreateJobGroup {σ : Type} (repo : JobGroupRepository σ)
    (resolved : Except String JobGroupHeader) (t1 t2 : Int) (newUUID : String) (s : σ) :
    Completion JobGroup × σ :=
  match resolved with
  | Except.error err => (Completion.returned (Except.error err), s)
  | Except.ok applicationDescriptor =>
    let appName := if applicationDescriptor.Name = "" then newUUID else applicationDescriptor.Name
    match jobGroupService.componentJobs applicationDescriptor appName
        (jobGroupService.conditions t1 t2) applicationDescriptor.Components [] with
    | Completion.exited message => (Completion.exited message, s)
    | Completion.returned (Except.error err) => (Completion.returned (Except.error err), s)
    | Completion.returned (Except.ok jobs) =>
      match repo.SaveJobGroup
          { AppName := appName, AppDescription := applicationDescriptor.Description,
            Jobs := jobs } s with
      | ⟨Except.error err, _, s1⟩ => (Completion.returned (Except.error err), s1)
      | ⟨Except.ok _, jobGroup, s1⟩ => (Completion.returned (Except.ok jobGroup), s1)

/-- A matchmaker answer for the descriptor of the CreateJobGroup test:
component "consumer" placed on one target, component "producer" with the empty
list of targets; one manifest, named by "consumer". -/
def matchedDescriptor : JobGroupHeader :=
  { Name := "test-job-group", Description := "a test job group description",
    Components :=
      [{ Name := "consumer", Type_ := "kubernetes",
         Manifests := [{ Name := "mjpeg" }, { Name := "mjpeg-service" }],
         Targets := TargetsValue.object (Except.ok
           { ClusterName := "nuvlabox/55c7953e-2aa0-4d18-834c-b4d76d824bb9",
             NodeName := "john-rasbpi-5-1", Orchestrator := "nuvla" }) },
       { Name := "producer", Type_ := "kubernetes",
         Manifests := [{ Name := "video-streaming-service" }],
         Targets := TargetsValue.array 0 }],
    Manifests := [{ metadataName := some "mjpeg", yaml := Except.ok "kind: Deployment" }] }

/-- The descriptor of the CreateJobGroup test as its YAML body gives it: the
targets of "consumer" are a list holding one target. -/
def listedDescriptor : JobGroupHeader :=
  { Name := "test-job-group", Description := "a test job group description",
    Components :=
      [{ Name := "consumer", Type_ := "kubernetes",
         Manifests := [{ Name := "mjpeg" }, { Name := "mjpeg-service" }],
         Targets := TargetsValue.array 1 }] }

/-! ## repository/jobgroup_repository.go (gorm implementation) -/

/-- A row of table `job_groups`. -/
structure JobGroupRow where
  ID : String := ""
  CreatedAt : Int := 0
  UpdatedAt : Int := 0
  AppName : String := ""
  AppDescription : String := ""
deriving DecidableEq, Repr, Inhabited

/-- The stored state the group repository works on: the rows of `job_groups`
and the database of the jobs; the member jobs of a group are the rows of
`jobs` whose `job_group_id` is the id of the group. -/
structure GroupStore where
  groups : List JobGroupRow := []
  db : DB := {}
deriving DecidableEq, Repr, Inhabited

/-- Load of a job row with every association preloaded (`Preload("Jobs.Manifests")`,
`Preload("Jobs.Targets")`, `Preload("Jobs.Resource.Conditions")`): the scan of
the row with the resource as it is stored, conditions included. -/
def JobRow.load (r : JobRow) : Job :=
  { r.scan with Resource := r.Resource }

/-- FindJobGroupByUUID: `Preload(...).Where("id = ?", id).First(&jobGroup)`; the
member jobs are loaded in the order of table `jobs`.  A missing row is
reported with gorm's "record not found". -/
def jobGroupRepository.FindJobGroupByUUID (env : Env) (id : String) (st : GroupStore) :
    Except String JobGroup × GroupStore :=
  match env.fault Stmt.FindJobGroupByUUID_First with
  | some err => (Except.error err, st)
  | none =>
    match st.groups.find? (fun g => g.ID == id) with
    | none => (Except.error "record not found", st)
    | some g =>
      (Except.ok
        { ID := g.ID, CreatedAt := g.CreatedAt, UpdatedAt := g.UpdatedAt, AppName := g.AppName,
          AppDescription := g.AppDescription,
          Jobs := (st.db.jobs.filter (fun r => r.JobGroupID == g.ID)).map JobRow.load }, st)

/-- The row of `jobs` that the save of a member job leaves.  Under
`FullSaveAssociations` gorm inserts the member with `ON CONFLICT (id) DO UPDATE`
over all columns: every column takes the value of the job, zero values
included (`owner_id` is written as the string, never as NULL), except that a
row already stored keeps `created_at` and gets `updated_at` set to the current
time.  `old` is the row stored under the key of the job, if any. -/
def savedJobRow (env : Env) (job : Job) (old : Option JobRow) : JobRow :=
  let stored : Associations :=
    match old with
    | some r => { Manifests := r.Manifests, Targets := r.Targets, Resource := r.Resource }
    | none => {}
  let saved := env.fullSave job stored
  { ID := job.ID,
    CreatedAt :=
      match old with
      | some r => r.CreatedAt
      | none => job.CreatedAt,
    UpdatedAt :=
      match old with
      | some _ => env.now
      | none => job.UpdatedAt,
    JobGroupID := job.JobGroupID, OwnerID := some job.OwnerID,
    JobGroupName := job.JobGroupName, JobGroupDescription := job.JobGroupDescription,
    Type_ := job.Type_, SubType := job.SubType, State := job.State,
    Orchestrator := job.Orchestrator, Namespace := job.Namespace,
    Manifests := saved.Manifests, Targets := saved.Targets, Resource := saved.Resource }

/-- Insert-or-update of one member job into table `jobs`, by primary key. -/
def upsertJob (env : Env) (rows : List JobRow) (job : Job) : List JobRow :=
  if rows.any (fun r => r.ID == job.ID) then
    rows.map (fun r => if r.ID = job.ID then savedJobRow env job (some r) else r)
  else rows ++ [savedJobRow env job none]

/-- The save of the association `Jobs` of a group: each member is given the id
of the group as `JobGroupID`, a member without ID draws a key (hook
BeforeCreate of the job), a zero timestamp is set to the current time, and the
members are written in order.  The result is the members as gorm leaves them
behind the pointer and the table. -/
def saveJobs (env : Env) (groupID : String) : List Job → List JobRow → List Job × List JobRow
  | [], rows => ([], rows)
  | job :: rest, rows =>
    let job1 : Job :=
      { job with ID := if job.ID = "" then env.newUUID rows.length else job.ID,
                 JobGroupID := groupID,
                 CreatedAt := if job.CreatedAt = 0 then env.now else job.CreatedAt,
                 UpdatedAt := if job.UpdatedAt = 0 then env.now else job.UpdatedAt }
    let saved := saveJobs env groupID rest (upsertJob env rows job1)
    (job1 :: saved.1, saved.2)

/-- UpdateJobGroup: `repo.db.Begin().Model(&jg).Where("id = ?", jg.ID)`, then
`Session(FullSaveAssociations).Updates(&jg)` and `Commit()`.  The update writes
the non-zero fields of the group and `updated_at` on the row of the group and
saves the member jobs; a failing step (the BeforeUpdate hook of the group,
which validates it, runs with the update) rolls back and its error is
returned.  The group returned is the one behind the pointer, in which gorm has
set UpdatedAt. -/
def jobGroupRepository.UpdateJobGroup (env : Env) (jg : JobGroup) (st : GroupStore) :
    Except String JobGroup × GroupStore :=
  match env.fault Stmt.UpdateJobGroup_Begin with
  | some err => (Except.error err, st)
  | none =>
    match env.fault Stmt.UpdateJobGroup_Updates with
    | some err => (Except.error err, st)
    | none =>
      match env.fault Stmt.UpdateJobGroup_Commit with
      | some err => (Except.error err, st)
      | none =>
        let saved := saveJobs env jg.ID jg.Jobs st.db.jobs
        (Except.ok { jg with UpdatedAt := env.now, Jobs := saved.1 },
          { groups := st.groups.map (fun g =>
              if g.ID = jg.ID then
                { g with
                  CreatedAt := if jg.CreatedAt = 0 then g.CreatedAt else jg.CreatedAt,
                  UpdatedAt := env.now,
                  AppName := if jg.AppName = "" then g.AppName else jg.AppName,
                  AppDescription :=
                    if jg.AppDescription = "" then g.AppDescription else jg.AppDescription }
              else g),
            db := { st.db with jobs := saved.2 } })

/-- DeleteJobGroup: inside one transaction, `Where("id = ?", id)
.Delete(&models.JobGroup{})`; the result is the number of rows deleted.  The
rows of `jobs` are not touched by the statement (a database that enforces the
foreign key of `job_group_id` reports an error for a group that has
members). -/
def jobGroupRepository.DeleteJobGroup (env : Env) (id : String) (st : GroupStore) :
    Except String Int × GroupStore :=
  match env.fault Stmt.DeleteJobGroup_Delete with
  | some err => (Except.error err, st)
  | none =>
    match env.fault Stmt.DeleteJobGroup_Commit with
    | some err => (Except.error err, st)
    | none =>
      (Except.ok ((st.groups.filter (fun g => g.ID == id)).length : Int),
        { st with groups := st.groups.filter (fun g => g.ID != id) })

/-- NewJobGroupRepository builds the gorm-backed group repository.
SaveJobGroup, whose `Create(&jg)` draws the keys of all the new rows, is not
embedded and is taken as the parameter `save`. -/
def NewJobGroupRepository (env : Env)
    (save : JobGroup → GroupStore → Outcome JobGroup GroupStore) :
    JobGroupRepository GroupStore :=
  { SaveJobGroup := save,
    UpdateJobGroup := jobGroupRepository.UpdateJobGroup env,
    DeleteJobGroup := jobGroupRepository.DeleteJobGroup env,
    FindJobGroupByUUID := jobGroupRepository.FindJobGroupByUUID env }

/-- A stored group "g-2" with two members for orchestrator "ocm": "j-1" in
state Created and "j-2" in state Progressing, leased to owner "B". -/
def runningStore : GroupStore :=
  { groups := [{ ID := "g-2", AppName := "example-jobgroup", CreatedAt := 3, UpdatedAt := 3 }],
    db := { jobs :=
      [{ ID := "j-1", JobGroupID := "g-2", Type_ := CreateDeployment, State := JobCreated,
         OwnerID := some "", Orchestrator := "ocm", CreatedAt := 3, UpdatedAt := 3 },
       { ID := "j-2", JobGroupID := "g-2", Type_ := CreateDeployment, State := JobProgressing,
         OwnerID := some "B", Orchestrator := "ocm", CreatedAt := 3, UpdatedAt := 5 }] } }

/-- A stored job in state Finished, owned by "owner-123", for orchestrator
"ocm", whose resource is known by the `resource_uid` the report of the
HandlePolicyIncompliance test names. -/
def finishedRow : JobRow :=
  { ID := "6616b77c-dbb0-47aa-bc9b-ff45548db029",
    JobGroupID := "27a69131-f34d-44b3-9063-81501a1c0fc8", OwnerID := some "owner-123",
    State := JobFinished, Type_ := CreateDeployment, Orchestrator := "ocm", CreatedAt := 3,
    UpdatedAt := 5,
    Resource := some { ID := "r-1", JobID := "6616b77c-dbb0-47aa-bc9b-ff45548db029",
                       ResourceUID := "19d0baf9-0b90-4c36-8e41-5b18e8acbeec",
                       ResourceName := "producer" } }

/-! # Properties -/

/-! ## Truth conditions of the SQL operators -/

theorem sqlAnd_eq_true (a b : SqlBool) : sqlAnd a b = some true ↔ a = some true ∧ b = some true := by
  revert a b; decide

theorem sqlOr_eq_true (a b : SqlBool) : sqlOr a b = some true ↔ a = some true ∨ b = some true := by
  revert a b; decide

theorem sqlEq_eq_true {α : Type} [DecidableEq α] (a : Option α) (b : α) :
    sqlEq a (some b) = some true ↔ a = some b := by
  cases a <;> simp [sqlEq]

theorem sqlNe_eq_true {α : Type} [DecidableEq α] (a : Option α) (b : α) :
    sqlNe a (some b) = some true ↔ ∃ x, a = some x ∧ x ≠ b := by
  cases a <;> simp [sqlNe]

theorem sqlLt_eq_true (a b : Int) : sqlLt (some a) (some b) = some true ↔ a < b := by
  simp [sqlLt]

theorem sqlIsNull_eq_true {α : Type} (a : Option α) : sqlIsNull a = some true ↔ a = none := by
  cases a <;> simp [sqlIsNull]

theorem staleBefore_eq (now : Int) : staleBefore now = now - 300 * second := by
  unfold staleBefore; ring

theorem toExecuteClause1_true (r : JobRow) (o : String) :
    toExecuteClause1 r o = some true ↔
      r.Type_ = CreateDeployment ∧ r.State = JobCreated ∧
        (r.OwnerID = some "" ∨ r.OwnerID = none) ∧ r.Orchestrator = o := by
  simp only [toExecuteClause1, sqlAnd_eq_true, sqlOr_eq_true, sqlEq_eq_true, sqlIsNull_eq_true,
    Option.some.injEq, and_assoc]

theorem toExecuteClause2_true (r : JobRow) (o c : String) (now : Int) :
    toExecuteClause2 r o c now = some true ↔
      r.Type_ = CreateDeployment ∧ (r.State = JobProgressing ∨ r.State = JobDegraded) ∧
        (∃ a, r.OwnerID = some a ∧ a ≠ c) ∧ r.UpdatedAt < now - 300 * second ∧
        r.Orchestrator = o := by
  simp only [toExecuteClause2, sqlAnd_eq_true, sqlOr_eq_true, sqlEq_eq_true, sqlNe_eq_true,
    sqlLt_eq_true, staleBefore_eq, Option.some.injEq, and_assoc]

theorem toExecuteClause3_true (r : JobRow) (o c : String) :
    toExecuteClause3 r o c = some true ↔
      r.Type_ = UpdateDeployment ∧ r.State = JobCreated ∧ r.OwnerID = some c ∧
        r.Orchestrator = o := by
  simp only [toExecuteClause3, sqlAnd_eq_true, sqlEq_eq_true, Option.some.injEq, and_assoc]

theorem toExecuteClause4_true (r : JobRow) (o c : String) :
    toExecuteClause4 r o c = some true ↔
      r.Type_ = DeleteDeployment ∧ r.State = JobCreated ∧ r.OwnerID = some c ∧
        r.Orchestrator = o := by
  simp only [toExecuteClause4, sqlAnd_eq_true, sqlEq_eq_true, Option.some.injEq, and_assoc]

theorem mem_toExecuteRows (now : Int) (o c : String) (rows : List JobRow) (j : JobRow) :
    j ∈ toExecuteRows now o c rows ↔
      j ∈ rows ∧
        (toExecuteClause1 j o = some true ∨ toExecuteClause2 j o c now = some true ∨
          toExecuteClause3 j o c = some true ∨ toExecuteClause4 j o c = some true) := by
  simp only [toExecuteRows, List.mem_filter, beq_iff_eq, toExecuteWhere, sqlOr_eq_true, or_assoc]

theorem FindJobsToExecute_ok (env : Env) (o c : String) (db : DB)
    (hf : env.fault Stmt.FindJobsToExecute_Find = none) :
    jobRepository.FindJobsToExecute env o c db =
      (Except.ok ((toExecuteRows env.now o c db.jobs).map JobRow.scan), db) := by
  simp [jobRepository.FindJobsToExecute, hf]

/-! ## Dispatch selector (C1 to C4) -/

/-- C1 (counterexample): the claim as worded fails on a stored job whose owner
is null.  The row `staleNullOwnerRow` (CreateDeployment, Progressing, owner
NULL, updated 301 s before `now`) is eligible in the words of the claim for
caller "B" (a null owner is not "B"), yet `FindJobsToExecute("ocm", "B")`
returns no job: `owner_id != 'B'` is UNKNOWN on a NULL owner. -/
theorem C1_counterexample_null_owner :
    staleNullOwnerRow ∈ ({ jobs := [staleNullOwnerRow] } : DB).jobs ∧
      claimedEligible staleNullOwnerRow "ocm" "B" (301 * second) ∧
      jobRepository.FindJobsToExecute (quietEnv (301 * second)) "ocm" "B"
          { jobs := [staleNullOwnerRow] } =
        (Except.ok [], { jobs := [staleNullOwnerRow] }) ∧
      staleNullOwnerRow ∉ toExecuteRows (301 * second) "ocm" "B" [staleNullOwnerRow] := by
  refine ⟨by simp, ?_, rfl, by decide⟩
  refine ⟨rfl, Or.inr (Or.inl ⟨rfl, Or.inl rfl, by decide, by decide⟩)⟩

/-- C1 (amended): when the query succeeds, `FindJobsToExecute(o, c)` returns
the scan of the selected rows, and a stored job `j` is selected if and only if
`j.orchestrator = o` and one of: (1) CreateDeployment, Created, owner empty or
null; (2) CreateDeployment, Progressing or Degraded, owner NOT NULL and
different from `c`, `updatedAt < now - 300s`; (3) UpdateDeployment, Created,
owner `c`; (4) DeleteDeployment, Created, owner `c`. -/
theorem C1_FindJobsToExecute_selects_iff (env : Env) (db : DB) (o c : String) (j : JobRow)
    (hf : env.fault Stmt.FindJobsToExecute_Find = none) (hj : j ∈ db.jobs) :
    jobRepository.FindJobsToExecute env o c db =
        (Except.ok ((toExecuteRows env.now o c db.jobs).map JobRow.scan), db) ∧
      (j ∈ toExecuteRows env.now o c db.jobs ↔
        j.Orchestrator = o ∧
          ((j.Type_ = CreateDeployment ∧ j.State = JobCreated ∧
              (j.OwnerID = some "" ∨ j.OwnerID = none)) ∨
            (j.Type_ = CreateDeployment ∧ (j.State = JobProgressing ∨ j.State = JobDegraded) ∧
              (∃ a, j.OwnerID = some a ∧ a ≠ c) ∧ j.UpdatedAt < env.now - 300 * second) ∨
            (j.Type_ = UpdateDeployment ∧ j.State = JobCreated ∧ j.OwnerID = some c) ∨
            (j.Type_ = DeleteDeployment ∧ j.State = JobCreated ∧ j.OwnerID = some c))) := by
  refine ⟨FindJobsToExecute_ok env o c db hf, ?_⟩
  rw [mem_toExecuteRows, toExecuteClause1_true, toExecuteClause2_true, toExecuteClause3_true,
    toExecuteClause4_true]
  constructor
  · rintro ⟨-, h | h | h | h⟩
    · exact ⟨h.2.2.2, Or.inl ⟨h.1, h.2.1, h.2.2.1⟩⟩
    · exact ⟨h.2.2.2.2, Or.inr (Or.inl ⟨h.1, h.2.1, h.2.2.1, h.2.2.2.1⟩)⟩
    · exact ⟨h.2.2.2, Or.inr (Or.inr (Or.inl ⟨h.1, h.2.1, h.2.2.1⟩))⟩
    · exact ⟨h.2.2.2, Or.inr (Or.inr (Or.inr ⟨h.1, h.2.1, h.2.2.1⟩))⟩
  · rintro ⟨ho, h | h | h | h⟩
    · exact ⟨hj, Or.inl ⟨h.1, h.2.1, h.2.2, ho⟩⟩
    · exact ⟨hj, Or.inr (Or.inl ⟨h.1, h.2.1, h.2.2.1, h.2.2.2, ho⟩)⟩
    · exact ⟨hj, Or.inr (Or.inr (Or.inl ⟨h.1, h.2.1, h.2.2, ho⟩))⟩
    · exact ⟨hj, Or.inr (Or.inr (Or.inr ⟨h.1, h.2.1, h.2.2, ho⟩))⟩

/-- C1 (witness): the amended statement at a table holding the unclaimed
CreateDeployment job `unclaimedRow` for "ocm", polled by caller "B" at time
301 s: the job is returned. -/
theorem C1_FindJobsToExecute_selects_iff_witness :
    (quietEnv (301 * second)).fault Stmt.FindJobsToExecute_Find = none ∧
      unclaimedRow ∈ ({ jobs := [unclaimedRow] } : DB).jobs ∧
      jobRepository.FindJobsToExecute (quietEnv (301 * second)) "ocm" "B"
          { jobs := [unclaimedRow] } =
        (Except.ok [unclaimedRow.scan], { jobs := [unclaimedRow] }) ∧
      unclaimedRow ∈ toExecuteRows (301 * second) "ocm" "B" [unclaimedRow] :=
  ⟨rfl, by simp,
    (C1_FindJobsToExecute_selects_iff (quietEnv (301 * second)) { jobs := [unclaimedRow] }
      "ocm" "B" unclaimedRow rfl (by simp)).1,
    (C1_FindJobsToExecute_selects_iff (quietEnv (301 * second)) { jobs := [unclaimedRow] }
      "ocm" "B" unclaimedRow rfl (by simp)).2.2
      ⟨rfl, Or.inl ⟨rfl, rfl, Or.inl rfl⟩⟩⟩

theorem sqlTrue_count_le_one (a b c d : SqlBool)
    (hab : ¬ (a = some true ∧ b = some true)) (hac : ¬ (a = some true ∧ c = some true))
    (had : ¬ (a = some true ∧ d = some true)) (hbc : ¬ (b = some true ∧ c = some true))
    (hbd : ¬ (b = some true ∧ d = some true)) (hcd : ¬ (c = some true ∧ d = some true)) :
    ([a, b, c, d].filter (fun x => x == some true)).length ≤ 1 := by
  rcases a with _ | _ | _ <;> rcases b with _ | _ | _ <;> rcases c with _ | _ | _ <;>
    rcases d with _ | _ | _ <;> simp_all

/-- C2: the four disjuncts of the dispatch condition are mutually exclusive:
for every stored job, orchestrator, caller id and time, at most one of the
four evaluates to TRUE (the number of TRUE disjuncts is at most 1), and no two
of them are TRUE together. -/
theorem C2_toExecute_clauses_exclusive (j : JobRow) (o c : String) (now : Int) :
    ([toExecuteClause1 j o, toExecuteClause2 j o c now, toExecuteClause3 j o c,
        toExecuteClause4 j o c].filter (fun x => x == some true)).length ≤ 1 ∧
      ¬ (toExecuteClause1 j o = some true ∧ toExecuteClause2 j o c now = some true) ∧
      ¬ (toExecuteClause1 j o = some true ∧ toExecuteClause3 j o c = some true) ∧
      ¬ (toExecuteClause1 j o = some true ∧ toExecuteClause4 j o c = some true) ∧
      ¬ (toExecuteClause2 j o c now = some true ∧ toExecuteClause3 j o c = some true) ∧
      ¬ (toExecuteClause2 j o c now = some true ∧ toExecuteClause4 j o c = some true) ∧
      ¬ (toExecuteClause3 j o c = some true ∧ toExecuteClause4 j o c = some true) := by
  have h12 : ¬ (toExecuteClause1 j o = some true ∧ toExecuteClause2 j o c now = some true) := by
    rw [toExecuteClause1_true, toExecuteClause2_true]
    rintro ⟨⟨-, hs, -⟩, ⟨-, hs2 | hs2, -⟩⟩ <;> rw [hs] at hs2 <;> revert hs2 <;> decide
  have h13 : ¬ (toExecuteClause1 j o = some true ∧ toExecuteClause3 j o c = some true) := by
    rw [toExecuteClause1_true, toExecuteClause3_true]
    rintro ⟨⟨ht, -⟩, ⟨ht2, -⟩⟩
    rw [ht] at ht2; revert ht2; decide
  have h14 : ¬ (toExecuteClause1 j o = some true ∧ toExecuteClause4 j o c = some true) := by
    rw [toExecuteClause1_true, toExecuteClause4_true]
    rintro ⟨⟨ht, -⟩, ⟨ht2, -⟩⟩
    rw [ht] at ht2; revert ht2; decide
  have h23 : ¬ (toExecuteClause2 j o c now = some true ∧ toExecuteClause3 j o c = some true) := by
    rw [toExecuteClause2_true, toExecuteClause3_true]
    rintro ⟨⟨ht, -⟩, ⟨ht2, -⟩⟩
    rw [ht] at ht2; revert ht2; decide
  have h24 : ¬ (toExecuteClause2 j o c now = some true ∧ toExecuteClause4 j o c = some true) := by
    rw [toExecuteClause2_true, toExecuteClause4_true]
    rintro ⟨⟨ht, -⟩, ⟨ht2, -⟩⟩
    rw [ht] at ht2; revert ht2; decide
  have h34 : ¬ (toExecuteClause3 j o c = some true ∧ toExecuteClause4 j o c = some true) := by
    rw [toExecuteClause3_true, toExecuteClause4_true]
    rintro ⟨⟨ht, -⟩, ⟨ht2, -⟩⟩
    rw [ht] at ht2; revert ht2; decide
  exact ⟨sqlTrue_count_le_one _ _ _ _ h12 h13 h14 h23 h24 h34, h12, h13, h14, h23, h24, h34⟩

/-- C3: a stored job with type CreateDeployment, state Created and owner ""
is selected by `FindJobsToExecute(orch, caller)` if and only if its
orchestrator equals `orch`, for every caller id (the empty one included) and
every time; so the selection is the same for any two callers. -/
theorem C3_unclaimed_create_selected_iff (env : Env) (db : DB) (orch caller : String)
    (j : JobRow) (hf : env.fault Stmt.FindJobsToExecute_Find = none) (hj : j ∈ db.jobs)
    (htype : j.Type_ = CreateDeployment) (hstate : j.State = JobCreated)
    (howner : j.OwnerID = some "") :
    jobRepository.FindJobsToExecute env orch caller db =
        (Except.ok ((toExecuteRows env.now orch caller db.jobs).map JobRow.scan), db) ∧
      (j ∈ toExecuteRows env.now orch caller db.jobs ↔ j.Orchestrator = orch) ∧
      (∀ (caller2 : String) (now2 : Int),
        j ∈ toExecuteRows now2 orch caller2 db.jobs ↔
          j ∈ toExecuteRows env.now orch caller db.jobs) := by
  have key : ∀ (now : Int) (cl : String),
      j ∈ toExecuteRows now orch cl db.jobs ↔ j.Orchestrator = orch := by
    intro now cl
    rw [mem_toExecuteRows, toExecuteClause1_true, toExecuteClause2_true, toExecuteClause3_true,
      toExecuteClause4_true]
    constructor
    · rintro ⟨-, h | h | h | h⟩
      · exact h.2.2.2
      · exact h.2.2.2.2
      · exact h.2.2.2
      · exact h.2.2.2
    · intro ho
      exact ⟨hj, Or.inl ⟨htype, hstate, Or.inl howner, ho⟩⟩
  exact ⟨FindJobsToExecute_ok env orch caller db hf, key env.now caller,
    fun caller2 now2 => (key now2 caller2).trans (key env.now caller).symm⟩

/-- C3 (witness): `unclaimedRow` (CreateDeployment, Created, owner "", "ocm")
is returned to the caller with the empty id polling "ocm". -/
theorem C3_unclaimed_create_selected_iff_witness :
    (quietEnv 0).fault Stmt.FindJobsToExecute_Find = none ∧
      unclaimedRow ∈ ({ jobs := [unclaimedRow] } : DB).jobs ∧
      unclaimedRow.Type_ = CreateDeployment ∧ unclaimedRow.State = JobCreated ∧
      unclaimedRow.OwnerID = some "" ∧
      (unclaimedRow ∈ toExecuteRows 0 "ocm" "" [unclaimedRow] ↔
        unclaimedRow.Orchestrator = "ocm") :=
  ⟨rfl, by simp, rfl, rfl, rfl,
    (C3_unclaimed_create_selected_iff (quietEnv 0) { jobs := [unclaimedRow] } "ocm" ""
      unclaimedRow rfl (by simp) rfl rfl rfl).2.1⟩

/-- C4: a stored job with type CreateDeployment, state Progressing, owner `a`
and orchestrator `orch`: if `updatedAt = now - 301s` it is selected by
`FindJobsToExecute(orch, b)` for every `b ≠ a` and not selected by
`FindJobsToExecute(orch, a)`; if `updatedAt` is `now - 300s` or later it is
selected for no caller (the staleness comparison is strict). -/
theorem C4_stale_lease_reclaim (env : Env) (db : DB) (orch a : String) (j : JobRow)
    (hf : env.fault Stmt.FindJobsToExecute_Find = none) (hj : j ∈ db.jobs)
    (htype : j.Type_ = CreateDeployment) (hstate : j.State = JobProgressing)
    (howner : j.OwnerID = some a) (horch : j.Orchestrator = orch) :
    (∀ caller, jobRepository.FindJobsToExecute env orch caller db =
        (Except.ok ((toExecuteRows env.now orch caller db.jobs).map JobRow.scan), db)) ∧
      (j.UpdatedAt = env.now - 301 * second →
        (∀ b, b ≠ a → j ∈ toExecuteRows env.now orch b db.jobs) ∧
          j ∉ toExecuteRows env.now orch a db.jobs) ∧
      (env.now - 300 * second ≤ j.UpdatedAt →
        ∀ caller, j ∉ toExecuteRows env.now orch caller db.jobs) := by
  have hne1 : j.State ≠ JobCreated := by rw [hstate]; decide
  have only2 : ∀ caller, j ∈ toExecuteRows env.now orch caller db.jobs ↔
      (a ≠ caller ∧ j.UpdatedAt < env.now - 300 * second) := by
    intro caller
    rw [mem_toExecuteRows, toExecuteClause1_true, toExecuteClause2_true, toExecuteClause3_true,
      toExecuteClause4_true]
    constructor
    · rintro ⟨-, h | h | h | h⟩
      · exact absurd h.2.1 hne1
      · obtain ⟨-, -, ⟨x, hx, hxc⟩, hlt, -⟩ := h
        rw [howner] at hx
        cases hx
        exact ⟨hxc, hlt⟩
      · exact absurd h.2.1 hne1
      · exact absurd h.2.1 hne1
    · rintro ⟨hac, hlt⟩
      exact ⟨hj, Or.inr (Or.inl ⟨htype, Or.inl hstate, ⟨a, howner, hac⟩, hlt, horch⟩)⟩
  refine ⟨fun caller => FindJobsToExecute_ok env orch caller db hf, ?_, ?_⟩
  · intro hu
    have hlt : j.UpdatedAt < env.now - 300 * second := by
      rw [hu]; unfold second; omega
    exact ⟨fun b hb => (only2 b).2 ⟨fun h => hb h.symm, hlt⟩,
      fun h => ((only2 a).1 h).1 rfl⟩
  · intro hge caller h
    exact absurd ((only2 caller).1 h).2 (not_lt.mpr hge)

/-- C4 (witness): `leasedRow` (owner "A", updated at 0) at `now = 301s` is
selected for caller "B" and not for caller "A". -/
theorem C4_stale_lease_reclaim_witness :
    (quietEnv (301 * second)).fault Stmt.FindJobsToExecute_Find = none ∧
      leasedRow ∈ ({ jobs := [leasedRow] } : DB).jobs ∧
      leasedRow ∈ toExecuteRows (301 * second) "ocm" "B" [leasedRow] ∧
      leasedRow ∉ toExecuteRows (301 * second) "ocm" "A" [leasedRow] :=
  ⟨rfl, by simp,
    ((C4_stale_lease_reclaim (quietEnv (301 * second)) { jobs := [leasedRow] } "ocm" "A"
      leasedRow rfl (by simp) rfl rfl rfl rfl).2.1 (by decide)).1 "B" (by decide),
    ((C4_stale_lease_reclaim (quietEnv (301 * second)) { jobs := [leasedRow] } "ocm" "A"
      leasedRow rfl (by simp) rfl rfl rfl rfl).2.1 (by decide)).2⟩

/-! ## Lease manager (C5 to C7) -/

theorem promoteRow_ID (now : Int) (job : Job) (r : JobRow) : (promoteRow now job r).ID = r.ID := rfl

theorem find_map_update (f : JobRow → JobRow) (hf : ∀ x, (f x).ID = x.ID) (id : String)
    (rows : List JobRow) (r : JobRow) (h : rows.find? (fun x => x.ID == id) = some r) :
    (rows.map (fun x => if x.ID = id then f x else x)).find? (fun x => x.ID == id) =
      some (f r) := by
  induction rows with
  | nil => simp at h
  | cons x xs ih =>
    by_cases hx : x.ID = id
    · have hfx : (f x).ID = id := (hf x).trans hx
      simp [List.find?, hx, hfx] at h ⊢
      rw [h]
    · have hb : (x.ID == id) = false := by simpa using hx
      simp only [List.find?, hb, List.map, hx, if_false] at h ⊢
      exact ih h

theorem find_map_promoteRow (now : Int) (job : Job) (id : String) (rows : List JobRow)
    (r : JobRow) (h : rows.find? (fun x => x.ID == id) = some r) :
    (rows.map (fun x => if x.ID = id then promoteRow now job x else x)).find?
        (fun x => x.ID == id) = some (promoteRow now job r) :=
  find_map_update (promoteRow now job) (promoteRow_ID now job) id rows r h

theorem find_ID (id : String) (rows : List JobRow) (r : JobRow)
    (h : rows.find? (fun x => x.ID == id) = some r) : r.ID = id := by
  have := List.find?_some h
  simpa using this

theorem FindJobByUUID_found (env : Env) (id : String) (db : DB) (r : JobRow)
    (hf : env.fault Stmt.FindJobByUUID_Take = none)
    (h : db.jobs.find? (fun x => x.ID == id) = some r) :
    jobRepository.FindJobByUUID env id db = (Except.ok r.scan, db) := by
  simp [jobRepository.FindJobByUUID, hf, h]

theorem JobPromote_not_created {σ : Type} (repo : JobRepository σ) (s s1 : σ)
    (job_uuid : String) (dto : JobOwnershipDTO) (j : Job)
    (hid : job_uuid ≠ "") (hown : dto.OwnerID ≠ "")
    (hfind : repo.FindJobByUUID job_uuid s = (Except.ok j, s1))
    (hstate : j.State ≠ JobCreated) :
    jobService.JobPromote repo job_uuid (Except.ok dto) s =
      (Except.error "job cannot be promoted", s1) := by
  simp only [jobService.JobPromote, jobService.FindJobByUUID, hid, hown, hfind, hstate, if_false]
  split <;> rfl

theorem JobPromote_created {σ : Type} (repo : JobRepository σ) (s s1 s2 : σ)
    (job_uuid : String) (dto : JobOwnershipDTO) (j updated : Job)
    (hid : job_uuid ≠ "") (hown : dto.OwnerID ≠ "")
    (hfind : repo.FindJobByUUID job_uuid s = (Except.ok j, s1))
    (hstate : j.State = JobCreated)
    (hprom : repo.JobPromote { j with OwnerID := dto.OwnerID, State := JobProgressing } s1 =
      (Except.ok updated, s2)) :
    jobService.JobPromote repo job_uuid (Except.ok dto) s = (Except.ok updated, s2) := by
  simp only [jobService.JobPromote, jobService.FindJobByUUID, hid, hown, hfind, hstate, hprom,
    if_false, if_true]

theorem repo_JobPromote_ok (env : Env) (db : DB) (job : Job) (r : JobRow)
    (hfind : db.jobs.find? (fun x => x.ID == job.ID) = some r)
    (hupd : env.fault Stmt.JobPromote_Updates = none)
    (htake : env.fault Stmt.JobPromote_Take = none)
    (hcommit : env.fault Stmt.JobPromote_Commit = none) :
    jobRepository.JobPromote env job db =
      (Except.ok (takeInto job (promoteRow env.now job r)),
        { jobs := db.jobs.map (fun x => if x.ID = job.ID then promoteRow env.now job x else x) }) := by
  have hfind2 := find_map_promoteRow env.now job job.ID db.jobs r hfind
  simp only [jobRepository.JobPromote, hupd, htake, hcommit, hfind2]

theorem JobPromote_created_gorm (env : Env) (db : DB) (job_uuid newOwnerId : String) (r : JobRow)
    (hid : job_uuid ≠ "") (hown : newOwnerId ≠ "")
    (hfind : db.jobs.find? (fun x => x.ID == job_uuid) = some r)
    (hstate : r.State = JobCreated)
    (hread : env.fault Stmt.FindJobByUUID_Take = none)
    (hupd : env.fault Stmt.JobPromote_Updates = none)
    (htake : env.fault Stmt.JobPromote_Take = none)
    (hcommit : env.fault Stmt.JobPromote_Commit = none) :
    jobService.JobPromote (NewJobRepository env) job_uuid
        (Except.ok { OwnerID := newOwnerId }) db =
      (Except.ok { r.scan with OwnerID := newOwnerId, State := JobProgressing,
                               UpdatedAt := env.now },
        { jobs := db.jobs.map (fun x =>
            if x.ID = job_uuid then
              { x with OwnerID := some newOwnerId, State := JobProgressing, UpdatedAt := env.now }
            else x) }) := by
  have hrid : r.ID = job_uuid := find_ID job_uuid db.jobs r hfind
  subst hrid
  have hp : ∀ x : JobRow,
      promoteRow env.now { r.scan with OwnerID := newOwnerId, State := JobProgressing } x =
        { x with OwnerID := some newOwnerId, State := JobProgressing, UpdatedAt := env.now } := by
    intro x
    have h2 : JobProgressing ≠ 0 := by decide
    simp [promoteRow, hown, h2]
  have hrepo := repo_JobPromote_ok env db
    { r.scan with OwnerID := newOwnerId, State := JobProgressing } r hfind hupd htake hcommit
  simp only [hp] at hrepo
  exact JobPromote_created (NewJobRepository env) db db _ r.ID { OwnerID := newOwnerId } r.scan _
    hid hown (FindJobByUUID_found env r.ID db r hread hfind) hstate hrepo

/-- C5: for a stored job in state Created, a non-empty job id and a non-empty
new owner, `JobPromote` succeeds when the database reports no error; the job
returned is the stored job with `ownerId = newOwnerId`, `state = Progressing`
(and `updatedAt = now`), and the row written to the table carries the same
owner and state. -/
theorem C5_JobPromote_from_created (env : Env) (db : DB) (job_uuid newOwnerId : String)
    (r : JobRow) (hid : job_uuid ≠ "") (hown : newOwnerId ≠ "")
    (hfind : db.jobs.find? (fun x => x.ID == job_uuid) = some r)
    (hstate : r.State = JobCreated)
    (hread : env.fault Stmt.FindJobByUUID_Take = none)
    (hupd : env.fault Stmt.JobPromote_Updates = none)
    (htake : env.fault Stmt.JobPromote_Take = none)
    (hcommit : env.fault Stmt.JobPromote_Commit = none) :
    ∃ (updated : Job) (db1 : DB),
      jobService.JobPromote (NewJobRepository env) job_uuid
          (Except.ok { OwnerID := newOwnerId }) db = (Except.ok updated, db1) ∧
        updated.OwnerID = newOwnerId ∧ updated.State = JobProgressing ∧
        updated = { r.scan with OwnerID := newOwnerId, State := JobProgressing,
                                UpdatedAt := env.now } ∧
        db1.jobs.find? (fun x => x.ID == job_uuid) =
          some { r with OwnerID := some newOwnerId, State := JobProgressing,
                        UpdatedAt := env.now } := by
  refine ⟨_, _, JobPromote_created_gorm env db job_uuid newOwnerId r hid hown hfind hstate hread
    hupd htake hcommit, rfl, rfl, rfl, ?_⟩
  exact find_map_update
    (fun x => { x with OwnerID := some newOwnerId, State := JobProgressing, UpdatedAt := env.now })
    (fun _ => rfl) job_uuid db.jobs r hfind

/-- C5 (witness): promoting `unclaimedRow` (state Created) for owner "A" at
time 7 succeeds; the job returned and the row stored have owner "A" and state
Progressing. -/
theorem C5_JobPromote_from_created_witness :
    ∃ (updated : Job) (db1 : DB),
      jobService.JobPromote (NewJobRepository (quietEnv 7)) unclaimedRow.ID
          (Except.ok { OwnerID := "A" }) { jobs := [unclaimedRow] } = (Except.ok updated, db1) ∧
        updated.OwnerID = "A" ∧ updated.State = JobProgressing ∧
        updated = { unclaimedRow.scan with OwnerID := "A", State := JobProgressing,
                                           UpdatedAt := 7 } ∧
        db1.jobs.find? (fun x => x.ID == unclaimedRow.ID) =
          some { unclaimedRow with OwnerID := some "A", State := JobProgressing,
                                   UpdatedAt := 7 } :=
  C5_JobPromote_from_created (quietEnv 7) { jobs := [unclaimedRow] } unclaimedRow.ID "A"
    unclaimedRow (by decide) (by decide) (by decide) rfl rfl rfl rfl rfl

/-- C6: for every job the lookup finds in a state other than Created
(Progressing, Finished, Degraded or any unknown value), `JobPromote` fails
with "job cannot be promoted" and leaves the store exactly as the lookup left
it: the repository's `JobPromote` (the only write) is not applied.  It holds
for every implementation of the repository interface. -/
theorem C6_JobPromote_not_created_fails {σ : Type} (repo : JobRepository σ) (s s1 : σ)
    (job_uuid : String) (dto : JobOwnershipDTO) (j : Job)
    (hid : job_uuid ≠ "") (hown : dto.OwnerID ≠ "")
    (hfind : repo.FindJobByUUID job_uuid s = (Except.ok j, s1))
    (hstate : j.State ≠ JobCreated) :
    jobService.JobPromote repo job_uuid (Except.ok dto) s =
      (Except.error "job cannot be promoted", s1) :=
  JobPromote_not_created repo s s1 job_uuid dto j hid hown hfind hstate

/-- C6 (witness): with the gorm-backed repository, promoting `leasedRow`
(state Progressing, owner "A") for owner "B" fails and the table is
unchanged. -/
theorem C6_JobPromote_not_created_fails_witness :
    jobService.JobPromote (NewJobRepository (quietEnv 7)) leasedRow.ID
        (Except.ok { OwnerID := "B" }) { jobs := [leasedRow] } =
      (Except.error "job cannot be promoted", { jobs := [leasedRow] }) :=
  C6_JobPromote_not_created_fails (NewJobRepository (quietEnv 7)) { jobs := [leasedRow] }
    { jobs := [leasedRow] } leasedRow.ID { OwnerID := "B" } leasedRow.scan
    (by decide) (by decide) rfl (by decide)

/-- C7: for a stored job in state Created and a non-empty owner, two
`JobPromote` calls in sequence with the same job id and owner (no database
error): the first succeeds, the second fails with "job cannot be promoted",
and the table after the second call is the table after the first. -/
theorem C7_JobPromote_twice (env1 env2 : Env) (db : DB) (job_uuid owner : String) (r : JobRow)
    (hid : job_uuid ≠ "") (hown : owner ≠ "")
    (hfind : db.jobs.find? (fun x => x.ID == job_uuid) = some r)
    (hstate : r.State = JobCreated)
    (hread : env1.fault Stmt.FindJobByUUID_Take = none)
    (hupd : env1.fault Stmt.JobPromote_Updates = none)
    (htake : env1.fault Stmt.JobPromote_Take = none)
    (hcommit : env1.fault Stmt.JobPromote_Commit = none)
    (hread2 : env2.fault Stmt.FindJobByUUID_Take = none) :
    ∃ (updated : Job) (db1 : DB),
      jobService.JobPromote (NewJobRepository env1) job_uuid
          (Except.ok { OwnerID := owner }) db = (Except.ok updated, db1) ∧
        jobService.JobPromote (NewJobRepository env2) job_uuid
          (Except.ok { OwnerID := owner }) db1 =
            (Except.error "job cannot be promoted", db1) := by
  refine ⟨_, _, JobPromote_created_gorm env1 db job_uuid owner r hid hown hfind hstate hread
    hupd htake hcommit, ?_⟩
  have hfind1 := find_map_update
    (fun x => { x with OwnerID := some owner, State := JobProgressing, UpdatedAt := env1.now })
    (fun _ => rfl) job_uuid db.jobs r hfind
  refine JobPromote_not_created (NewJobRepository env2) _ _ job_uuid { OwnerID := owner } _
    hid hown (FindJobByUUID_found env2 job_uuid _ _ hread2 hfind1) ?_
  show JobProgressing ≠ JobCreated
  decide

/-- C7 (witness): promoting `unclaimedRow` twice for owner "A". -/
theorem C7_JobPromote_twice_witness :
    ∃ (updated : Job) (db1 : DB),
      jobService.JobPromote (NewJobRepository (quietEnv 7)) unclaimedRow.ID
          (Except.ok { OwnerID := "A" }) { jobs := [unclaimedRow] } = (Except.ok updated, db1) ∧
        jobService.JobPromote (NewJobRepository (quietEnv 9)) unclaimedRow.ID
          (Except.ok { OwnerID := "A" }) db1 =
            (Except.error "job cannot be promoted", db1) :=
  C7_JobPromote_twice (quietEnv 7) (quietEnv 9) { jobs := [unclaimedRow] } unclaimedRow.ID "A"
    unclaimedRow (by decide) (by decide) (by decide) rfl rfl rfl rfl rfl rfl

/-! ## Group coordinator: delete and stop (C8 to C10) -/

theorem deleteGate_eq_none (jobs : List Job) :
    deleteGate jobs = none ↔
      ∀ job ∈ jobs, job.Type_ = DeleteDeployment ∧
        (job.State = JobFinished ∨ job.State = JobCreated) := by
  induction jobs with
  | nil => simp [deleteGate]
  | cons job rest ih =>
    simp only [deleteGate, List.mem_cons, forall_eq_or_imp]
    split_ifs with ht hs
    · constructor
      · intro h; cases h
      · rintro ⟨⟨-, h | h⟩, -⟩
        · exact absurd h hs.1
        · exact absurd h hs.2
    · rw [ih]
      have hst : job.State = JobFinished ∨ job.State = JobCreated := by
        by_contra hc
        exact hs ⟨fun h => hc (Or.inl h), fun h => hc (Or.inr h)⟩
      exact ⟨fun h => ⟨⟨ht, hst⟩, h⟩, fun h => h.2⟩
    · constructor
      · intro h; cases h
      · rintro ⟨⟨h, -⟩, -⟩
        exact absurd h ht

theorem deleteGate_message (jobs : List Job) (err : String) (h : deleteGate jobs = some err) :
    err = "JobGroup cannot be deleted, one or more jobs are not in JobFinished state" ∨
      err = "JobGroup cannot be deleted, one or more jobs are not of type DeleteDeployment" := by
  induction jobs with
  | nil => simp [deleteGate] at h
  | cons job rest ih =>
    unfold deleteGate at h
    split at h
    · split at h
      · exact Or.inl (Option.some.inj h).symm
      · exact ih h
    · exact Or.inr (Option.some.inj h).symm

theorem DeleteJobGroupByID_blocked {σ : Type} (repo : JobGroupRepository σ) (s s1 : σ)
    (id : String) (jg : JobGroup) (err : String) (hid : id ≠ "")
    (hfind : repo.FindJobGroupByUUID id s = (Except.ok jg, s1))
    (hg : deleteGate jg.Jobs = some err) :
    jobGroupService.DeleteJobGroupByID repo id s = (Except.error err, s1) := by
  simp only [jobGroupService.DeleteJobGroupByID, hid, hfind, hg, if_false]

theorem DeleteJobGroupByID_deleted {σ : Type} (repo : JobGroupRepository σ) (s s1 s2 : σ)
    (id : String) (jg : JobGroup) (n : Int) (hid : id ≠ "")
    (hfind : repo.FindJobGroupByUUID id s = (Except.ok jg, s1))
    (hg : deleteGate jg.Jobs = none)
    (hdel : repo.DeleteJobGroup id s1 = (Except.ok n, s2)) :
    jobGroupService.DeleteJobGroupByID repo id s = (Except.ok jg, s2) := by
  simp only [jobGroupService.DeleteJobGroupByID, hid, hfind, hg, hdel, if_false]

theorem DeleteJobGroupByID_delete_failed {σ : Type} (repo : JobGroupRepository σ) (s s1 s2 : σ)
    (id : String) (jg : JobGroup) (err : String) (hid : id ≠ "")
    (hfind : repo.FindJobGroupByUUID id s = (Except.ok jg, s1))
    (hg : deleteGate jg.Jobs = none)
    (hdel : repo.DeleteJobGroup id s1 = (Except.error err, s2)) :
    jobGroupService.DeleteJobGroupByID repo id s = (Except.error err, s2) := by
  simp only [jobGroupService.DeleteJobGroupByID, hid, hfind, hg, hdel, if_false]

/-- C8: for a loaded group with a member job whose type is not
DeleteDeployment or whose state is neither Finished nor Created,
`DeleteJobGroupByID` returns an error (one of the two gating messages) and the
store is the one the lookup left: the repository delete is not applied.  On
the recording mock the calls received are the lookup alone. -/
theorem C8_DeleteJobGroupByID_blocked {σ : Type} (repo : JobGroupRepository σ) (s s1 : σ)
    (id : String) (jg : JobGroup) (hid : id ≠ "")
    (hfind : repo.FindJobGroupByUUID id s = (Except.ok jg, s1))
    (hbad : ∃ job ∈ jg.Jobs, job.Type_ ≠ DeleteDeployment ∨
      (job.State ≠ JobFinished ∧ job.State ≠ JobCreated)) :
    ∃ err : String,
      jobGroupService.DeleteJobGroupByID repo id s = (Except.error err, s1) ∧
        (err = "JobGroup cannot be deleted, one or more jobs are not in JobFinished state" ∨
          err = "JobGroup cannot be deleted, one or more jobs are not of type DeleteDeployment") ∧
        (∀ (ret : MockReturns) (calls : List JobGroupRepoCall),
          ret.FindJobGroupByUUID id = Except.ok jg →
            jobGroupService.DeleteJobGroupByID (MockJobGroupRepository ret) id calls =
              (Except.error err, calls ++ [JobGroupRepoCall.FindJobGroupByUUID id])) := by
  have hne : deleteGate jg.Jobs ≠ none := by
    rw [Ne, deleteGate_eq_none]
    obtain ⟨job, hmem, hj⟩ := hbad
    intro hall
    obtain ⟨ht, hs⟩ := hall job hmem
    rcases hj with hj | hj
    · exact hj ht
    · rcases hs with hs | hs
      · exact hj.1 hs
      · exact hj.2 hs
  obtain ⟨err, herr⟩ := Option.ne_none_iff_exists'.mp hne
  refine ⟨err, DeleteJobGroupByID_blocked repo s s1 id jg err hid hfind herr,
    deleteGate_message jg.Jobs err herr, ?_⟩
  intro ret calls hret
  exact DeleteJobGroupByID_blocked (MockJobGroupRepository ret) calls _ id jg err hid
    (by simp [MockJobGroupRepository, hret]) herr

/-- C8 (witness): deleting `runningGroup` (its members are CreateDeployment
jobs) through the mock fails, and the mock received the lookup only. -/
theorem C8_DeleteJobGroupByID_blocked_witness :
    ∃ err : String,
      jobGroupService.DeleteJobGroupByID (MockJobGroupRepository (mockReturns runningGroup))
          "g-2" [] =
        (Except.error err, [JobGroupRepoCall.FindJobGroupByUUID "g-2"]) :=
  (C8_DeleteJobGroupByID_blocked (MockJobGroupRepository (mockReturns runningGroup)) []
    [JobGroupRepoCall.FindJobGroupByUUID "g-2"] "g-2" runningGroup (by decide) rfl
    ⟨{ ID := "j-1", Type_ := CreateDeployment, State := JobCreated, OwnerID := "A" },
      by simp [runningGroup], Or.inl (by decide)⟩).imp (fun _ h => h.1)

/-- C9: for a loaded group in which every member job has type
DeleteDeployment and state Finished or Created, `DeleteJobGroupByID(id)`
applies the repository delete to `id` once, in the store the lookup left; when
the delete succeeds the group returned is the group as loaded, and when it
fails its error is returned.  On the recording mock the calls received are the
lookup followed by exactly one `DeleteJobGroup id`. -/
theorem C9_DeleteJobGroupByID_deletes {σ : Type} (repo : JobGroupRepository σ) (s s1 : σ)
    (id : String) (jg : JobGroup) (hid : id ≠ "")
    (hfind : repo.FindJobGroupByUUID id s = (Except.ok jg, s1))
    (hall : ∀ job ∈ jg.Jobs, job.Type_ = DeleteDeployment ∧
      (job.State = JobFinished ∨ job.State = JobCreated)) :
    (∀ (n : Int) (s2 : σ), repo.DeleteJobGroup id s1 = (Except.ok n, s2) →
        jobGroupService.DeleteJobGroupByID repo id s = (Except.ok jg, s2)) ∧
      (∀ (err : String) (s2 : σ), repo.DeleteJobGroup id s1 = (Except.error err, s2) →
        jobGroupService.DeleteJobGroupByID repo id s = (Except.error err, s2)) ∧
      (∀ (ret : MockReturns) (calls : List JobGroupRepoCall),
        ret.FindJobGroupByUUID id = Except.ok jg →
          (jobGroupService.DeleteJobGroupByID (MockJobGroupRepository ret) id calls).2 =
              calls ++ [JobGroupRepoCall.FindJobGroupByUUID id,
                JobGroupRepoCall.DeleteJobGroup id] ∧
            (∀ n : Int, ret.DeleteJobGroup id = Except.ok n →
              (jobGroupService.DeleteJobGroupByID (MockJobGroupRepository ret) id calls).1 =
                Except.ok jg)) := by
  have hg : deleteGate jg.Jobs = none := (deleteGate_eq_none jg.Jobs).2 hall
  refine ⟨fun n s2 hdel => DeleteJobGroupByID_deleted repo s s1 s2 id jg n hid hfind hg hdel,
    fun err s2 hdel => DeleteJobGroupByID_delete_failed repo s s1 s2 id jg err hid hfind hg hdel,
    ?_⟩
  intro ret calls hret
  have hf : (MockJobGroupRepository ret).FindJobGroupByUUID id calls =
      (Except.ok jg, calls ++ [JobGroupRepoCall.FindJobGroupByUUID id]) := by
    simp [MockJobGroupRepository, hret]
  cases hd : ret.DeleteJobGroup id with
  | error err =>
    have hdel : (MockJobGroupRepository ret).DeleteJobGroup id
        (calls ++ [JobGroupRepoCall.FindJobGroupByUUID id]) =
        (Except.error err, calls ++ [JobGroupRepoCall.FindJobGroupByUUID id] ++
          [JobGroupRepoCall.DeleteJobGroup id]) := by
      simp [MockJobGroupRepository, hd]
    rw [DeleteJobGroupByID_delete_failed _ _ _ _ id jg err hid hf hg hdel]
    exact ⟨by simp, fun n hn => by cases hn⟩
  | ok n =>
    have hdel : (MockJobGroupRepository ret).DeleteJobGroup id
        (calls ++ [JobGroupRepoCall.FindJobGroupByUUID id]) =
        (Except.ok n, calls ++ [JobGroupRepoCall.FindJobGroupByUUID id] ++
          [JobGroupRepoCall.DeleteJobGroup id]) := by
      simp [MockJobGroupRepository, hd]
    rw [DeleteJobGroupByID_deleted _ _ _ _ id jg n hid hf hg hdel]
    exact ⟨by simp, fun _ _ => rfl⟩

/-- C9 (witness): the DeleteJobGroupByID test: deleting `finishedGroup`
through the mock returns the group as loaded; the mock received the lookup and
one delete of "g-1". -/
theorem C9_DeleteJobGroupByID_deletes_witness :
    jobGroupService.DeleteJobGroupByID (MockJobGroupRepository (mockReturns finishedGroup))
        "g-1" [] =
      (Except.ok finishedGroup,
        [JobGroupRepoCall.FindJobGroupByUUID "g-1", JobGroupRepoCall.DeleteJobGroup "g-1"]) :=
  (C9_DeleteJobGroupByID_deletes (MockJobGroupRepository (mockReturns finishedGroup)) []
    [JobGroupRepoCall.FindJobGroupByUUID "g-1"] "g-1" finishedGroup (by decide) rfl
    (by simp [finishedGroup])).1 1
    [JobGroupRepoCall.FindJobGroupByUUID "g-1", JobGroupRepoCall.DeleteJobGroup "g-1"] rfl

theorem StopJobGroupByID_updated {σ : Type} (repo : JobGroupRepository σ) (s s1 s2 : σ)
    (id : String) (jg g : JobGroup) (hid : id ≠ "")
    (hfind : repo.FindJobGroupByUUID id s = (Except.ok jg, s1))
    (hupd : repo.UpdateJobGroup { jg with Jobs := jg.Jobs.map stopJob } s1 = (Except.ok g, s2)) :
    jobGroupService.StopJobGroupByID repo id s = (Except.ok g, s2) := by
  simp only [jobGroupService.StopJobGroupByID, jobGroupService.FindJobGroupByUUID, hid, hfind,
    hupd, if_false]

theorem StopJobGroupByID_update_failed {σ : Type} (repo : JobGroupRepository σ) (s s1 s2 : σ)
    (id : String) (jg : JobGroup) (err : String) (hid : id ≠ "")
    (hfind : repo.FindJobGroupByUUID id s = (Except.ok jg, s1))
    (hupd : repo.UpdateJobGroup { jg with Jobs := jg.Jobs.map stopJob } s1 =
      (Except.error err, s2)) :
    jobGroupService.StopJobGroupByID repo id s = (Except.error "error updating JobGroup", s2) := by
  simp only [jobGroupService.StopJobGroupByID, jobGroupService.FindJobGroupByUUID, hid, hfind,
    hupd, if_false]

theorem stopJob_created (job : Job) (h : job.State = JobCreated) :
    stopJob job = { job with State := JobFinished, OwnerID := "" } := by
  simp [stopJob, h]

theorem stopJob_other (job : Job) (h : job.State ≠ JobCreated) :
    stopJob job = { job with State := JobCreated, Type_ := DeleteDeployment } := by
  simp [stopJob, h]

/-- C10: for a loaded group, `StopJobGroupByID` submits to the repository
update one group `submitted` (the result of the operation is the result of
that update, its error replaced by "error updating JobGroup").  `submitted` is
the loaded group with its member jobs rewritten in place: same number of jobs,
and at every position the job that was Created is the same job with state
Finished and owner "", the job in any other state is the same job with state
Created and type DeleteDeployment. -/
theorem C10_StopJobGroupByID_submits {σ : Type} (repo : JobGroupRepository σ) (s s1 : σ)
    (id : String) (jg : JobGroup) (hid : id ≠ "")
    (hfind : repo.FindJobGroupByUUID id s = (Except.ok jg, s1)) :
    ∃ submitted : JobGroup,
      (∀ (g : JobGroup) (s2 : σ), repo.UpdateJobGroup submitted s1 = (Except.ok g, s2) →
        jobGroupService.StopJobGroupByID repo id s = (Except.ok g, s2)) ∧
      (∀ (err : String) (s2 : σ), repo.UpdateJobGroup submitted s1 = (Except.error err, s2) →
        jobGroupService.StopJobGroupByID repo id s =
          (Except.error "error updating JobGroup", s2)) ∧
      (∀ (ret : MockReturns) (calls : List JobGroupRepoCall),
        ret.FindJobGroupByUUID id = Except.ok jg →
          (jobGroupService.StopJobGroupByID (MockJobGroupRepository ret) id calls).2 =
            calls ++ [JobGroupRepoCall.FindJobGroupByUUID id,
              JobGroupRepoCall.UpdateJobGroup submitted]) ∧
      submitted = { jg with Jobs := submitted.Jobs } ∧
      submitted.Jobs.length = jg.Jobs.length ∧
      (∀ (i : Nat) (old : Job), jg.Jobs[i]? = some old →
        ∃ new : Job, submitted.Jobs[i]? = some new ∧
          (old.State = JobCreated →
            new = { old with State := JobFinished, OwnerID := "" } ∧
              new.State = JobFinished ∧ new.OwnerID = "") ∧
          (old.State ≠ JobCreated →
            new = { old with State := JobCreated, Type_ := DeleteDeployment } ∧
              new.State = JobCreated ∧ new.Type_ = DeleteDeployment)) := by
  refine ⟨{ jg with Jobs := jg.Jobs.map stopJob },
    fun g s2 h => StopJobGroupByID_updated repo s s1 s2 id jg g hid hfind h,
    fun err s2 h => StopJobGroupByID_update_failed repo s s1 s2 id jg err hid hfind h,
    ?_, rfl, by simp, ?_⟩
  · intro ret calls hret
    have hf : (MockJobGroupRepository ret).FindJobGroupByUUID id calls =
        (Except.ok jg, calls ++ [JobGroupRepoCall.FindJobGroupByUUID id]) := by
      simp [MockJobGroupRepository, hret]
    cases hu : ret.UpdateJobGroup { jg with Jobs := jg.Jobs.map stopJob } with
    | error err =>
      have hupd : (MockJobGroupRepository ret).UpdateJobGroup
          { jg with Jobs := jg.Jobs.map stopJob }
          (calls ++ [JobGroupRepoCall.FindJobGroupByUUID id]) =
          (Except.error err, calls ++ [JobGroupRepoCall.FindJobGroupByUUID id] ++
            [JobGroupRepoCall.UpdateJobGroup { jg with Jobs := jg.Jobs.map stopJob }]) := by
        simp [MockJobGroupRepository, hu]
      rw [StopJobGroupByID_update_failed _ _ _ _ id jg err hid hf hupd]
      simp
    | ok g =>
      have hupd : (MockJobGroupRepository ret).UpdateJobGroup
          { jg with Jobs := jg.Jobs.map stopJob }
          (calls ++ [JobGroupRepoCall.FindJobGroupByUUID id]) =
          (Except.ok g, calls ++ [JobGroupRepoCall.FindJobGroupByUUID id] ++
            [JobGroupRepoCall.UpdateJobGroup { jg with Jobs := jg.Jobs.map stopJob }]) := by
        simp [MockJobGroupRepository, hu]
      rw [StopJobGroupByID_updated _ _ _ _ id jg g hid hf hupd]
      simp
  · intro i old hold
    refine ⟨stopJob old, by simp [List.getElem?_map, hold], ?_, ?_⟩
    · intro h
      rw [stopJob_created old h]
      exact ⟨rfl, rfl, rfl⟩
    · intro h
      rw [stopJob_other old h]
      exact ⟨rfl, rfl, rfl⟩

/-- C10 (witness): stopping `runningGroup` through the mock submits one group
to the update; its Created member is now Finished with owner "", its
Progressing member is now a Created DeleteDeployment job that keeps owner "B". -/
theorem C10_StopJobGroupByID_submits_witness :
    ∃ submitted : JobGroup,
      jobGroupService.StopJobGroupByID (MockJobGroupRepository (mockReturns runningGroup))
          "g-2" [] =
        (Except.ok submitted,
          [JobGroupRepoCall.FindJobGroupByUUID "g-2",
            JobGroupRepoCall.UpdateJobGroup submitted]) ∧
      submitted.Jobs[0]? =
        some { ID := "j-1", Type_ := CreateDeployment, State := JobFinished, OwnerID := "" } ∧
      submitted.Jobs[1]? =
        some { ID := "j-2", Type_ := DeleteDeployment, State := JobCreated, OwnerID := "B" } := by
  obtain ⟨submitted, hok, -, -, -, -, hjobs⟩ :=
    C10_StopJobGroupByID_submits (MockJobGroupRepository (mockReturns runningGroup)) []
      [JobGroupRepoCall.FindJobGroupByUUID "g-2"] "g-2" runningGroup (by decide) rfl
  refine ⟨submitted, hok submitted _ rfl, ?_, ?_⟩
  · obtain ⟨new, hnew, hc, -⟩ := hjobs 0 _ rfl
    rw [hnew, (hc rfl).1]
    rfl
  · obtain ⟨new, hnew, -, ho⟩ := hjobs 1 _ rfl
    rw [hnew, (ho (by decide)).1]
    rfl

/-! ## Group coordinator: update (C11, C12) -/

theorem foldl_jobMap (incoming : List Job) (m : String → Option Job) (key : String) :
    incoming.foldl
        (fun jobMap updatedJob => fun k => if k = updatedJob.ID then some updatedJob else jobMap k)
        m key =
      match (incoming.filter (fun v => v.ID == key)).getLast? with
      | some u => some u
      | none => m key := by
  induction incoming generalizing m with
  | nil => simp
  | cons x xs ih =>
    rw [List.foldl_cons, ih]
    by_cases hx : x.ID = key
    · have hf : (x :: xs).filter (fun v => v.ID == key) =
          x :: xs.filter (fun v => v.ID == key) := by
        simp [List.filter_cons, hx]
      rw [hf, List.getLast?_cons]
      cases hl : (xs.filter (fun v => v.ID == key)).getLast? with
      | none => simp [hx]
      | some u => simp
    · have hf : (x :: xs).filter (fun v => v.ID == key) = xs.filter (fun v => v.ID == key) := by
        simp [List.filter_cons, hx]
      rw [hf]
      have hk : ¬ key = x.ID := fun h => hx h.symm
      cases hl : (xs.filter (fun v => v.ID == key)).getLast? with
      | none => simp [hk]
      | some u => simp

theorem buildJobMap_eq (incoming : List Job) (key : String) :
    buildJobMap incoming key = (incoming.filter (fun v => v.ID == key)).getLast? := by
  unfold buildJobMap
  rw [foldl_jobMap]
  cases (incoming.filter (fun v => v.ID == key)).getLast? <;> rfl

theorem mergeJobs_eq (existing incoming : List Job) :
    mergeJobs existing incoming =
      existing.map (fun e => ((incoming.filter (fun v => v.ID == e.ID)).getLast?).getD e) := by
  unfold mergeJobs
  split
  · apply List.map_congr_left
    intro e _
    rw [buildJobMap_eq]
    cases (incoming.filter (fun v => v.ID == e.ID)).getLast? <;> rfl
  · rename_i h
    have hnil : incoming = [] := by
      cases incoming with
      | nil => rfl
      | cons x xs => simp at h
    subst hnil
    simp

theorem getLast_filter_ID (incoming : List Job) (key : String) (u : Job)
    (h : (incoming.filter (fun v => v.ID == key)).getLast? = some u) :
    u ∈ incoming ∧ u.ID = key := by
  have hm : u ∈ incoming.filter (fun v => v.ID == key) := List.mem_of_getLast?_eq_some h
  rw [List.mem_filter] at hm
  exact ⟨hm.1, by simpa using hm.2⟩

theorem getLast_filter_unique (incoming : List Job) (key : String) (u : Job)
    (hu : u ∈ incoming) (hid : u.ID = key) (huniq : ∀ v ∈ incoming, v.ID = key → v = u) :
    (incoming.filter (fun v => v.ID == key)).getLast? = some u := by
  cases hl : (incoming.filter (fun v => v.ID == key)).getLast? with
  | none =>
    have hnil : incoming.filter (fun v => v.ID == key) = [] := by simpa using hl
    have hm : u ∈ incoming.filter (fun v => v.ID == key) := by
      rw [List.mem_filter]; exact ⟨hu, by simpa using hid⟩
    rw [hnil] at hm
    cases hm
  | some w =>
    obtain ⟨hw, hwid⟩ := getLast_filter_ID incoming key w hl
    rw [huniq w hw hwid]

theorem getLast_filter_none (incoming : List Job) (key : String)
    (h : ∀ v ∈ incoming, v.ID ≠ key) :
    (incoming.filter (fun v => v.ID == key)).getLast? = none := by
  rw [List.getLast?_eq_none_iff, List.filter_eq_nil_iff]
  intro v hv
  simpa using h v hv

theorem resetJob_fields (job : Job) :
    resetJob job = { job with State := (resetJob job).State, Type_ := (resetJob job).Type_ } ∧
      (resetJob job).ID = job.ID ∧ (resetJob job).OwnerID = job.OwnerID ∧
      (resetJob job).State = JobCreated ∧
      (job.OwnerID ≠ "" → (resetJob job).Type_ = ReplaceDeployment) ∧
      (job.OwnerID = "" → (resetJob job).Type_ = CreateDeployment) := by
  unfold resetJob
  split
  · rename_i h
    exact ⟨rfl, rfl, rfl, rfl, fun _ => rfl, fun h2 => absurd h2 h⟩
  · rename_i h
    exact ⟨rfl, rfl, rfl, rfl, fun h2 => absurd h2 h, fun _ => rfl⟩

theorem UpdateJobGroup_updated {σ : Type} (repo : JobGroupRepository σ) (s s1 s2 : σ)
    (doc existing g : JobGroup)
    (hfind : repo.FindJobGroupByUUID doc.ID s = (Except.ok existing, s1))
    (hupd : repo.UpdateJobGroup
      { existing with AppName := doc.AppName, AppDescription := doc.AppDescription,
                      Jobs := (mergeJobs existing.Jobs doc.Jobs).map resetJob } s1 =
        (Except.ok g, s2)) :
    jobGroupService.UpdateJobGroup repo (Except.ok doc) s = (Except.ok g, s2) := by
  simp only [jobGroupService.UpdateJobGroup, jobGroupService.FindJobGroupByUUID, hfind, hupd]

theorem UpdateJobGroup_update_failed {σ : Type} (repo : JobGroupRepository σ) (s s1 s2 : σ)
    (doc existing : JobGroup) (err : String)
    (hfind : repo.FindJobGroupByUUID doc.ID s = (Except.ok existing, s1))
    (hupd : repo.UpdateJobGroup
      { existing with AppName := doc.AppName, AppDescription := doc.AppDescription,
                      Jobs := (mergeJobs existing.Jobs doc.Jobs).map resetJob } s1 =
        (Except.error err, s2)) :
    jobGroupService.UpdateJobGroup repo (Except.ok doc) s = (Except.error err, s2) := by
  simp only [jobGroupService.UpdateJobGroup, jobGroupService.FindJobGroupByUUID, hfind, hupd]

theorem UpdateJobGroup_mock_calls (ret : MockReturns) (calls : List JobGroupRepoCall)
    (doc existing : JobGroup) (hret : ret.FindJobGroupByUUID doc.ID = Except.ok existing) :
    (jobGroupService.UpdateJobGroup (MockJobGroupRepository ret) (Except.ok doc) calls).2 =
      calls ++ [JobGroupRepoCall.FindJobGroupByUUID doc.ID,
        JobGroupRepoCall.UpdateJobGroup
          { existing with AppName := doc.AppName, AppDescription := doc.AppDescription,
                          Jobs := (mergeJobs existing.Jobs doc.Jobs).map resetJob }] := by
  have hf : (MockJobGroupRepository ret).FindJobGroupByUUID doc.ID calls =
      (Except.ok existing, calls ++ [JobGroupRepoCall.FindJobGroupByUUID doc.ID]) := by
    simp [MockJobGroupRepository, hret]
  cases hu : ret.UpdateJobGroup
      { existing with AppName := doc.AppName, AppDescription := doc.AppDescription,
                      Jobs := (mergeJobs existing.Jobs doc.Jobs).map resetJob } with
  | error err =>
    have hupd : (MockJobGroupRepository ret).UpdateJobGroup
        { existing with AppName := doc.AppName, AppDescription := doc.AppDescription,
                        Jobs := (mergeJobs existing.Jobs doc.Jobs).map resetJob }
        (calls ++ [JobGroupRepoCall.FindJobGroupByUUID doc.ID]) =
        (Except.error err, calls ++ [JobGroupRepoCall.FindJobGroupByUUID doc.ID] ++
          [JobGroupRepoCall.UpdateJobGroup
            { existing with AppName := doc.AppName, AppDescription := doc.AppDescription,
                            Jobs := (mergeJobs existing.Jobs doc.Jobs).map resetJob }]) := by
      simp [MockJobGroupRepository, hu]
    rw [UpdateJobGroup_update_failed (MockJobGroupRepository ret) calls _ _ doc existing err hf
      hupd]
    simp
  | ok g =>
    have hupd : (MockJobGroupRepository ret).UpdateJobGroup
        { existing with AppName := doc.AppName, AppDescription := doc.AppDescription,
                        Jobs := (mergeJobs existing.Jobs doc.Jobs).map resetJob }
        (calls ++ [JobGroupRepoCall.FindJobGroupByUUID doc.ID]) =
        (Except.ok g, calls ++ [JobGroupRepoCall.FindJobGroupByUUID doc.ID] ++
          [JobGroupRepoCall.UpdateJobGroup
            { existing with AppName := doc.AppName, AppDescription := doc.AppDescription,
                            Jobs := (mergeJobs existing.Jobs doc.Jobs).map resetJob }]) := by
      simp [MockJobGroupRepository, hu]
    rw [UpdateJobGroup_updated (MockJobGroupRepository ret) calls _ _ doc existing g hf hupd]
    simp

/-- C11: for a loaded group and an incoming update document, UpdateJobGroup
submits to the repository update one group `submitted` (the result of the
operation is the result of that update; on the recording mock the calls are
the lookup and that one update).  The name and description of `submitted` are
those of the document, and every member job of `submitted` has state Created
and type ReplaceDeployment when its owner is non-empty, CreateDeployment when
it is empty. -/
theorem C11_UpdateJobGroup_resets {σ : Type} (repo : JobGroupRepository σ) (s s1 : σ)
    (doc existing : JobGroup)
    (hfind : repo.FindJobGroupByUUID doc.ID s = (Except.ok existing, s1)) :
    ∃ submitted : JobGroup,
      (∀ (g : JobGroup) (s2 : σ), repo.UpdateJobGroup submitted s1 = (Except.ok g, s2) →
        jobGroupService.UpdateJobGroup repo (Except.ok doc) s = (Except.ok g, s2)) ∧
      (∀ (err : String) (s2 : σ), repo.UpdateJobGroup submitted s1 = (Except.error err, s2) →
        jobGroupService.UpdateJobGroup repo (Except.ok doc) s = (Except.error err, s2)) ∧
      (∀ (ret : MockReturns) (calls : List JobGroupRepoCall),
        ret.FindJobGroupByUUID doc.ID = Except.ok existing →
          (jobGroupService.UpdateJobGroup (MockJobGroupRepository ret) (Except.ok doc) calls).2 =
            calls ++ [JobGroupRepoCall.FindJobGroupByUUID doc.ID,
              JobGroupRepoCall.UpdateJobGroup submitted]) ∧
      submitted.AppName = doc.AppName ∧ submitted.AppDescription = doc.AppDescription ∧
      (∀ job ∈ submitted.Jobs,
        job.State = JobCreated ∧
          (job.OwnerID ≠ "" → job.Type_ = ReplaceDeployment) ∧
          (job.OwnerID = "" → job.Type_ = CreateDeployment)) := by
  refine ⟨{ existing with AppName := doc.AppName, AppDescription := doc.AppDescription,
                          Jobs := (mergeJobs existing.Jobs doc.Jobs).map resetJob },
    fun g s2 h => UpdateJobGroup_updated repo s s1 s2 doc existing g hfind h,
    fun err s2 h => UpdateJobGroup_update_failed repo s s1 s2 doc existing err hfind h,
    fun ret calls hret => UpdateJobGroup_mock_calls ret calls doc existing hret,
    rfl, rfl, ?_⟩
  intro job hjob
  obtain ⟨j0, -, rfl⟩ := List.mem_map.mp hjob
  obtain ⟨-, -, hown, hst, hrep, hcre⟩ := resetJob_fields j0
  exact ⟨hst, fun h => hrep (hown ▸ h), fun h => hcre (hown ▸ h)⟩

/-- C11 (witness): updating `existingGroup` with `updateDocument` through the
mock: the group returned is renamed and both members are Created jobs of type
ReplaceDeployment (both carry an owner after the merge). -/
theorem C11_UpdateJobGroup_resets_witness :
    ∃ submitted : JobGroup,
      jobGroupService.UpdateJobGroup (MockJobGroupRepository (mockReturns existingGroup))
          (Except.ok updateDocument) [] =
        (Except.ok submitted,
          [JobGroupRepoCall.FindJobGroupByUUID updateDocument.ID,
            JobGroupRepoCall.UpdateJobGroup submitted]) ∧
      submitted.AppName = "updated-jobgroup" ∧
      (∀ job ∈ submitted.Jobs, job.State = JobCreated) := by
  obtain ⟨submitted, hok, -, -, hname, -, hjobs⟩ :=
    C11_UpdateJobGroup_resets (MockJobGroupRepository (mockReturns existingGroup)) []
      [JobGroupRepoCall.FindJobGroupByUUID updateDocument.ID] updateDocument existingGroup rfl
  exact ⟨submitted, hok submitted _ rfl, hname, fun job hj => (hjobs job hj).1⟩

/-- C12: the merge of UpdateJobGroup is a whole-slot replacement keyed by job
identifier.  The group submitted has as many jobs as the existing group and
the same sequence of identifiers.  At each position, with `e` the existing
job: if incoming jobs carry the identifier of `e`, the slot holds the last of
them (the only one, when there is just one) in every field except the State
and Type written by the later reset; if no incoming job carries it, the slot
holds `e` in every field except State and Type.  Every job submitted has the
identifier of an existing member, so no incoming job is added. -/
theorem C12_UpdateJobGroup_merge {σ : Type} (repo : JobGroupRepository σ) (s s1 : σ)
    (doc existing : JobGroup)
    (hfind : repo.FindJobGroupByUUID doc.ID s = (Except.ok existing, s1)) :
    ∃ submitted : JobGroup,
      (∀ (g : JobGroup) (s2 : σ), repo.UpdateJobGroup submitted s1 = (Except.ok g, s2) →
        jobGroupService.UpdateJobGroup repo (Except.ok doc) s = (Except.ok g, s2)) ∧
      (∀ (err : String) (s2 : σ), repo.UpdateJobGroup submitted s1 = (Except.error err, s2) →
        jobGroupService.UpdateJobGroup repo (Except.ok doc) s = (Except.error err, s2)) ∧
      submitted.Jobs.length = existing.Jobs.length ∧
      submitted.Jobs.map (fun j => j.ID) = existing.Jobs.map (fun j => j.ID) ∧
      (∀ (i : Nat) (e : Job), existing.Jobs[i]? = some e →
        ∃ new : Job, submitted.Jobs[i]? = some new ∧
          (∀ u : Job, (doc.Jobs.filter (fun v => v.ID == e.ID)).getLast? = some u →
            new = { u with State := new.State, Type_ := new.Type_ }) ∧
          (∀ u : Job, u ∈ doc.Jobs → u.ID = e.ID → (∀ v ∈ doc.Jobs, v.ID = e.ID → v = u) →
            new = { u with State := new.State, Type_ := new.Type_ }) ∧
          ((∀ v ∈ doc.Jobs, v.ID ≠ e.ID) →
            new = { e with State := new.State, Type_ := new.Type_ })) ∧
      (∀ new ∈ submitted.Jobs, ∃ e ∈ existing.Jobs, new.ID = e.ID) := by
  have hslot : ∀ e : Job,
      (resetJob ((doc.Jobs.filter (fun v => v.ID == e.ID)).getLast?.getD e)).ID = e.ID := by
    intro e
    rw [(resetJob_fields _).2.1]
    cases hl : (doc.Jobs.filter (fun v => v.ID == e.ID)).getLast? with
    | none => rfl
    | some u => exact (getLast_filter_ID doc.Jobs e.ID u hl).2
  refine ⟨{ existing with AppName := doc.AppName, AppDescription := doc.AppDescription,
                          Jobs := (mergeJobs existing.Jobs doc.Jobs).map resetJob },
    fun g s2 h => UpdateJobGroup_updated repo s s1 s2 doc existing g hfind h,
    fun err s2 h => UpdateJobGroup_update_failed repo s s1 s2 doc existing err hfind h,
    ?_, ?_, ?_, ?_⟩
  · simp [mergeJobs_eq]
  · simp only [mergeJobs_eq, List.map_map]
    apply List.map_congr_left
    intro e _
    exact hslot e
  · intro i e he
    have hlast : ∀ u : Job, (doc.Jobs.filter (fun v => v.ID == e.ID)).getLast? = some u →
        resetJob ((doc.Jobs.filter (fun v => v.ID == e.ID)).getLast?.getD e) =
          { u with
            State := (resetJob ((doc.Jobs.filter (fun v => v.ID == e.ID)).getLast?.getD e)).State,
            Type_ := (resetJob ((doc.Jobs.filter (fun v => v.ID == e.ID)).getLast?.getD e)).Type_
          } := by
      intro u hu
      rw [hu]
      exact (resetJob_fields u).1
    refine ⟨resetJob ((doc.Jobs.filter (fun v => v.ID == e.ID)).getLast?.getD e), ?_, hlast, ?_, ?_⟩
    · simp [mergeJobs_eq, List.getElem?_map, he]
    · intro u hu hid huniq
      exact hlast u (getLast_filter_unique doc.Jobs e.ID u hu hid huniq)
    · intro hnone
      rw [getLast_filter_none doc.Jobs e.ID hnone]
      exact (resetJob_fields e).1
  · intro new hnew
    simp only [mergeJobs_eq, List.map_map, List.mem_map] at hnew
    obtain ⟨e, he, rfl⟩ := hnew
    exact ⟨e, he, hslot e⟩

/-- C12 (witness): updating `existingGroup` with `updateDocument`: the first
slot holds the later of the two incoming jobs with its identifier (namespace
"second", owner "owner-2"), the second slot keeps the existing job, and the
incoming job "j-9" is not added. -/
theorem C12_UpdateJobGroup_merge_witness :
    ∃ submitted : JobGroup,
      jobGroupService.UpdateJobGroup (MockJobGroupRepository (mockReturns existingGroup))
          (Except.ok updateDocument) [] =
        (Except.ok submitted,
          [JobGroupRepoCall.FindJobGroupByUUID updateDocument.ID,
            JobGroupRepoCall.UpdateJobGroup submitted]) ∧
      submitted.Jobs.map (fun j => j.ID) = ["6616b77c-dbb0-47aa-bc9b-ff45548db029", "j-2"] ∧
      (∃ new : Job, submitted.Jobs[0]? = some new ∧ new.Namespace = "second" ∧
        new.OwnerID = "owner-2") ∧
      (∃ new : Job, submitted.Jobs[1]? = some new ∧ new.OwnerID = "owner-1") := by
  obtain ⟨submitted, hok, -, -, hids, hslots, -⟩ :=
    C12_UpdateJobGroup_merge (MockJobGroupRepository (mockReturns existingGroup)) []
      [JobGroupRepoCall.FindJobGroupByUUID updateDocument.ID] updateDocument existingGroup rfl
  refine ⟨submitted, hok submitted _ rfl, hids, ?_, ?_⟩
  · obtain ⟨new, hnew, hlast, -, -⟩ := hslots 0 _ rfl
    refine ⟨new, hnew, ?_, ?_⟩
    · rw [hlast { ID := "6616b77c-dbb0-47aa-bc9b-ff45548db029", Type_ := DeleteDeployment,
                  State := JobDegraded, OwnerID := "owner-2", Namespace := "second" } (by decide)]
    · rw [hlast { ID := "6616b77c-dbb0-47aa-bc9b-ff45548db029", Type_ := DeleteDeployment,
                  State := JobDegraded, OwnerID := "owner-2", Namespace := "second" } (by decide)]
  · obtain ⟨new, hnew, -, -, hkeep⟩ := hslots 1 _ rfl
    refine ⟨new, hnew, ?_⟩
    rw [hkeep (by decide)]
    rfl

/-! ## Remediation handler (C13 to C18) -/

theorem HandlePolicyIncompliance_no_owner {σ : Type} (pr : PolicyRepository σ)
    (jr : JobRepository σ) (s s1 s2 : σ) (parsed saved inc : Incompliance) (job : Job)
    (hsave : pr.SaveIncompliance parsed s = ⟨Except.ok saved, inc, s1⟩)
    (hfind : jr.FindJobByResourceUUID inc.Subject.ResourceID s1 = (Except.ok job, s2))
    (howner : job.OwnerID = "") :
    policyService.HandlePolicyIncompliance pr jr (Except.ok parsed) s =
      ((none, some "OwnerID cannot be nil"), s2) := by
  simp only [policyService.HandlePolicyIncompliance, hsave, hfind, howner, if_true]

theorem HandlePolicyIncompliance_not_finished {σ : Type} (pr : PolicyRepository σ)
    (jr : JobRepository σ) (s s1 s2 : σ) (parsed saved inc : Incompliance) (job : Job)
    (hsave : pr.SaveIncompliance parsed s = ⟨Except.ok saved, inc, s1⟩)
    (hfind : jr.FindJobByResourceUUID inc.Subject.ResourceID s1 = (Except.ok job, s2))
    (howner : job.OwnerID ≠ "") (hstate : job.State ≠ JobFinished) :
    policyService.HandlePolicyIncompliance pr jr (Except.ok parsed) s =
      ((none, some "job cannot be remediated"), s2) := by
  simp only [policyService.HandlePolicyIncompliance, hsave, hfind, howner, hstate, if_false,
    if_true, ne_eq, not_false_eq_true]

theorem HandlePolicyIncompliance_updated {σ : Type} (pr : PolicyRepository σ)
    (jr : JobRepository σ) (s s1 s2 s3 : σ) (parsed saved inc : Incompliance) (job u : Job)
    (hsave : pr.SaveIncompliance parsed s = ⟨Except.ok saved, inc, s1⟩)
    (hfind : jr.FindJobByResourceUUID inc.Subject.ResourceID s1 = (Except.ok job, s2))
    (howner : job.OwnerID ≠ "") (hstate : job.State = JobFinished)
    (hupd : jr.UpdateJob (remediatedJob inc job) s2 = (Except.ok u, s3)) :
    policyService.HandlePolicyIncompliance pr jr (Except.ok parsed) s =
      ((some inc, none), s3) := by
  simp only [policyService.HandlePolicyIncompliance, hsave, hfind, howner, hstate, hupd,
    if_false, ne_eq, not_true_eq_false]

theorem HandlePolicyIncompliance_update_failed {σ : Type} (pr : PolicyRepository σ)
    (jr : JobRepository σ) (s s1 s2 s3 : σ) (parsed saved inc : Incompliance) (job : Job)
    (err : String)
    (hsave : pr.SaveIncompliance parsed s = ⟨Except.ok saved, inc, s1⟩)
    (hfind : jr.FindJobByResourceUUID inc.Subject.ResourceID s1 = (Except.ok job, s2))
    (howner : job.OwnerID ≠ "") (hstate : job.State = JobFinished)
    (hupd : jr.UpdateJob (remediatedJob inc job) s2 = (Except.error err, s3)) :
    policyService.HandlePolicyIncompliance pr jr (Except.ok parsed) s =
      ((none, some err), s3) := by
  simp only [policyService.HandlePolicyIncompliance, hsave, hfind, howner, hstate, hupd,
    if_false, ne_eq, not_true_eq_false]

theorem mock_SaveIncompliance (ret : RepoReturns) (calls : List RepoCall) (parsed saved : Incompliance)
    (h : ret.SaveIncompliance parsed = Except.ok saved) :
    (MockPolicyRepository ret).SaveIncompliance parsed calls =
      ⟨Except.ok saved, parsed, calls ++ [RepoCall.SaveIncompliance parsed]⟩ := by
  simp only [MockPolicyRepository, h]

theorem mock_FindJobByResourceUUID (ret : RepoReturns) (calls : List RepoCall) (uid : String)
    (job : Job) (h : ret.FindJobByResourceUUID uid = Except.ok job) :
    (MockJobRepository ret).FindJobByResourceUUID uid calls =
      (Except.ok job, calls ++ [RepoCall.FindJobByResourceUUID uid]) := by
  simp only [MockJobRepository, h]

theorem mock_UpdateJob (ret : RepoReturns) (calls : List RepoCall) (job : Job) :
    (MockJobRepository ret).UpdateJob job calls =
      (ret.UpdateJob job, calls ++ [RepoCall.UpdateJob job]) := rfl

/-- C13: for a parsed report that is saved and whose resource identifier
resolves to `job`: if the owner of `job` is empty or its state is not Finished
(in particular Progressing, Created or Degraded), HandlePolicyIncompliance
returns no record and an error, and the store is the one the lookup left: no
job update is applied (on the recording repositories the calls are the save
and the lookup).  If the owner is non-empty and the state Finished, one job
update is applied after the lookup. -/
theorem C13_HandlePolicyIncompliance_preconditions {σ : Type} (pr : PolicyRepository σ)
    (jr : JobRepository σ) (s s1 s2 : σ) (parsed saved inc : Incompliance) (job : Job)
    (hsave : pr.SaveIncompliance parsed s = ⟨Except.ok saved, inc, s1⟩)
    (hfind : jr.FindJobByResourceUUID inc.Subject.ResourceID s1 = (Except.ok job, s2)) :
    (job.OwnerID = "" ∨ job.State ≠ JobFinished →
        (∃ err : String,
          policyService.HandlePolicyIncompliance pr jr (Except.ok parsed) s =
            ((none, some err), s2) ∧
          (err = "OwnerID cannot be nil" ∨ err = "job cannot be remediated")) ∧
        (∀ (ret : RepoReturns) (calls : List RepoCall) (saved2 : Incompliance),
          ret.SaveIncompliance parsed = Except.ok saved2 →
          ret.FindJobByResourceUUID parsed.Subject.ResourceID = Except.ok job →
            (policyService.HandlePolicyIncompliance (MockPolicyRepository ret)
                (MockJobRepository ret) (Except.ok parsed) calls).2 =
              calls ++ [RepoCall.SaveIncompliance parsed,
                RepoCall.FindJobByResourceUUID parsed.Subject.ResourceID])) ∧
      (job.State = JobProgressing ∨ job.State = JobCreated ∨ job.State = JobDegraded →
        ∃ err : String,
          policyService.HandlePolicyIncompliance pr jr (Except.ok parsed) s =
            ((none, some err), s2)) ∧
      (job.OwnerID ≠ "" ∧ job.State = JobFinished →
        (∃ submitted : Job,
          (policyService.HandlePolicyIncompliance pr jr (Except.ok parsed) s).2 =
            (jr.UpdateJob submitted s2).2 ∧
          (∀ (ret : RepoReturns) (calls : List RepoCall) (saved2 : Incompliance),
            ret.SaveIncompliance parsed = Except.ok saved2 →
            ret.FindJobByResourceUUID parsed.Subject.ResourceID = Except.ok job →
              (policyService.HandlePolicyIncompliance (MockPolicyRepository ret)
                  (MockJobRepository ret) (Except.ok parsed) calls).2 =
                calls ++ [RepoCall.SaveIncompliance parsed,
                  RepoCall.FindJobByResourceUUID parsed.Subject.ResourceID,
                  RepoCall.UpdateJob (remediatedJob parsed job)]))) := by
  have hfail : job.OwnerID = "" ∨ job.State ≠ JobFinished →
      ∀ {τ : Type} (pr2 : PolicyRepository τ) (jr2 : JobRepository τ) (t t1 t2 : τ)
        (sv i2 : Incompliance),
        pr2.SaveIncompliance parsed t = ⟨Except.ok sv, i2, t1⟩ →
        jr2.FindJobByResourceUUID i2.Subject.ResourceID t1 = (Except.ok job, t2) →
        ∃ err : String,
          policyService.HandlePolicyIncompliance pr2 jr2 (Except.ok parsed) t =
            ((none, some err), t2) ∧
          (err = "OwnerID cannot be nil" ∨ err = "job cannot be remediated") := by
    intro hbad τ pr2 jr2 t t1 t2 sv i2 h1 h2
    by_cases howner : job.OwnerID = ""
    · exact ⟨_, HandlePolicyIncompliance_no_owner pr2 jr2 t t1 t2 parsed sv i2 job h1 h2 howner,
        Or.inl rfl⟩
    · have hstate : job.State ≠ JobFinished := hbad.resolve_left howner
      exact ⟨_, HandlePolicyIncompliance_not_finished pr2 jr2 t t1 t2 parsed sv i2 job h1 h2
        howner hstate, Or.inr rfl⟩
  refine ⟨fun hbad => ⟨hfail hbad pr jr s s1 s2 saved inc hsave hfind, ?_⟩, ?_, ?_⟩
  · intro ret calls saved2 hs hf
    obtain ⟨err, h, -⟩ := hfail hbad (MockPolicyRepository ret) (MockJobRepository ret) calls _ _
      saved2 parsed (mock_SaveIncompliance ret calls parsed saved2 hs)
      (mock_FindJobByResourceUUID ret _ _ job hf)
    rw [h]
    simp
  · intro hst
    have hne : job.State ≠ JobFinished := by
      rcases hst with h | h | h <;> rw [h] <;> decide
    obtain ⟨err, h, -⟩ := hfail (Or.inr hne) pr jr s s1 s2 saved inc hsave hfind
    exact ⟨err, h⟩
  · rintro ⟨howner, hstate⟩
    refine ⟨remediatedJob inc job, ?_, ?_⟩
    · cases hu : jr.UpdateJob (remediatedJob inc job) s2 with
      | mk r s3 =>
        cases r with
        | error err =>
          rw [HandlePolicyIncompliance_update_failed pr jr s s1 s2 s3 parsed saved inc job err
            hsave hfind howner hstate hu]
        | ok u =>
          rw [HandlePolicyIncompliance_updated pr jr s s1 s2 s3 parsed saved inc job u
            hsave hfind howner hstate hu]
    · intro ret calls saved2 hs hf
      have h1 := mock_SaveIncompliance ret calls parsed saved2 hs
      have h2 := mock_FindJobByResourceUUID ret (calls ++ [RepoCall.SaveIncompliance parsed])
        parsed.Subject.ResourceID job hf
      cases hu : ret.UpdateJob (remediatedJob parsed job) with
      | error err =>
        rw [HandlePolicyIncompliance_update_failed _ _ calls _ _ _ parsed saved2 parsed job err
          h1 h2 howner hstate (by rw [mock_UpdateJob, hu])]
        simp
      | ok u =>
        rw [HandlePolicyIncompliance_updated _ _ calls _ _ _ parsed saved2 parsed job u
          h1 h2 howner hstate (by rw [mock_UpdateJob, hu])]
        simp

/-- C13 (witness): the job of the test put in state Progressing: the handler
returns no record and an error, and the recording repositories received the
save and the lookup only. -/
theorem C13_HandlePolicyIncompliance_preconditions_witness :
    ∃ err : String,
      policyService.HandlePolicyIncompliance
          (MockPolicyRepository (repoReturns { finishedJob "" with State := JobProgressing }
            (Except.ok (finishedJob ""))))
          (MockJobRepository (repoReturns { finishedJob "" with State := JobProgressing }
            (Except.ok (finishedJob ""))))
          (Except.ok (report Reallocation)) [] =
        ((none, some err),
          [RepoCall.SaveIncompliance (report Reallocation),
            RepoCall.FindJobByResourceUUID "19d0baf9-0b90-4c36-8e41-5b18e8acbeec"]) :=
  ((C13_HandlePolicyIncompliance_preconditions
    (MockPolicyRepository (repoReturns { finishedJob "" with State := JobProgressing }
      (Except.ok (finishedJob ""))))
    (MockJobRepository (repoReturns { finishedJob "" with State := JobProgressing }
      (Except.ok (finishedJob ""))))
    [] [RepoCall.SaveIncompliance (report Reallocation)]
    [RepoCall.SaveIncompliance (report Reallocation),
      RepoCall.FindJobByResourceUUID "19d0baf9-0b90-4c36-8e41-5b18e8acbeec"]
    (report Reallocation) (report Reallocation) (report Reallocation)
    { finishedJob "" with State := JobProgressing } rfl rfl).1
      (Or.inr (by decide))).1.imp (fun _ h => h.1)

/-- C14: for a parsed report that is saved and whose resource identifier
resolves to a job in state Finished with a non-empty owner, whatever the type
of the job, HandlePolicyIncompliance submits to the job update the job
`remediatedJob inc job`: the job found with state Created and type
UpdateDeployment (all fields but State, Type and SubType unchanged).  When the
update succeeds the result is the record the handler parsed and saved, with no
error; on the recording repositories this record is the parsed one and the
calls are the save, the lookup and that one update. -/
theorem C14_HandlePolicyIncompliance_remediates {σ : Type} (pr : PolicyRepository σ)
    (jr : JobRepository σ) (s s1 s2 : σ) (parsed saved inc : Incompliance) (job : Job)
    (hsave : pr.SaveIncompliance parsed s = ⟨Except.ok saved, inc, s1⟩)
    (hfind : jr.FindJobByResourceUUID inc.Subject.ResourceID s1 = (Except.ok job, s2))
    (howner : job.OwnerID ≠ "") (hstate : job.State = JobFinished) :
    (remediatedJob inc job).State = JobCreated ∧
      (remediatedJob inc job).Type_ = UpdateDeployment ∧
      remediatedJob inc job =
        { job with State := JobCreated, Type_ := UpdateDeployment,
                   SubType := (remediatedJob inc job).SubType } ∧
      (policyService.HandlePolicyIncompliance pr jr (Except.ok parsed) s).2 =
        (jr.UpdateJob (remediatedJob inc job) s2).2 ∧
      (∀ (u : Job) (s3 : σ), jr.UpdateJob (remediatedJob inc job) s2 = (Except.ok u, s3) →
        policyService.HandlePolicyIncompliance pr jr (Except.ok parsed) s =
          ((some inc, none), s3)) ∧
      (∀ (ret : RepoReturns) (calls : List RepoCall) (saved2 : Incompliance) (u : Job),
        ret.SaveIncompliance parsed = Except.ok saved2 →
        ret.FindJobByResourceUUID parsed.Subject.ResourceID = Except.ok job →
        ret.UpdateJob (remediatedJob parsed job) = Except.ok u →
          policyService.HandlePolicyIncompliance (MockPolicyRepository ret)
              (MockJobRepository ret) (Except.ok parsed) calls =
            ((some parsed, none),
              calls ++ [RepoCall.SaveIncompliance parsed,
                RepoCall.FindJobByResourceUUID parsed.Subject.ResourceID,
                RepoCall.UpdateJob (remediatedJob parsed job)])) := by
  refine ⟨rfl, rfl, rfl, ?_, ?_, ?_⟩
  · cases hu : jr.UpdateJob (remediatedJob inc job) s2 with
    | mk r s3 =>
      cases r with
      | error err =>
        rw [HandlePolicyIncompliance_update_failed pr jr s s1 s2 s3 parsed saved inc job err
          hsave hfind howner hstate hu]
      | ok u =>
        rw [HandlePolicyIncompliance_updated pr jr s s1 s2 s3 parsed saved inc job u
          hsave hfind howner hstate hu]
  · intro u s3 hu
    exact HandlePolicyIncompliance_updated pr jr s s1 s2 s3 parsed saved inc job u
      hsave hfind howner hstate hu
  · intro ret calls saved2 u hs hf hu
    have h1 := mock_SaveIncompliance ret calls parsed saved2 hs
    have h2 := mock_FindJobByResourceUUID ret (calls ++ [RepoCall.SaveIncompliance parsed])
      parsed.Subject.ResourceID job hf
    rw [HandlePolicyIncompliance_updated _ _ calls _ _ _ parsed saved2 parsed job u
      h1 h2 howner hstate (by rw [mock_UpdateJob, hu])]
    simp

/-- C14 (witness): the HandlePolicyIncompliance test: the Finished job owned by
"owner-123" and a report with remediation "reallocation": the parsed record is
returned and the job update received the job in state Created with type
UpdateDeployment and sub-type "reallocation". -/
theorem C14_HandlePolicyIncompliance_remediates_witness :
    policyService.HandlePolicyIncompliance
        (MockPolicyRepository (repoReturns (finishedJob "") (Except.ok (finishedJob ""))))
        (MockJobRepository (repoReturns (finishedJob "") (Except.ok (finishedJob ""))))
        (Except.ok (report Reallocation)) [] =
      ((some (report Reallocation), none),
        [RepoCall.SaveIncompliance (report Reallocation),
          RepoCall.FindJobByResourceUUID "19d0baf9-0b90-4c36-8e41-5b18e8acbeec",
          RepoCall.UpdateJob { finishedJob "" with State := JobCreated,
                                                   Type_ := UpdateDeployment,
                                                   SubType := Reallocation }]) :=
  (C14_HandlePolicyIncompliance_remediates
    (MockPolicyRepository (repoReturns (finishedJob "") (Except.ok (finishedJob ""))))
    (MockJobRepository (repoReturns (finishedJob "") (Except.ok (finishedJob ""))))
    [] [RepoCall.SaveIncompliance (report Reallocation)]
    [RepoCall.SaveIncompliance (report Reallocation),
      RepoCall.FindJobByResourceUUID "19d0baf9-0b90-4c36-8e41-5b18e8acbeec"]
    (report Reallocation) (report Reallocation) (report Reallocation) (finishedJob "")
    rfl rfl (by decide) rfl).2.2.2.2.1 (finishedJob "") _ rfl

/-- C15 (evaluation of the code): the `switch` on the remediation kind maps
scale-up, scale-down, scale-out, scale-in and reallocation to themselves but
has no case for patch: the sub-type stays what the job carried.  For the
Finished job of the test with the empty sub-type and a report with remediation
"patch", the handler succeeds and the job it submits has sub-type "", not
"patch". -/
theorem C15_patch_not_passed_through (current : RemediationType) :
    remediationSubType ScaleUp current = ScaleUp ∧
      remediationSubType ScaleDown current = ScaleDown ∧
      remediationSubType ScaleOut current = ScaleOut ∧
      remediationSubType ScaleIn current = ScaleIn ∧
      remediationSubType Reallocation current = Reallocation ∧
      remediationSubType PatchDeployment current = current ∧
      policyService.HandlePolicyIncompliance
          (MockPolicyRepository (repoReturns (finishedJob "") (Except.ok (finishedJob ""))))
          (MockJobRepository (repoReturns (finishedJob "") (Except.ok (finishedJob ""))))
          (Except.ok (report PatchDeployment)) [] =
        ((some (report PatchDeployment), none),
          [RepoCall.SaveIncompliance (report PatchDeployment),
            RepoCall.FindJobByResourceUUID "19d0baf9-0b90-4c36-8e41-5b18e8acbeec",
            RepoCall.UpdateJob { finishedJob "" with State := JobCreated,
                                                     Type_ := UpdateDeployment,
                                                     SubType := "" }]) := by
  have k2 : ScaleDown ≠ ScaleUp := by decide
  have k3a : ScaleOut ≠ ScaleUp := by decide
  have k3b : ScaleOut ≠ ScaleDown := by decide
  have k3c : ScaleOut ≠ ScaleIn := by decide
  have k4a : ScaleIn ≠ ScaleUp := by decide
  have k4b : ScaleIn ≠ ScaleDown := by decide
  have k5a : Reallocation ≠ ScaleUp := by decide
  have k5b : Reallocation ≠ ScaleDown := by decide
  have k5c : Reallocation ≠ ScaleIn := by decide
  have k5d : Reallocation ≠ ScaleOut := by decide
  refine ⟨by simp [remediationSubType], by simp [remediationSubType, k2],
    by simp [remediationSubType, k3a, k3b, k3c], by simp [remediationSubType, k4a, k4b],
    by simp [remediationSubType, k5a, k5b, k5c, k5d], ?_, rfl⟩
  have h1 : PatchDeployment ≠ ScaleUp := by decide
  have h2 : PatchDeployment ≠ ScaleDown := by decide
  have h3 : PatchDeployment ≠ ScaleIn := by decide
  have h4 : PatchDeployment ≠ ScaleOut := by decide
  have h5 : PatchDeployment ≠ Reallocation := by decide
  simp [remediationSubType, h1, h2, h3, h4, h5]

/-- C16 (counterexample): a Finished job that carries sub-type "scale-up" and a
report with the unknown remediation kind "restart": the handler succeeds and
the job it submits still has sub-type "scale-up", not the empty string. -/
theorem C16_counterexample_subtype_kept :
    ("restart" ≠ ScaleUp ∧ "restart" ≠ ScaleDown ∧ "restart" ≠ ScaleOut ∧ "restart" ≠ ScaleIn ∧
        "restart" ≠ PatchDeployment ∧ "restart" ≠ Reallocation) ∧
      policyService.HandlePolicyIncompliance
          (MockPolicyRepository (repoReturns (finishedJob "scale-up")
            (Except.ok (finishedJob "scale-up"))))
          (MockJobRepository (repoReturns (finishedJob "scale-up")
            (Except.ok (finishedJob "scale-up"))))
          (Except.ok (report "restart")) [] =
        ((some (report "restart"), none),
          [RepoCall.SaveIncompliance (report "restart"),
            RepoCall.FindJobByResourceUUID "19d0baf9-0b90-4c36-8e41-5b18e8acbeec",
            RepoCall.UpdateJob { finishedJob "scale-up" with State := JobCreated,
                                                             Type_ := UpdateDeployment,
                                                             SubType := "scale-up" }]) ∧
      (remediatedJob (report "restart") (finishedJob "scale-up")).SubType ≠ "" := by
  refine ⟨by decide, rfl, by decide⟩

/-- C16 (amended): for a report whose remediation kind is none of the six
known kinds, resolving to a Finished job with a non-empty owner, the job
HandlePolicyIncompliance submits keeps the sub-type the job carried before the
call (so it is the empty string exactly when the job carried none), and when
the update succeeds the handler returns the record with no error. -/
theorem C16_unknown_kind_keeps_subtype {σ : Type} (pr : PolicyRepository σ)
    (jr : JobRepository σ) (s s1 s2 : σ) (parsed saved inc : Incompliance) (job : Job)
    (hsave : pr.SaveIncompliance parsed s = ⟨Except.ok saved, inc, s1⟩)
    (hfind : jr.FindJobByResourceUUID inc.Subject.ResourceID s1 = (Except.ok job, s2))
    (howner : job.OwnerID ≠ "") (hstate : job.State = JobFinished)
    (hkind : inc.Remediation ≠ ScaleUp ∧ inc.Remediation ≠ ScaleDown ∧
      inc.Remediation ≠ ScaleOut ∧ inc.Remediation ≠ ScaleIn ∧
      inc.Remediation ≠ PatchDeployment ∧ inc.Remediation ≠ Reallocation) :
    (remediatedJob inc job).SubType = job.SubType ∧
      ((remediatedJob inc job).SubType = "" ↔ job.SubType = "") ∧
      (policyService.HandlePolicyIncompliance pr jr (Except.ok parsed) s).2 =
        (jr.UpdateJob (remediatedJob inc job) s2).2 ∧
      (∀ (u : Job) (s3 : σ), jr.UpdateJob (remediatedJob inc job) s2 = (Except.ok u, s3) →
        policyService.HandlePolicyIncompliance pr jr (Except.ok parsed) s =
          ((some inc, none), s3)) := by
  obtain ⟨h1, h2, h3, h4, -, h6⟩ := hkind
  have hsub : (remediatedJob inc job).SubType = job.SubType := by
    simp [remediatedJob, remediationSubType, h1, h2, h3, h4, h6]
  refine ⟨hsub, by rw [hsub], ?_, ?_⟩
  · cases hu : jr.UpdateJob (remediatedJob inc job) s2 with
    | mk r s3 =>
      cases r with
      | error err =>
        rw [HandlePolicyIncompliance_update_failed pr jr s s1 s2 s3 parsed saved inc job err
          hsave hfind howner hstate hu]
      | ok u =>
        rw [HandlePolicyIncompliance_updated pr jr s s1 s2 s3 parsed saved inc job u
          hsave hfind howner hstate hu]
  · intro u s3 hu
    exact HandlePolicyIncompliance_updated pr jr s s1 s2 s3 parsed saved inc job u
      hsave hfind howner hstate hu

/-- C16 (witness): the unknown kind "restart" on the Finished job that carries
sub-type "scale-up": the submitted job keeps "scale-up". -/
theorem C16_unknown_kind_keeps_subtype_witness :
    (remediatedJob (report "restart") (finishedJob "scale-up")).SubType = "scale-up" :=
  (C16_unknown_kind_keeps_subtype
    (MockPolicyRepository (repoReturns (finishedJob "scale-up")
      (Except.ok (finishedJob "scale-up"))))
    (MockJobRepository (repoReturns (finishedJob "scale-up")
      (Except.ok (finishedJob "scale-up"))))
    [] [RepoCall.SaveIncompliance (report "restart")]
    [RepoCall.SaveIncompliance (report "restart"),
      RepoCall.FindJobByResourceUUID "19d0baf9-0b90-4c36-8e41-5b18e8acbeec"]
    (report "restart") (report "restart") (report "restart") (finishedJob "scale-up")
    rfl rfl (by decide) rfl (by decide)).1

/-- C17: for a request body that parses as the report `parsed`,
HandlePolicyIncompliance applies the save of `parsed` first, and the store it
leaves is the store of that save, touched afterwards by the job lookup and at
most one job update only: nothing undoes the save, whether the handler then
succeeds or fails.  On the recording repositories, whatever the configured
returns (save failing, job not found, empty owner, state not Finished, update
failing or succeeding), the calls received are the save of `parsed`, once and
first, followed only by job-repository calls. -/
theorem C17_incompliance_saved_first {σ : Type} (pr : PolicyRepository σ)
    (jr : JobRepository σ) (s : σ) (parsed : Incompliance) (ret : RepoReturns)
    (calls : List RepoCall) :
    ((policyService.HandlePolicyIncompliance pr jr (Except.ok parsed) s).2 =
          (pr.SaveIncompliance parsed s).store ∨
        (policyService.HandlePolicyIncompliance pr jr (Except.ok parsed) s).2 =
          (jr.FindJobByResourceUUID (pr.SaveIncompliance parsed s).arg.Subject.ResourceID
            (pr.SaveIncompliance parsed s).store).2 ∨
        ∃ submitted : Job,
          (policyService.HandlePolicyIncompliance pr jr (Except.ok parsed) s).2 =
            (jr.UpdateJob submitted
              (jr.FindJobByResourceUUID (pr.SaveIncompliance parsed s).arg.Subject.ResourceID
                (pr.SaveIncompliance parsed s).store).2).2) ∧
      (∃ rest : List RepoCall,
        (policyService.HandlePolicyIncompliance (MockPolicyRepository ret)
            (MockJobRepository ret) (Except.ok parsed) calls).2 =
          calls ++ RepoCall.SaveIncompliance parsed :: rest ∧
        (rest = [] ∨
          rest = [RepoCall.FindJobByResourceUUID parsed.Subject.ResourceID] ∨
          ∃ submitted : Job,
            rest = [RepoCall.FindJobByResourceUUID parsed.Subject.ResourceID,
              RepoCall.UpdateJob submitted])) := by
  have gen : ∀ {τ : Type} (pr2 : PolicyRepository τ) (jr2 : JobRepository τ) (t : τ),
      (policyService.HandlePolicyIncompliance pr2 jr2 (Except.ok parsed) t).2 =
          (pr2.SaveIncompliance parsed t).store ∨
        (policyService.HandlePolicyIncompliance pr2 jr2 (Except.ok parsed) t).2 =
          (jr2.FindJobByResourceUUID (pr2.SaveIncompliance parsed t).arg.Subject.ResourceID
            (pr2.SaveIncompliance parsed t).store).2 ∨
        ∃ submitted : Job,
          (policyService.HandlePolicyIncompliance pr2 jr2 (Except.ok parsed) t).2 =
            (jr2.UpdateJob submitted
              (jr2.FindJobByResourceUUID (pr2.SaveIncompliance parsed t).arg.Subject.ResourceID
                (pr2.SaveIncompliance parsed t).store).2).2 := by
    intro τ pr2 jr2 t
    cases hs : pr2.SaveIncompliance parsed t with
    | mk r inc t1 =>
      cases r with
      | error err =>
        left
        simp only [policyService.HandlePolicyIncompliance, hs]
      | ok saved =>
        cases hf : jr2.FindJobByResourceUUID inc.Subject.ResourceID t1 with
        | mk rj t2 =>
          cases rj with
          | error err =>
            right; left
            simp only [policyService.HandlePolicyIncompliance, hs, hf]
          | ok job =>
            by_cases howner : job.OwnerID = ""
            · right; left
              rw [HandlePolicyIncompliance_no_owner pr2 jr2 t t1 t2 parsed saved inc job hs hf
                howner]
            · by_cases hstate : job.State = JobFinished
              · right; right
                refine ⟨remediatedJob inc job, ?_⟩
                simp only [hf]
                cases hu : jr2.UpdateJob (remediatedJob inc job) t2 with
                | mk ru t3 =>
                  cases ru with
                  | error err =>
                    rw [HandlePolicyIncompliance_update_failed pr2 jr2 t t1 t2 t3 parsed saved
                      inc job err hs hf howner hstate hu]
                  | ok u =>
                    rw [HandlePolicyIncompliance_updated pr2 jr2 t t1 t2 t3 parsed saved
                      inc job u hs hf howner hstate hu]
              · right; left
                rw [HandlePolicyIncompliance_not_finished pr2 jr2 t t1 t2 parsed saved inc job
                  hs hf howner hstate]
  refine ⟨gen pr jr s, ?_⟩
  rcases gen (MockPolicyRepository ret) (MockJobRepository ret) calls with h | h | ⟨j, h⟩
  · exact ⟨[], by rw [h]; simp [MockPolicyRepository], Or.inl rfl⟩
  · exact ⟨[RepoCall.FindJobByResourceUUID parsed.Subject.ResourceID],
      by rw [h]; simp [MockPolicyRepository, MockJobRepository], Or.inr (Or.inl rfl)⟩
  · exact ⟨[RepoCall.FindJobByResourceUUID parsed.Subject.ResourceID, RepoCall.UpdateJob j],
      by rw [h]; simp [MockPolicyRepository, MockJobRepository], Or.inr (Or.inr ⟨j, rfl⟩)⟩

/-- C18 (counterexample): the job update fails with "database is locked" for
the Finished job of the test: the handler returns the error and NO record (the
first component of the result is the nil pointer), not the saved incompliance. -/
theorem C18_counterexample_no_record :
    policyService.HandlePolicyIncompliance
        (MockPolicyRepository (repoReturns (finishedJob "")
          (Except.error "database is locked")))
        (MockJobRepository (repoReturns (finishedJob "")
          (Except.error "database is locked")))
        (Except.ok (report Reallocation)) [] =
      ((none, some "database is locked"),
        [RepoCall.SaveIncompliance (report Reallocation),
          RepoCall.FindJobByResourceUUID "19d0baf9-0b90-4c36-8e41-5b18e8acbeec",
          RepoCall.UpdateJob { finishedJob "" with State := JobCreated,
                                                   Type_ := UpdateDeployment,
                                                   SubType := Reallocation }]) ∧
      (policyService.HandlePolicyIncompliance
        (MockPolicyRepository (repoReturns (finishedJob "")
          (Except.error "database is locked")))
        (MockJobRepository (repoReturns (finishedJob "")
          (Except.error "database is locked")))
        (Except.ok (report Reallocation)) []).1.1 ≠ some (report Reallocation) := by
  refine ⟨rfl, ?_⟩
  intro h
  cases h

/-- C18 (amended): when the job update at the end of HandlePolicyIncompliance
fails with error `err`, the operation returns no record (nil) together with
`err`, the update's error; the report saved at the start stays saved (the
store is the one the failed update left). -/
theorem C18_update_failure_returns_error_only {σ : Type} (pr : PolicyRepository σ)
    (jr : JobRepository σ) (s s1 s2 s3 : σ) (parsed saved inc : Incompliance) (job : Job)
    (err : String)
    (hsave : pr.SaveIncompliance parsed s = ⟨Except.ok saved, inc, s1⟩)
    (hfind : jr.FindJobByResourceUUID inc.Subject.ResourceID s1 = (Except.ok job, s2))
    (howner : job.OwnerID ≠ "") (hstate : job.State = JobFinished)
    (hupd : jr.UpdateJob (remediatedJob inc job) s2 = (Except.error err, s3)) :
    policyService.HandlePolicyIncompliance pr jr (Except.ok parsed) s =
      ((none, some err), s3) :=
  HandlePolicyIncompliance_update_failed pr jr s s1 s2 s3 parsed saved inc job err hsave hfind
    howner hstate hupd

/-- C18 (witness): the failing update of the counterexample, through the
amended statement. -/
theorem C18_update_failure_returns_error_only_witness :
    policyService.HandlePolicyIncompliance
        (MockPolicyRepository (repoReturns (finishedJob "")
          (Except.error "database is locked")))
        (MockJobRepository (repoReturns (finishedJob "")
          (Except.error "database is locked")))
        (Except.ok (report Reallocation)) [] =
      ((none, some "database is locked"),
        [RepoCall.SaveIncompliance (report Reallocation),
          RepoCall.FindJobByResourceUUID "19d0baf9-0b90-4c36-8e41-5b18e8acbeec",
          RepoCall.UpdateJob (remediatedJob (report Reallocation) (finishedJob ""))]) :=
  C18_update_failure_returns_error_only
    (MockPolicyRepository (repoReturns (finishedJob "") (Except.error "database is locked")))
    (MockJobRepository (repoReturns (finishedJob "") (Except.error "database is locked")))
    [] [RepoCall.SaveIncompliance (report Reallocation)]
    [RepoCall.SaveIncompliance (report Reallocation),
      RepoCall.FindJobByResourceUUID "19d0baf9-0b90-4c36-8e41-5b18e8acbeec"]
    [RepoCall.SaveIncompliance (report Reallocation),
      RepoCall.FindJobByResourceUUID "19d0baf9-0b90-4c36-8e41-5b18e8acbeec",
      RepoCall.UpdateJob (remediatedJob (report Reallocation) (finishedJob ""))]
    (report Reallocation) (report Reallocation) (report Reallocation) (finishedJob "")
    "database is locked" rfl rfl (by decide) rfl rfl

/-! ## Resource status (C19, C20) -/

theorem conditionsOf_mapResources (f : Resource → Resource)
    (hf : ∀ x, (f x).Conditions = x.Conditions) (jobs : List JobRow) :
    conditionsOf (mapResources f jobs) = conditionsOf jobs := by
  have h : (resourcesOf (mapResources f jobs)).map (fun x => x.Conditions) =
      (resourcesOf jobs).map (fun x => x.Conditions) := by
    induction jobs with
    | nil => rfl
    | cons r rest ih =>
      cases hr : r.Resource with
      | none =>
        simpa [resourcesOf, mapResources, List.filterMap_cons, hr] using ih
      | some x =>
        simpa [resourcesOf, mapResources, List.filterMap_cons, hr, hf x] using ih
  unfold conditionsOf
  rw [h]

theorem UpdateAResource_conditions (env : Env) (resource : Resource) (st : ResourceStore) :
    conditionsOf (resourceRepository.UpdateAResource env resource st).store.db.jobs =
        conditionsOf st.db.jobs ∧
      (resourceRepository.UpdateAResource env resource st).store.handleJobIDs ≠ [] := by
  have hf : ∀ x : Resource,
      (if (st.handleJobIDs ++ [resource.JobID]).all (fun id => x.JobID == id) then
          { x with
            ResourceUID := if resource.ResourceUID = "" then x.ResourceUID else resource.ResourceUID,
            ResourceName :=
              if resource.ResourceName = "" then x.ResourceName else resource.ResourceName,
            UpdatedAt := env.now }
        else x).Conditions = x.Conditions := by
    intro x
    split <;> rfl
  unfold resourceRepository.UpdateAResource
  dsimp only
  split
  · exact ⟨rfl, by simp⟩
  · split
    · exact ⟨rfl, by simp⟩
    · split
      · exact ⟨conditionsOf_mapResources _ hf _, by simp⟩
      · split
        · exact ⟨conditionsOf_mapResources _ hf _, by simp⟩
        · exact ⟨conditionsOf_mapResources _ hf _, by simp⟩

theorem addConditions_reassigned (env : Env) (conditions : List Condition) :
    ∀ (resource : Resource) (st : ResourceStore), st.handleJobIDs ≠ [] →
      (addConditions (NewResourceRepository env) resource conditions st).2.db = st.db := by
  induction conditions with
  | nil => intro resource st _; rfl
  | cons c rest ih =>
    intro resource st hst
    have hadd : (resourceRepository.AddCondition env resource
        { c with ResourceID := resource.ID } st).store.db = st.db ∧
        (resourceRepository.AddCondition env resource
          { c with ResourceID := resource.ID } st).store.handleJobIDs = st.handleJobIDs := by
      unfold resourceRepository.AddCondition
      split
      · exact ⟨rfl, rfl⟩
      · rw [if_neg hst]
        exact ⟨rfl, rfl⟩
    have hadd2 : ((NewResourceRepository env).AddCondition resource
        { c with ResourceID := resource.ID } st).store.db = st.db ∧
        ((NewResourceRepository env).AddCondition resource
          { c with ResourceID := resource.ID } st).store.handleJobIDs = st.handleJobIDs := hadd
    unfold addConditions
    split
    · rename_i heq
      rw [heq] at hadd2
      exact hadd2.1
    · rename_i heq
      rw [heq] at hadd2
      rw [ih _ _ (by rw [hadd2.2]; exact hst)]
      exact hadd2.1

theorem UpdateResourceState_conditions (env : Env) (resourceBody : Except String Resource)
    (st : ResourceStore) :
    conditionsOf (resourceService.UpdateResourceState (NewResourceRepository env)
        (NewJobRepositoryOnStore env) resourceBody st).2.db.jobs = conditionsOf st.db.jobs := by
  have hlook : ∀ uid, ((NewJobRepositoryOnStore env).FindJobByResourceUUID uid st).2 = st := by
    intro uid
    show ({ st with db := (jobRepository.FindJobByResourceUUID env uid st.db).2 }
      : ResourceStore) = st
    have : (jobRepository.FindJobByResourceUUID env uid st.db).2 = st.db := by
      unfold jobRepository.FindJobByResourceUUID
      split
      · rfl
      · split <;> rfl
    rw [this]
  unfold resourceService.UpdateResourceState
  split
  · rfl
  · rename_i parsed
    have h1 := hlook parsed.ResourceUID
    split
    · rename_i heq
      rw [heq] at h1
      simp only at h1
      rw [h1]
    · rename_i jobGotten s1 heq
      rw [heq] at h1
      simp only at h1
      subst h1
      split
      · rfl
      · rename_i jobResource hres
        have h2 : conditionsOf ((NewResourceRepository env).UpdateAResource
            { parsed with ResourceUID := jobGotten.ID, ID := jobResource.ID,
                          JobID := jobGotten.ID } s1).store.db.jobs = conditionsOf s1.db.jobs ∧
            ((NewResourceRepository env).UpdateAResource
              { parsed with ResourceUID := jobGotten.ID, ID := jobResource.ID,
                            JobID := jobGotten.ID } s1).store.handleJobIDs ≠ [] :=
          UpdateAResource_conditions env _ s1
        split
        · rename_i heq2
          rw [heq2] at h2
          exact h2.1
        · rename_i resource1 s2 heq2
          rw [heq2] at h2
          have h3 : ((NewResourceRepository env).RemoveConditions resource1 s2).store = s2 := by
            show (resourceRepository.RemoveConditions resource1 s2).store = s2
            unfold resourceRepository.RemoveConditions
            split <;> rfl
          split
          rename_i resource2 s3 heq3
          rw [heq3] at h3
          simp only at h3
          subst h3
          rw [addConditions_reassigned env _ _ _ h2.2]
          exact h2.1

/-- C19 (evaluation of the code): the example of the specification, a job whose
resource holds the conditions Progressing and Degraded and a status document
with the single condition Ready, run on the gorm-backed repositories with no
database error.  UpdateResourceState succeeds, but the resource it returns and
the conditions stored afterwards are the two OLD conditions; Ready is not
stored.  `Take(&resource)` at the end of UpdateAResource loads the stored
resource, conditions included, into the struct the service parsed;
RemoveConditions, whose DELETE is built for table `resources`, deletes nothing
and its result is discarded; the loop then hands the stored conditions to
AddCondition, whose INSERT goes to table `resources` on the handle
UpdateAResource re-assigned.  Whatever the document and the database, the
operation leaves table `conditions` as it was.  On the recording repositories,
which leave the struct alone, the service does call UpdateAResource,
RemoveConditions once and AddCondition for Ready, in this order. -/
theorem C19_submitted_conditions_not_stored :
    resourceService.UpdateResourceState (NewResourceRepository (quietEnv 9))
        (NewJobRepositoryOnStore (quietEnv 9)) (Except.ok statusDocument)
        { db := { jobs := [jobWithStatus] } } =
      (Except.ok
          { ID := "r-1", JobID := "j-1", ResourceUID := "j-1", ResourceName := "producer",
            UpdatedAt := 9,
            Conditions := [{ ID := 1, ResourceID := "r-1", Type_ := "Progressing",
                             Status := "True", CreatedAt := 5, UpdatedAt := 5 },
                           { ID := 2, ResourceID := "r-1", Type_ := "Degraded",
                             Status := "False", CreatedAt := 5, UpdatedAt := 5 }] },
        { db := { jobs := [jobWithStatusAfter] }, handleJobIDs := ["j-1"],
          strayResources :=
            [{ ID := "1", JobID := "r-1", ResourceUID := "Progressing", ResourceName := "True",
               CreatedAt := 5, UpdatedAt := 5 },
             { ID := "2", JobID := "r-1", ResourceUID := "Degraded", ResourceName := "False",
               CreatedAt := 5, UpdatedAt := 5 }] }) ∧
      (conditionsOf [jobWithStatusAfter]).map (fun c => c.Type_) = ["Progressing", "Degraded"] ∧
      (∀ (env : Env) (resourceBody : Except String Resource) (st : ResourceStore),
        conditionsOf (resourceService.UpdateResourceState (NewResourceRepository env)
          (NewJobRepositoryOnStore env) resourceBody st).2.db.jobs = conditionsOf st.db.jobs) ∧
      resourceRepository.RemoveConditions { ID := "r-1", JobID := "j-1" }
          { db := { jobs := [jobWithStatus] } } =
        ⟨Except.ok {}, { ID := "r-1", JobID := "j-1" }, { db := { jobs := [jobWithStatus] } }⟩ ∧
      (resourceService.UpdateResourceState
          (MockResourceRepository (repoReturns jobWithStatus.scan (Except.ok {})))
          (MockJobRepository (repoReturns jobWithStatus.scan (Except.ok {})))
          (Except.ok statusDocument) []).2 =
        [RepoCall.FindJobByResourceUUID "R1",
          RepoCall.UpdateAResource { statusDocument with ID := "r-1", JobID := "j-1",
                                                         ResourceUID := "j-1" },
          RepoCall.RemoveConditions { statusDocument with ID := "r-1", JobID := "j-1",
                                                          ResourceUID := "j-1" },
          RepoCall.AddCondition { statusDocument with ID := "r-1", JobID := "j-1",
                                                      ResourceUID := "j-1" }
            { ResourceID := "r-1", Type_ := "Ready", Status := "True" }] := by
  refine ⟨rfl, by decide, UpdateResourceState_conditions, rfl, by decide⟩

/-- C20 (evaluation of the code): a status update whose `resource_uuid` "R2"
is owned by no job.  The job lookup reports "job not found"; the handler
compares the error text with "not found", so it answers 400, not 404.  The
same for every repository whose lookup reports "job not found". -/
theorem C20_missing_job_answers_400 :
    Server.UpdateResourceStateByUUID (NewResourceRepository (quietEnv 9))
        (NewJobRepositoryOnStore (quietEnv 9))
        (Except.ok (Except.ok { statusDocument with ResourceUID := "R2" }))
        { db := { jobs := [jobWithStatus] } } =
      ({ status := 400, error := some "job not found" }, { db := { jobs := [jobWithStatus] } }) ∧
      (∀ (σ : Type) (rr : ResourceRepository σ) (jr : JobRepository σ) (parsed : Resource)
          (s s1 : σ),
        jr.FindJobByResourceUUID parsed.ResourceUID s = (Except.error "job not found", s1) →
          Server.UpdateResourceStateByUUID rr jr (Except.ok (Except.ok parsed)) s =
            ({ status := 400, error := some "job not found" }, s1)) := by
  refine ⟨rfl, ?_⟩
  intro σ rr jr parsed s s1 h
  have hne : ¬ ("job not found" = "not found") := by decide
  simp only [Server.UpdateResourceStateByUUID, resourceService.UpdateResourceState, h, hne,
    if_false]

/-! ## Executable-jobs handler (C21) -/

theorem OrchestratorTypeMapper_eq_None (s : String) :
    OrchestratorTypeMapper s = None ↔ s ≠ "ocm" ∧ s ≠ "nuvla" := by
  unfold OrchestratorTypeMapper OCM Nuvla None
  by_cases h1 : s = "nuvla"
  · subst h1; decide
  · by_cases h2 : s = "ocm"
    · subst h2; decide
    · simp [h1, h2]

theorem GetJobsByState_rejected {σ : Type} (repo : JobRepository σ)
    (isRecordNotFound : String → Bool) (orch ownerID : String) (s : σ)
    (h : orch ≠ "ocm" ∧ orch ≠ "nuvla") :
    Server.GetJobsByState repo isRecordNotFound orch ownerID s =
      ({ status := 400, error := some "no valid orchestrator type provided" }, s) := by
  have hm := (OrchestratorTypeMapper_eq_None orch).2 h
  simp [Server.GetJobsByState, hm]

theorem GetJobsByState_accepted {σ : Type} (repo : JobRepository σ)
    (isRecordNotFound : String → Bool) (orch ownerID : String) (s : σ)
    (h : orch = "ocm" ∨ orch = "nuvla") :
    Server.GetJobsByState repo isRecordNotFound orch ownerID s =
      match repo.FindJobsToExecute orch ownerID s with
      | (Except.error err, s1) =>
        if isRecordNotFound err then ({ status := 404, error := some err }, s1)
        else ({ status := 500, error := some err }, s1)
      | (Except.ok jobGotten, s1) => ({ status := 200, jobs := some jobGotten }, s1) := by
  have hm : ¬ (None = OrchestratorTypeMapper orch) := by
    intro hn
    have := (OrchestratorTypeMapper_eq_None orch).1 hn.symm
    rcases h with h | h
    · exact this.1 h
    · exact this.2 h
  simp only [Server.GetJobsByState, hm, if_false, jobService.FindJobsToExecute]

theorem GetJobsByState_accepted_status {σ : Type} (repo : JobRepository σ)
    (isRecordNotFound : String → Bool) (orch ownerID : String) (s : σ) (h : orch = "ocm" ∨ orch = "nuvla") :
    (Server.GetJobsByState repo isRecordNotFound orch ownerID s).1.status ≠ 400 ∧
      (Server.GetJobsByState repo isRecordNotFound orch ownerID s).2 = (repo.FindJobsToExecute orch ownerID s).2 := by
  rw [GetJobsByState_accepted repo isRecordNotFound orch ownerID s h]
  rcases hr : repo.FindJobsToExecute orch ownerID s with ⟨r, s1⟩
  cases r with
  | error err =>
    by_cases he : isRecordNotFound err = true
    · simp [he]
    · simp [he]
  | ok jobs => simp

/-- C21: `OrchestratorTypeMapper(s)` returns `s` itself for "ocm" and "nuvla"
and the empty type `None` for every other string (exact comparison), and the
executable-jobs handler answers 400 if and only if the orchestrator path value
is neither "ocm" nor "nuvla"; in that case it returns before any lookup (the
store is untouched and a recording repository sees no call), otherwise the
lookup `FindJobsToExecute(orch, ownerID)` is performed. -/
theorem C21_GetJobsByState_rejects_iff {σ : Type} (repo : JobRepository σ)
    (isRecordNotFound : String → Bool) (orch ownerID : String) (s : σ) (ret : RepoReturns)
    (calls : List RepoCall) :
    (OrchestratorTypeMapper orch = None ↔ orch ≠ "ocm" ∧ orch ≠ "nuvla") ∧
      (orch = "ocm" ∨ orch = "nuvla" → OrchestratorTypeMapper orch = orch) ∧
      ((Server.GetJobsByState repo isRecordNotFound orch ownerID s).1.status = 400 ↔
        orch ≠ "ocm" ∧ orch ≠ "nuvla") ∧
      (orch ≠ "ocm" ∧ orch ≠ "nuvla" →
        Server.GetJobsByState repo isRecordNotFound orch ownerID s =
          ({ status := 400, error := some "no valid orchestrator type provided" }, s)) ∧
      ((Server.GetJobsByState (MockJobRepository ret) isRecordNotFound orch ownerID calls).2 = calls ↔
        orch ≠ "ocm" ∧ orch ≠ "nuvla") ∧
      (orch = "ocm" ∨ orch = "nuvla" →
        (Server.GetJobsByState (MockJobRepository ret) isRecordNotFound orch ownerID calls).2 =
          calls ++ [RepoCall.FindJobsToExecute orch ownerID]) := by
  have hacc : ¬ (orch ≠ "ocm" ∧ orch ≠ "nuvla") → orch = "ocm" ∨ orch = "nuvla" := by
    intro h
    by_cases h1 : orch = "ocm"
    · exact Or.inl h1
    · by_cases h2 : orch = "nuvla"
      · exact Or.inr h2
      · exact absurd ⟨h1, h2⟩ h
  have hmock : orch = "ocm" ∨ orch = "nuvla" →
      (Server.GetJobsByState (MockJobRepository ret) isRecordNotFound orch ownerID calls).2 =
        calls ++ [RepoCall.FindJobsToExecute orch ownerID] := by
    intro h
    rw [(GetJobsByState_accepted_status (MockJobRepository ret) isRecordNotFound orch ownerID calls h).2]
    rfl
  refine ⟨OrchestratorTypeMapper_eq_None orch, ?_, ?_, GetJobsByState_rejected repo isRecordNotFound orch ownerID s,
    ?_, hmock⟩
  · rintro (h | h) <;> subst h <;> decide
  · constructor
    · intro h4
      by_contra hn
      exact (GetJobsByState_accepted_status repo isRecordNotFound orch ownerID s (hacc hn)).1 h4
    · intro h
      rw [GetJobsByState_rejected repo isRecordNotFound orch ownerID s h]
  · constructor
    · intro hc
      by_contra hn
      rw [hmock (hacc hn)] at hc
      simp at hc
    · intro h
      rw [GetJobsByState_rejected (MockJobRepository ret) isRecordNotFound orch ownerID calls h]

theorem toExecuteWhere_true (r : JobRow) (o c : String) (now : Int) :
    toExecuteWhere r o c now = some true ↔
      toExecuteClause1 r o = some true ∨ toExecuteClause2 r o c now = some true ∨
        toExecuteClause3 r o c = some true ∨ toExecuteClause4 r o c = some true := by
  simp only [toExecuteWhere, sqlOr_eq_true, or_assoc]

/-! ## Numeric encoding of job types (C25) -/

/-- C25 (counterexample): CreateDeployment is not 1.  The job `MockJob` builds
(`Type: 1`, `State: 1`, a uuid as owner), once stored, is no CreateDeployment
job: the type condition `type = CreateDeployment` of dispatch predicates (1)
and (2) is FALSE on it. -/
theorem C25_counterexample_type_one :
    CreateDeployment ≠ 1 ∧
      (MockJob "6616b77c-dbb0-47aa-bc9b-ff45548db029" "27a69131-f34d-44b3-9063-81501a1c0fc8"
        "19d0baf9-0b90-4c36-8e41-5b18e8acbeec").Type_ = 1 ∧
      (MockJob "6616b77c-dbb0-47aa-bc9b-ff45548db029" "27a69131-f34d-44b3-9063-81501a1c0fc8"
        "19d0baf9-0b90-4c36-8e41-5b18e8acbeec").Type_ ≠ CreateDeployment ∧
      sqlEq
          (some (MockJob "6616b77c-dbb0-47aa-bc9b-ff45548db029"
            "27a69131-f34d-44b3-9063-81501a1c0fc8"
            "19d0baf9-0b90-4c36-8e41-5b18e8acbeec").toRow.Type_)
          (some CreateDeployment) = some false := by
  refine ⟨by decide, rfl, by decide, by decide⟩

/-- C25 (amended): the numeric encoding of job types continues that of job
states in one sequence: the states have the values 1 to 4 and CreateDeployment,
DeleteDeployment, UpdateDeployment, ReplaceDeployment the values 5, 6, 7, 8
(`iota` runs through the one const block).  So a stored job satisfies the type
condition of dispatch predicates (1) and (2) exactly when its type is 5, a job
stored with type 5 that is unowned and Created is selected for its
orchestrator, and a job stored with type 1 satisfies none of the four
predicates. -/
theorem C25_job_type_encoding (r : JobRow) :
    JobCreated = 1 ∧ JobProgressing = 2 ∧ JobFinished = 3 ∧ JobDegraded = 4 ∧
      CreateDeployment = 5 ∧ DeleteDeployment = 6 ∧ UpdateDeployment = 7 ∧
      ReplaceDeployment = 8 ∧
      (sqlEq (some r.Type_) (some CreateDeployment) = some true ↔ r.Type_ = 5) ∧
      ((r.Type_ = 5 ∧ r.State = 1 ∧ r.OwnerID = some "") →
        ∀ (c : String) (now : Int), toExecuteWhere r r.Orchestrator c now = some true) ∧
      (r.Type_ = 1 →
        ∀ (o c : String) (now : Int),
          toExecuteClause1 r o ≠ some true ∧ toExecuteClause2 r o c now ≠ some true ∧
            toExecuteClause3 r o c ≠ some true ∧ toExecuteClause4 r o c ≠ some true ∧
            toExecuteWhere r o c now ≠ some true) := by
  refine ⟨rfl, rfl, rfl, rfl, rfl, rfl, rfl, rfl, ?_, ?_, ?_⟩
  · rw [sqlEq_eq_true]
    constructor
    · intro h
      exact Option.some.inj h
    · intro h
      rw [h]
      rfl
  · rintro ⟨ht, hs, ho⟩ c now
    rw [toExecuteWhere_true, toExecuteClause1_true]
    exact Or.inl ⟨ht, hs, Or.inl ho, rfl⟩
  · intro ht o c now
    have h1 : toExecuteClause1 r o ≠ some true := by
      rw [Ne, toExecuteClause1_true, ht]
      rintro ⟨h, -⟩
      exact absurd h (by decide)
    have h2 : toExecuteClause2 r o c now ≠ some true := by
      rw [Ne, toExecuteClause2_true, ht]
      rintro ⟨h, -⟩
      exact absurd h (by decide)
    have h3 : toExecuteClause3 r o c ≠ some true := by
      rw [Ne, toExecuteClause3_true, ht]
      rintro ⟨h, -⟩
      exact absurd h (by decide)
    have h4 : toExecuteClause4 r o c ≠ some true := by
      rw [Ne, toExecuteClause4_true, ht]
      rintro ⟨h, -⟩
      exact absurd h (by decide)
    refine ⟨h1, h2, h3, h4, ?_⟩
    rw [Ne, toExecuteWhere_true]
    tauto

/-- C25 (witness): the row of `MockJob`, unowned, stored with type 5 is
selected for its orchestrator. -/
theorem C25_job_type_encoding_witness :
    toExecuteWhere
        { (MockJob "6616b77c-dbb0-47aa-bc9b-ff45548db029" "27a69131-f34d-44b3-9063-81501a1c0fc8"
            "").toRow with Type_ := 5 }
        "Mock Orchestrator" "A" 7 = some true :=
  (C25_job_type_encoding
    { (MockJob "6616b77c-dbb0-47aa-bc9b-ff45548db029" "27a69131-f34d-44b3-9063-81501a1c0fc8"
        "").toRow with Type_ := 5 }).2.2.2.2.2.2.2.2.2.1 ⟨rfl, rfl, rfl⟩ "A" 7

/-! ## Dispatch and lease together (C26, C27) -/

theorem clause2_not_created (r : JobRow) (o c : String) (now : Int)
    (h : toExecuteClause2 r o c now = some true) : r.State ≠ JobCreated := by
  rw [toExecuteClause2_true] at h
  rcases h.2.1 with hs | hs <;> rw [hs] <;> decide

theorem clause134_created (r : JobRow) (o c : String)
    (h : toExecuteClause1 r o = some true ∨ toExecuteClause3 r o c = some true ∨
      toExecuteClause4 r o c = some true) : r.State = JobCreated := by
  rcases h with h | h | h
  · exact ((toExecuteClause1_true r o).1 h).2.1
  · exact ((toExecuteClause3_true r o c).1 h).2.1
  · exact ((toExecuteClause4_true r o c).1 h).2.1

/-- C26: let the stored job `j` (the row its id identifies) be surfaced by `FindJobsToExecute(o, c)` at
time `now`, and let a poller ask to promote it for a non-empty owner id.  If it
was surfaced through predicate (2) (stale lease), `JobPromote` fails with "job
cannot be promoted" and the table is unchanged.  When no statement of the
promotion fails, `JobPromote` succeeds if and only if the job was surfaced
through predicate (1), (3) or (4). -/
theorem C26_stale_lease_not_promotable (env : Env) (db : DB) (o c owner : String) (now : Int)
    (j : JobRow) (hid : j.ID ≠ "") (hown : owner ≠ "")
    (hfind : db.jobs.find? (fun x => x.ID == j.ID) = some j)
    (hsel : j ∈ toExecuteRows now o c db.jobs)
    (hread : env.fault Stmt.FindJobByUUID_Take = none) :
    (toExecuteClause2 j o c now = some true →
        jobService.JobPromote (NewJobRepository env) j.ID (Except.ok { OwnerID := owner }) db =
          (Except.error "job cannot be promoted", db)) ∧
      (env.fault Stmt.JobPromote_Updates = none → env.fault Stmt.JobPromote_Take = none →
        env.fault Stmt.JobPromote_Commit = none →
        ((∃ (updated : Job) (db1 : DB),
            jobService.JobPromote (NewJobRepository env) j.ID (Except.ok { OwnerID := owner }) db =
              (Except.ok updated, db1)) ↔
          (toExecuteClause1 j o = some true ∨ toExecuteClause3 j o c = some true ∨
            toExecuteClause4 j o c = some true))) := by
  have hlook := FindJobByUUID_found env j.ID db j hread hfind
  have hfail : j.State ≠ JobCreated →
      jobService.JobPromote (NewJobRepository env) j.ID (Except.ok { OwnerID := owner }) db =
        (Except.error "job cannot be promoted", db) := fun hs =>
    JobPromote_not_created (NewJobRepository env) db db j.ID { OwnerID := owner } j.scan hid hown
      hlook hs
  refine ⟨fun h2 => hfail (clause2_not_created j o c now h2), ?_⟩
  intro hupd htake hcommit
  constructor
  · rintro ⟨updated, db1, hp⟩
    rcases ((mem_toExecuteRows now o c db.jobs j).1 hsel).2 with h | h | h | h
    · exact Or.inl h
    · rw [hfail (clause2_not_created j o c now h)] at hp
      cases hp
    · exact Or.inr (Or.inl h)
    · exact Or.inr (Or.inr h)
  · intro h
    exact ⟨_, _, JobPromote_created_gorm env db j.ID owner j hid hown hfind
      (clause134_created j o c h) hread hupd htake hcommit⟩

/-- C26 (witness): `leasedRow` (Progressing, owner "A", last updated at time 0)
is surfaced to caller "B" at time 301 s through predicate (2); promoting it for
"B" fails and leaves the table as it was. -/
theorem C26_stale_lease_not_promotable_witness :
    leasedRow ∈ toExecuteRows (301 * second) "ocm" "B" [leasedRow] ∧
      toExecuteClause2 leasedRow "ocm" "B" (301 * second) = some true ∧
      jobService.JobPromote (NewJobRepository (quietEnv (301 * second))) leasedRow.ID
          (Except.ok { OwnerID := "B" }) { jobs := [leasedRow] } =
        (Except.error "job cannot be promoted", { jobs := [leasedRow] }) :=
  ⟨by decide, by decide,
    (C26_stale_lease_not_promotable (quietEnv (301 * second)) { jobs := [leasedRow] } "ocm" "B"
      "B" (301 * second) leasedRow (by decide) (by decide) (by decide) (by decide) rfl).1
      (by decide)⟩

theorem JobPromote_created_failed {σ : Type} (repo : JobRepository σ) (s s1 s2 : σ)
    (job_uuid : String) (dto : JobOwnershipDTO) (j : Job) (err : String)
    (hid : job_uuid ≠ "") (hown : dto.OwnerID ≠ "")
    (hfind : repo.FindJobByUUID job_uuid s = (Except.ok j, s1))
    (hstate : j.State = JobCreated)
    (hprom : repo.JobPromote { j with OwnerID := dto.OwnerID, State := JobProgressing } s1 =
      (Except.error err, s2)) :
    jobService.JobPromote repo job_uuid (Except.ok dto) s = (Except.error err, s2) := by
  simp only [jobService.JobPromote, jobService.FindJobByUUID, hid, hown, hfind, hstate, hprom,
    if_false, if_true]

theorem repo_JobPromote_commit_fails (env : Env) (job : Job) (db : DB) (err : String)
    (hcommit : env.fault Stmt.JobPromote_Commit = some err) :
    ∃ e, jobRepository.JobPromote env job db = (Except.error e, db) := by
  unfold jobRepository.JobPromote
  split
  · exact ⟨_, rfl⟩
  · dsimp only
    split
    · exact ⟨_, rfl⟩
    · split
      · exact ⟨_, rfl⟩
      · rw [hcommit]
        exact ⟨_, rfl⟩

theorem JobPromote_ok_inv (env : Env) (db db1 : DB) (job_uuid : String) (dto : JobOwnershipDTO)
    (updated : Job)
    (h : jobService.JobPromote (NewJobRepository env) job_uuid (Except.ok dto) db =
      (Except.ok updated, db1)) :
    ∃ r : JobRow, db.jobs.find? (fun x => x.ID == job_uuid) = some r ∧ r.State = JobCreated ∧
      dto.OwnerID ≠ "" ∧
      updated = { r.scan with OwnerID := dto.OwnerID, State := JobProgressing,
                              UpdatedAt := env.now } ∧
      db1 = { jobs := db.jobs.map (fun x =>
        if x.ID = job_uuid then
          { x with OwnerID := some dto.OwnerID, State := JobProgressing, UpdatedAt := env.now }
        else x) } := by
  by_cases hid : job_uuid = ""
  · simp [jobService.JobPromote, hid] at h
  by_cases hown : dto.OwnerID = ""
  · simp [jobService.JobPromote, hid, hown] at h
  cases hread : env.fault Stmt.FindJobByUUID_Take with
  | some err =>
    simp [jobService.JobPromote, jobService.FindJobByUUID, NewJobRepository,
      jobRepository.FindJobByUUID, hid, hown, hread] at h
  | none =>
    cases hfind : db.jobs.find? (fun x => x.ID == job_uuid) with
    | none =>
      simp [jobService.JobPromote, jobService.FindJobByUUID, NewJobRepository,
        jobRepository.FindJobByUUID, hid, hown, hread, hfind] at h
    | some r =>
      by_cases hstate : r.State = JobCreated
      · have hrid : r.ID = job_uuid := find_ID job_uuid db.jobs r hfind
        cases hupd : env.fault Stmt.JobPromote_Updates with
        | some err =>
          simp [jobService.JobPromote, jobService.FindJobByUUID, NewJobRepository,
            jobRepository.FindJobByUUID, jobRepository.JobPromote, hid, hown, hread, hfind,
            hstate, hupd, JobRow.scan] at h
        | none =>
          cases htake : env.fault Stmt.JobPromote_Take with
          | some err =>
            simp [jobService.JobPromote, jobService.FindJobByUUID, NewJobRepository,
              jobRepository.FindJobByUUID, jobRepository.JobPromote, hid, hown, hread, hfind,
              hstate, hupd, htake, JobRow.scan] at h
          | none =>
            cases hcommit : env.fault Stmt.JobPromote_Commit with
            | some err =>
              obtain ⟨e, hrepo⟩ := repo_JobPromote_commit_fails env
                { r.scan with OwnerID := dto.OwnerID, State := JobProgressing } db err hcommit
              have hf := JobPromote_created_failed (NewJobRepository env) db db db job_uuid dto
                r.scan e hid hown (FindJobByUUID_found env job_uuid db r hread hfind) hstate hrepo
              rw [hf] at h
              cases h
            | none =>
              have hg := JobPromote_created_gorm env db job_uuid dto.OwnerID r hid hown hfind
                hstate hread hupd htake hcommit
              have hdto : ({ OwnerID := dto.OwnerID } : JobOwnershipDTO) = dto := rfl
              rw [hdto, h] at hg
              injection hg with h1 h2
              injection h1 with h1
              exact ⟨r, rfl, hstate, hown, h1, h2⟩
      · have := JobPromote_not_created (NewJobRepository env) db db job_uuid dto r.scan hid hown
          (FindJobByUUID_found env job_uuid db r hread hfind) hstate
        rw [this] at h
        cases h
theorem leased_to_caller_not_selected (r : JobRow) (o A : String) (now : Int)
    (hs : r.State = JobProgressing) (ho : r.OwnerID = some A) :
    toExecuteWhere r o A now ≠ some true := by
  have hne : JobProgressing ≠ JobCreated := by decide
  rw [Ne, toExecuteWhere_true, toExecuteClause1_true, toExecuteClause2_true, toExecuteClause3_true,
    toExecuteClause4_true]
  rintro (h | h | h | h)
  · exact hne (hs.symm.trans h.2.1)
  · obtain ⟨a, ha, hneq⟩ := h.2.2.1
    rw [ho] at ha
    exact hneq (Option.some.inj ha).symm
  · exact hne (hs.symm.trans h.2.1)
  · exact hne (hs.symm.trans h.2.1)

/-- C27: after a successful `JobPromote` of a job by owner `A` (success implies
that `A` is not empty), the job returned has state Progressing and owner `A`;
every stored row with the job's id has state Progressing and owner `A`, so none
of the four dispatch predicates holds on it for caller `A`, and
`FindJobsToExecute(o, A)` returns no job with that id, for every orchestrator
`o`, at every time and whatever the database reports. -/
theorem C27_promoted_not_surfaced_to_owner (env : Env) (db db1 : DB) (job_uuid A : String)
    (updated : Job)
    (hprom : jobService.JobPromote (NewJobRepository env) job_uuid (Except.ok { OwnerID := A }) db =
      (Except.ok updated, db1)) :
    A ≠ "" ∧ updated.ID = job_uuid ∧ updated.State = JobProgressing ∧ updated.OwnerID = A ∧
      (∃ r ∈ db1.jobs, r.ID = job_uuid) ∧
      (∀ r ∈ db1.jobs, r.ID = job_uuid →
        r.State = JobProgressing ∧ r.OwnerID = some A ∧
          ∀ (o : String) (now : Int),
            toExecuteWhere r o A now ≠ some true ∧ r ∉ toExecuteRows now o A db1.jobs) ∧
      (∀ (env2 : Env) (o : String) (jobs : List Job) (db2 : DB),
        jobRepository.FindJobsToExecute env2 o A db1 = (Except.ok jobs, db2) →
          ∀ x ∈ jobs, x.ID ≠ job_uuid) := by
  obtain ⟨r0, hfind, -, hown, hup, hdb⟩ := JobPromote_ok_inv env db db1 job_uuid _ updated hprom
  have hr0 : r0.ID = job_uuid := find_ID job_uuid db.jobs r0 hfind
  have hrows : ∀ r ∈ db1.jobs, r.ID = job_uuid →
      r.State = JobProgressing ∧ r.OwnerID = some A := by
    intro r hr hid
    rw [hdb] at hr
    obtain ⟨x, -, hx⟩ := List.mem_map.1 hr
    by_cases hxid : x.ID = job_uuid
    · rw [if_pos hxid] at hx
      subst hx
      exact ⟨rfl, rfl⟩
    · rw [if_neg hxid] at hx
      subst hx
      exact absurd hid hxid
  have hnot : ∀ r ∈ db1.jobs, r.ID = job_uuid → ∀ (o : String) (now : Int),
      toExecuteWhere r o A now ≠ some true := fun r hr hid o now =>
    leased_to_caller_not_selected r o A now (hrows r hr hid).1 (hrows r hr hid).2
  refine ⟨hown, ?_, ?_, ?_, ?_, ?_, ?_⟩
  · rw [hup]; exact hr0
  · rw [hup]
  · rw [hup]
  · have h1 := find_map_update
      (fun x => { x with OwnerID := some A, State := JobProgressing, UpdatedAt := env.now })
      (fun _ => rfl) job_uuid db.jobs r0 hfind
    refine ⟨{ r0 with OwnerID := some A, State := JobProgressing, UpdatedAt := env.now }, ?_, hr0⟩
    rw [hdb]
    exact List.mem_of_find?_eq_some h1
  · intro r hr hid
    refine ⟨(hrows r hr hid).1, (hrows r hr hid).2, fun o now => ⟨hnot r hr hid o now, ?_⟩⟩
    intro hmem
    have := (List.mem_filter.1 hmem).2
    exact hnot r hr hid o now (by simpa using this)
  · intro env2 o jobs db2 hq x hx hid
    cases hf : env2.fault Stmt.FindJobsToExecute_Find with
    | some err => simp [jobRepository.FindJobsToExecute, hf] at hq
    | none =>
      rw [FindJobsToExecute_ok env2 o A db1 hf] at hq
      injection hq with h1 h2
      injection h1 with h1
      subst h1
      obtain ⟨r, hr, hrx⟩ := List.mem_map.1 hx
      have hrid : r.ID = job_uuid := by rw [← hid, ← hrx]; rfl
      have hsel := (List.mem_filter.1 hr)
      exact hnot r hsel.1 hrid o env2.now (by simpa using hsel.2)

/-- C27 (witness): `unclaimedRow` promoted by "A" at time 7 is stored with
state Progressing and owner "A"; polled by "A" for "ocm" at time 9 it is not
selected. -/
theorem C27_promoted_not_surfaced_to_owner_witness :
    jobService.JobPromote (NewJobRepository (quietEnv 7)) unclaimedRow.ID
          (Except.ok { OwnerID := "A" }) { jobs := [unclaimedRow] } =
        (Except.ok { unclaimedRow.scan with OwnerID := "A", State := JobProgressing, UpdatedAt := 7 },
          { jobs := [{ unclaimedRow with OwnerID := some "A", State := JobProgressing,
                                         UpdatedAt := 7 }] }) ∧
      ({ unclaimedRow with OwnerID := some "A", State := JobProgressing, UpdatedAt := 7 } : JobRow) ∉
        toExecuteRows 9 "ocm" "A"
          [{ unclaimedRow with OwnerID := some "A", State := JobProgressing, UpdatedAt := 7 }] :=
  ⟨rfl,
    (((C27_promoted_not_surfaced_to_owner (quietEnv 7) { jobs := [unclaimedRow] }
      { jobs := [{ unclaimedRow with OwnerID := some "A", State := JobProgressing,
                                     UpdatedAt := 7 }] }
      unclaimedRow.ID "A"
      { unclaimedRow.scan with OwnerID := "A", State := JobProgressing, UpdatedAt := 7 }
      rfl).2.2.2.2.2.1
        { unclaimedRow with OwnerID := some "A", State := JobProgressing, UpdatedAt := 7 }
        (List.mem_singleton.2 rfl) rfl).2.2 "ocm" 9).2⟩

/-! ## Stop, remediation and dispatch together (C28 to C30) -/

theorem stopJob_twice (job : Job) :
    (stopJob (stopJob job)).Type_ = DeleteDeployment ∧
      ((stopJob (stopJob job)).State = JobFinished ∨ (stopJob (stopJob job)).State = JobCreated) := by
  have hne : JobFinished ≠ JobCreated := by decide
  by_cases h : job.State = JobCreated
  · rw [stopJob_created job h, stopJob_other _ hne]
    exact ⟨rfl, Or.inr rfl⟩
  · rw [stopJob_other job h, stopJob_created _ rfl]
    exact ⟨rfl, Or.inl rfl⟩

theorem StopJobGroupByID_mock_calls (ret : MockReturns) (calls : List JobGroupRepoCall)
    (id : String) (jg : JobGroup) (hid : id ≠ "")
    (hret : ret.FindJobGroupByUUID id = Except.ok jg) :
    (jobGroupService.StopJobGroupByID (MockJobGroupRepository ret) id calls).2 =
      calls ++ [JobGroupRepoCall.FindJobGroupByUUID id,
        JobGroupRepoCall.UpdateJobGroup { jg with Jobs := jg.Jobs.map stopJob }] := by
  simp only [jobGroupService.StopJobGroupByID, jobGroupService.FindJobGroupByUUID,
    MockJobGroupRepository, hid, hret, if_false]
  cases ret.UpdateJobGroup { jg with Jobs := jg.Jobs.map stopJob } <;> simp

/-- C28: for every group, whatever its member jobs, the job transformation of
StopJobGroupByID applied twice leaves every member with type DeleteDeployment
and state Created or Finished, so the gating loop of DeleteJobGroupByID passes
on the result; each application is what StopJobGroupByID submits for the group
it looked up.  After one application this need not hold: a member that was
Created with type CreateDeployment becomes Finished with its type unchanged and
the gate answers that not all jobs are of type DeleteDeployment. -/
theorem C28_stop_twice_unblocks_delete (jg : JobGroup) :
    (∀ job ∈ (jg.Jobs.map stopJob).map stopJob,
        job.Type_ = DeleteDeployment ∧ (job.State = JobCreated ∨ job.State = JobFinished)) ∧
      deleteGate ((jg.Jobs.map stopJob).map stopJob) = none ∧
      (∀ (ret : MockReturns) (calls : List JobGroupRepoCall) (id : String) (g : JobGroup),
        id ≠ "" → ret.FindJobGroupByUUID id = Except.ok g →
          (jobGroupService.StopJobGroupByID (MockJobGroupRepository ret) id calls).2 =
            calls ++ [JobGroupRepoCall.FindJobGroupByUUID id,
              JobGroupRepoCall.UpdateJobGroup { g with Jobs := g.Jobs.map stopJob }]) ∧
      (∀ (ret : MockReturns) (calls : List JobGroupRepoCall) (id : String) (n : Int),
        id ≠ "" →
        ret.FindJobGroupByUUID id = Except.ok { jg with Jobs := (jg.Jobs.map stopJob).map stopJob } →
        ret.DeleteJobGroup id = Except.ok n →
          jobGroupService.DeleteJobGroupByID (MockJobGroupRepository ret) id calls =
            (Except.ok { jg with Jobs := (jg.Jobs.map stopJob).map stopJob },
              calls ++ [JobGroupRepoCall.FindJobGroupByUUID id,
                JobGroupRepoCall.DeleteJobGroup id])) ∧
      (∃ job : Job, job.State = JobCreated ∧ (stopJob job).State = JobFinished ∧
        (stopJob job).Type_ = job.Type_ ∧
        deleteGate ([job].map stopJob) =
          some "JobGroup cannot be deleted, one or more jobs are not of type DeleteDeployment") := by
  have hall : ∀ job ∈ (jg.Jobs.map stopJob).map stopJob,
      job.Type_ = DeleteDeployment ∧ (job.State = JobFinished ∨ job.State = JobCreated) := by
    intro job hj
    rw [List.map_map] at hj
    obtain ⟨x, -, hx⟩ := List.mem_map.1 hj
    subst hx
    exact stopJob_twice x
  have hgate := (deleteGate_eq_none _).2 hall
  refine ⟨fun job hj => ⟨(hall job hj).1, (hall job hj).2.symm⟩, hgate, ?_, ?_, ?_⟩
  · intro ret calls id g hid hret
    exact StopJobGroupByID_mock_calls ret calls id g hid hret
  · intro ret calls id n hid hret hdel
    have h := DeleteJobGroupByID_deleted (MockJobGroupRepository ret) calls
      (calls ++ [JobGroupRepoCall.FindJobGroupByUUID id])
      ((calls ++ [JobGroupRepoCall.FindJobGroupByUUID id]) ++ [JobGroupRepoCall.DeleteJobGroup id])
      id { jg with Jobs := (jg.Jobs.map stopJob).map stopJob } n hid
      (by simp [MockJobGroupRepository, hret]) hgate (by simp [MockJobGroupRepository, hdel])
    rw [h]
    simp
  · exact ⟨{ Type_ := CreateDeployment, State := JobCreated }, rfl, rfl, rfl, rfl⟩

theorem owned_created_selected_iff (r : JobRow) (A : String) (hs : r.State = JobCreated)
    (ho : r.OwnerID = some A)
    (ht : r.Type_ = UpdateDeployment ∨ r.Type_ = DeleteDeployment) (o B : String) (now : Int) :
    toExecuteWhere r o B now = some true ↔ o = r.Orchestrator ∧ B = A := by
  have h57 : UpdateDeployment ≠ CreateDeployment := by decide
  have h65 : DeleteDeployment ≠ CreateDeployment := by decide
  have h67 : DeleteDeployment ≠ UpdateDeployment := by decide
  rw [toExecuteWhere_true, toExecuteClause1_true, toExecuteClause2_true, toExecuteClause3_true,
    toExecuteClause4_true, ho]
  constructor
  · rintro (h | h | h | h)
    · rcases ht with ht | ht
      · exact absurd (ht.symm.trans h.1) h57
      · exact absurd (ht.symm.trans h.1) h65
    · rcases ht with ht | ht
      · exact absurd (ht.symm.trans h.1) h57
      · exact absurd (ht.symm.trans h.1) h65
    · exact ⟨h.2.2.2.symm, (Option.some.inj h.2.2.1).symm⟩
    · exact ⟨h.2.2.2.symm, (Option.some.inj h.2.2.1).symm⟩
  · rintro ⟨ho2, hb⟩
    subst ho2 hb
    rcases ht with ht | ht
    · exact Or.inr (Or.inr (Or.inl ⟨ht, hs, rfl, rfl⟩))
    · exact Or.inr (Or.inr (Or.inr ⟨ht, hs, rfl, rfl⟩))

/-! ## Operations on Finished and Degraded jobs (C24) -/

theorem mapResources_states (f : Resource → Resource) (jobs : List JobRow) :
    (mapResources f jobs).map (fun r => (r.ID, r.State)) = jobs.map (fun r => (r.ID, r.State)) := by
  simp [mapResources, List.map_map, Function.comp_def]

theorem createCondition_states (env : Env) (condition : Condition) (jobs : List JobRow) :
    (createCondition env condition jobs).map (fun r => (r.ID, r.State)) =
      jobs.map (fun r => (r.ID, r.State)) := by
  unfold createCondition
  split
  · rfl
  · split
    · rfl
    · exact mapResources_states _ jobs

theorem UpdateAResource_states (env : Env) (resource : Resource) (st : ResourceStore) :
    (resourceRepository.UpdateAResource env resource st).store.db.jobs.map
        (fun r => (r.ID, r.State)) = st.db.jobs.map (fun r => (r.ID, r.State)) := by
  unfold resourceRepository.UpdateAResource
  dsimp only
  split
  · rfl
  · split
    · rfl
    · split
      · exact mapResources_states _ _
      · split
        · exact mapResources_states _ _
        · exact mapResources_states _ _

theorem RemoveConditions_states (resource : Resource) (st : ResourceStore) :
    (resourceRepository.RemoveConditions resource st).store.db.jobs.map
        (fun r => (r.ID, r.State)) = st.db.jobs.map (fun r => (r.ID, r.State)) := by
  unfold resourceRepository.RemoveConditions
  split <;> rfl

theorem AddCondition_states (env : Env) (resource : Resource) (condition : Condition)
    (st : ResourceStore) :
    (resourceRepository.AddCondition env resource condition st).store.db.jobs.map
        (fun r => (r.ID, r.State)) = st.db.jobs.map (fun r => (r.ID, r.State)) := by
  unfold resourceRepository.AddCondition
  split
  · rfl
  · split
    · exact createCondition_states _ _ _
    · rfl

theorem addConditions_preserves {σ β : Type} (rr : ResourceRepository σ) (P : σ → β)
    (hadd : ∀ r c s, P (rr.AddCondition r c s).store = P s) (conditions : List Condition) :
    ∀ (resource : Resource) (s : σ), P (addConditions rr resource conditions s).2 = P s := by
  induction conditions with
  | nil => intro resource s; rfl
  | cons c rest ih =>
    intro resource s
    have h := hadd resource { c with ResourceID := resource.ID } s
    unfold addConditions
    split
    · rename_i heq
      rw [heq] at h
      exact h
    · rename_i heq
      rw [heq] at h
      exact (ih _ _).trans h

theorem UpdateResourceState_preserves {σ β : Type} (rr : ResourceRepository σ)
    (jr : JobRepository σ) (P : σ → β)
    (hfind : ∀ uid s, P (jr.FindJobByResourceUUID uid s).2 = P s)
    (hupd : ∀ r s, P (rr.UpdateAResource r s).store = P s)
    (hrem : ∀ r s, P (rr.RemoveConditions r s).store = P s)
    (hadd : ∀ r c s, P (rr.AddCondition r c s).store = P s)
    (resourceBody : Except String Resource) (s : σ) :
    P (resourceService.UpdateResourceState rr jr resourceBody s).2 = P s := by
  unfold resourceService.UpdateResourceState
  split
  · rfl
  · rename_i parsed
    have h1 := hfind parsed.ResourceUID s
    split
    · rename_i heq
      rw [heq] at h1
      exact h1
    · rename_i jobGotten s1 heq
      rw [heq] at h1
      split
      · exact h1
      · rename_i jobResource hres
        have h2 := hupd
          { parsed with ResourceUID := jobGotten.ID, ID := jobResource.ID, JobID := jobGotten.ID }
          s1
        split
        · rename_i heq2
          rw [heq2] at h2
          exact h2.trans h1
        · rename_i resource1 s2 heq2
          rw [heq2] at h2
          have h3 := hrem resource1 s2
          split
          rename_i resource2 s3 heq3
          rw [heq3] at h3
          exact (addConditions_preserves rr P hadd _ _ _).trans (h3.trans (h2.trans h1))

theorem UpdateResourceState_states (env : Env) (resourceBody : Except String Resource)
    (st : ResourceStore) :
    (resourceService.UpdateResourceState (NewResourceRepository env) (NewJobRepositoryOnStore env)
        resourceBody st).2.db.jobs.map (fun r => (r.ID, r.State)) =
      st.db.jobs.map (fun r => (r.ID, r.State)) := by
  refine UpdateResourceState_preserves (NewResourceRepository env) (NewJobRepositoryOnStore env)
    (fun st : ResourceStore => st.db.jobs.map (fun r => (r.ID, r.State))) ?_
    (UpdateAResource_states env) RemoveConditions_states (AddCondition_states env)
    resourceBody st
  intro uid s
  show (jobRepository.FindJobByResourceUUID env uid s.db).2.jobs.map (fun r => (r.ID, r.State)) = _
  unfold jobRepository.FindJobByResourceUUID
  split
  · rfl
  · split <;> rfl
theorem DeleteJobGroupByID_mock_calls (ret : MockReturns) (calls : List JobGroupRepoCall)
    (id : String) :
    (jobGroupService.DeleteJobGroupByID (MockJobGroupRepository ret) id calls).2 = calls ∨
      (jobGroupService.DeleteJobGroupByID (MockJobGroupRepository ret) id calls).2 =
        calls ++ [JobGroupRepoCall.FindJobGroupByUUID id] ∨
      (jobGroupService.DeleteJobGroupByID (MockJobGroupRepository ret) id calls).2 =
        calls ++ [JobGroupRepoCall.FindJobGroupByUUID id, JobGroupRepoCall.DeleteJobGroup id] := by
  by_cases hid : id = ""
  · left
    simp [jobGroupService.DeleteJobGroupByID, hid]
  · right
    cases hf : ret.FindJobGroupByUUID id with
    | error err =>
      left
      simp [jobGroupService.DeleteJobGroupByID, MockJobGroupRepository, hid, hf]
    | ok jg =>
      cases hg : deleteGate jg.Jobs with
      | some err =>
        left
        simp [jobGroupService.DeleteJobGroupByID, MockJobGroupRepository, hid, hf, hg]
      | none =>
        right
        cases hd : ret.DeleteJobGroup id <;>
          simp [jobGroupService.DeleteJobGroupByID, MockJobGroupRepository, hid, hf, hg, hd]

theorem UpdateJobGroup_slot_created (existing incoming : List Job) (i : Nat) (job : Job)
    (h : existing[i]? = some job) :
    ∃ new : Job, ((mergeJobs existing incoming).map resetJob)[i]? = some new ∧
      new.State = JobCreated := by
  rw [mergeJobs_eq, List.getElem?_map, List.getElem?_map, h]
  exact ⟨_, rfl, (resetJob_fields _).2.2.2.1⟩

/-- C24 (counterexample): UpdateJobGroup changes the state of a Finished job.
The first member of `existingGroup` is Finished; an update document for the
group that carries no jobs makes UpdateJobGroup submit that member with state
Created. -/
theorem C24_counterexample_update_resets_finished :
    (existingGroup.Jobs[0]?.map (fun job => job.State)) = some JobFinished ∧
      jobGroupService.UpdateJobGroup (MockJobGroupRepository (mockReturns existingGroup))
          (Except.ok { ID := existingGroup.ID, AppName := "existing-jobgroup",
                       AppDescription := "existing-description" }) [] =
        (Except.ok
          { existingGroup with
            Jobs := [{ ID := "6616b77c-dbb0-47aa-bc9b-ff45548db029", Type_ := CreateDeployment,
                       State := JobCreated, Namespace := "old" },
                     { ID := "j-2", Type_ := ReplaceDeployment, State := JobCreated,
                       OwnerID := "owner-1" }] },
          [JobGroupRepoCall.FindJobGroupByUUID existingGroup.ID,
            JobGroupRepoCall.UpdateJobGroup
              { existingGroup with
                Jobs := [{ ID := "6616b77c-dbb0-47aa-bc9b-ff45548db029", Type_ := CreateDeployment,
                           State := JobCreated, Namespace := "old" },
                         { ID := "j-2", Type_ := ReplaceDeployment, State := JobCreated,
                           OwnerID := "owner-1" }] }]) ∧
      JobCreated ≠ JobFinished := by
  refine ⟨rfl, rfl, by decide⟩
/-- C24 (amended): for every job in state Finished or Degraded, the operations
that change its state are StopJobGroupByID, UpdateJobGroup and
HandlePolicyIncompliance, each resetting it to Created: StopJobGroupByID and
UpdateJobGroup submit the member with state Created, and
HandlePolicyIncompliance submits a Finished job that has an owner with state
Created (a Degraded job is refused and nothing is written).  The others leave
it unchanged: JobPromote fails with "job cannot be promoted" and writes
nothing, DeleteJobGroupByID calls nothing but the lookup and the deletion of
the group, and UpdateResourceState leaves the state of every stored job as it
was. -/
theorem C24_finished_degraded_state_changes (job : Job)
    (hfd : job.State = JobFinished ∨ job.State = JobDegraded) :
    (∀ (σ : Type) (repo : JobRepository σ) (s s1 : σ) (job_uuid : String) (dto : JobOwnershipDTO),
        job_uuid ≠ "" → dto.OwnerID ≠ "" →
        repo.FindJobByUUID job_uuid s = (Except.ok job, s1) →
          jobService.JobPromote repo job_uuid (Except.ok dto) s =
            (Except.error "job cannot be promoted", s1)) ∧
      (∀ (ret : MockReturns) (calls : List JobGroupRepoCall) (id : String),
        (jobGroupService.DeleteJobGroupByID (MockJobGroupRepository ret) id calls).2 = calls ∨
          (jobGroupService.DeleteJobGroupByID (MockJobGroupRepository ret) id calls).2 =
            calls ++ [JobGroupRepoCall.FindJobGroupByUUID id] ∨
          (jobGroupService.DeleteJobGroupByID (MockJobGroupRepository ret) id calls).2 =
            calls ++ [JobGroupRepoCall.FindJobGroupByUUID id,
              JobGroupRepoCall.DeleteJobGroup id]) ∧
      (∀ (env : Env) (resourceBody : Except String Resource) (st : ResourceStore),
        (resourceService.UpdateResourceState (NewResourceRepository env)
            (NewJobRepositoryOnStore env) resourceBody st).2.db.jobs.map
              (fun r => (r.ID, r.State)) = st.db.jobs.map (fun r => (r.ID, r.State))) ∧
      (∀ (ret : MockReturns) (calls : List JobGroupRepoCall) (id : String) (jg : JobGroup)
          (i : Nat),
        id ≠ "" → ret.FindJobGroupByUUID id = Except.ok jg → jg.Jobs[i]? = some job →
          ∃ (submitted : JobGroup) (new : Job),
            (jobGroupService.StopJobGroupByID (MockJobGroupRepository ret) id calls).2 =
              calls ++ [JobGroupRepoCall.FindJobGroupByUUID id,
                JobGroupRepoCall.UpdateJobGroup submitted] ∧
            submitted.Jobs[i]? = some new ∧ new.State = JobCreated ∧ new.State ≠ job.State) ∧
      (∀ (ret : MockReturns) (calls : List JobGroupRepoCall) (doc existing : JobGroup) (i : Nat),
        ret.FindJobGroupByUUID doc.ID = Except.ok existing → existing.Jobs[i]? = some job →
          ∃ (submitted : JobGroup) (new : Job),
            (jobGroupService.UpdateJobGroup (MockJobGroupRepository ret) (Except.ok doc) calls).2 =
              calls ++ [JobGroupRepoCall.FindJobGroupByUUID doc.ID,
                JobGroupRepoCall.UpdateJobGroup submitted] ∧
            submitted.Jobs[i]? = some new ∧ new.State = JobCreated ∧ new.State ≠ job.State) ∧
      (∀ (σ : Type) (pr : PolicyRepository σ) (jr : JobRepository σ) (s s1 s2 : σ)
          (parsed saved inc : Incompliance),
        pr.SaveIncompliance parsed s = ⟨Except.ok saved, inc, s1⟩ →
        jr.FindJobByResourceUUID inc.Subject.ResourceID s1 = (Except.ok job, s2) →
          (job.State = JobFinished → job.OwnerID ≠ "" →
            (remediatedJob inc job).State = JobCreated ∧
              (remediatedJob inc job).State ≠ job.State ∧
              ∀ (u : Job) (s3 : σ), jr.UpdateJob (remediatedJob inc job) s2 = (Except.ok u, s3) →
                policyService.HandlePolicyIncompliance pr jr (Except.ok parsed) s =
                  ((some inc, none), s3)) ∧
          (job.State = JobDegraded →
            ∃ err : String,
              policyService.HandlePolicyIncompliance pr jr (Except.ok parsed) s =
                ((none, some err), s2))) := by
  have hnc : job.State ≠ JobCreated := by
    rcases hfd with h | h <;> rw [h] <;> decide
  have hcn : JobCreated ≠ job.State := fun h => hnc h.symm
  refine ⟨?_, DeleteJobGroupByID_mock_calls, UpdateResourceState_states, ?_, ?_, ?_⟩
  · intro σ repo s s1 job_uuid dto hid hown hfind
    exact JobPromote_not_created repo s s1 job_uuid dto job hid hown hfind hnc
  · intro ret calls id jg i hid hret hi
    refine ⟨_, stopJob job, StopJobGroupByID_mock_calls ret calls id jg hid hret, ?_, ?_, ?_⟩
    · show (jg.Jobs.map stopJob)[i]? = some (stopJob job)
      rw [List.getElem?_map, hi]
      rfl
    · rw [stopJob_other job hnc]
    · rw [stopJob_other job hnc]
      exact hcn
  · intro ret calls doc existing i hret hi
    obtain ⟨new, hnew, hst⟩ := UpdateJobGroup_slot_created existing.Jobs doc.Jobs i job hi
    exact ⟨_, new, UpdateJobGroup_mock_calls ret calls doc existing hret, hnew, hst,
      by rw [hst]; exact hcn⟩
  · intro σ pr jr s s1 s2 parsed saved inc hsave hfind
    refine ⟨fun hfin hown => ⟨rfl, hcn, fun u s3 hupd =>
      HandlePolicyIncompliance_updated pr jr s s1 s2 s3 parsed saved inc job u hsave hfind hown
        hfin hupd⟩, ?_⟩
    intro hdeg
    by_cases hown : job.OwnerID = ""
    · exact ⟨_, HandlePolicyIncompliance_no_owner pr jr s s1 s2 parsed saved inc job hsave hfind
        hown⟩
    · refine ⟨_, HandlePolicyIncompliance_not_finished pr jr s s1 s2 parsed saved inc job hsave
        hfind hown ?_⟩
      rw [hdeg]
      decide

/-- C24 (witness): the Finished first member of `existingGroup`: promoting it
through the gorm-backed repository fails and leaves the table unchanged. -/
theorem C24_finished_degraded_state_changes_witness :
    jobService.JobPromote (NewJobRepository (quietEnv 7)) "6616b77c-dbb0-47aa-bc9b-ff45548db029"
        (Except.ok { OwnerID := "A" })
        { jobs := [({ ID := "6616b77c-dbb0-47aa-bc9b-ff45548db029", Type_ := CreateDeployment,
                      State := JobFinished, Namespace := "old" } : Job).toRow] } =
      (Except.error "job cannot be promoted",
        { jobs := [({ ID := "6616b77c-dbb0-47aa-bc9b-ff45548db029", Type_ := CreateDeployment,
                      State := JobFinished, Namespace := "old" } : Job).toRow] }) :=
  (C24_finished_degraded_state_changes
    { ID := "6616b77c-dbb0-47aa-bc9b-ff45548db029", Type_ := CreateDeployment,
      State := JobFinished, Namespace := "old" } (Or.inl rfl)).1 DB (NewJobRepository (quietEnv 7))
    _ _ "6616b77c-dbb0-47aa-bc9b-ff45548db029" { OwnerID := "A" } (by decide) (by decide) rfl

/-! ## Group creation (C22, C23) -/

theorem componentJob_wellFormed (d : JobGroupHeader) (appName : String)
    (conditions : List Condition) (comp : Component)
    (h : (∃ t, comp.Targets = TargetsValue.object (Except.ok t)) ∨
      comp.Targets = TargetsValue.array 0) :
    ∃ job : Job,
      jobGroupService.componentJob d appName conditions comp =
          Completion.returned (Except.ok job) ∧
        job.Type_ = CreateDeployment ∧ job.State = JobCreated ∧ job.OwnerID = "" ∧
        job.Namespace = d.Name ∧ job.JobGroupName = appName ∧
        job.Resource = some { ResourceName := comp.Name, Conditions := conditions } ∧
        (∀ t, comp.Targets = TargetsValue.object (Except.ok t) →
          job.Targets = t ∧ job.Orchestrator = t.Orchestrator) ∧
        (comp.Targets = TargetsValue.array 0 → job.Targets = {} ∧ job.Orchestrator = "") := by
  rcases h with ⟨t, ht⟩ | ht
  · refine ⟨{ Type_ := CreateDeployment, State := JobCreated, JobGroupName := appName,
               Namespace := d.Name,
               Resource := some { ResourceName := comp.Name, Conditions := conditions },
               Targets := t, Orchestrator := t.Orchestrator,
               Manifests := jobGroupService.manifestsOf d.Manifests comp },
      by simp only [jobGroupService.componentJob, ht], rfl, rfl, rfl, rfl, rfl, rfl, ?_, ?_⟩
    · intro t2 h2
      rw [ht] at h2
      injection h2 with h2
      injection h2 with h2
      subst h2
      exact ⟨rfl, rfl⟩
    · intro h2
      rw [ht] at h2
      cases h2
  · refine ⟨{ Type_ := CreateDeployment, State := JobCreated, JobGroupName := appName,
               Namespace := d.Name,
               Resource := some { ResourceName := comp.Name, Conditions := conditions },
               Targets := {}, Manifests := jobGroupService.manifestsOf d.Manifests comp },
      by simp only [jobGroupService.componentJob, ht], rfl, rfl, rfl, rfl, rfl, rfl, ?_, ?_⟩
    · intro t2 h2
      rw [ht] at h2
      cases h2
    · intro _
      exact ⟨rfl, rfl⟩

theorem componentJobs_wellFormed (d : JobGroupHeader) (appName : String)
    (conditions : List Condition) (comps : List Component) :
    ∀ acc : List Job,
      (∀ comp ∈ comps, (∃ t, comp.Targets = TargetsValue.object (Except.ok t)) ∨
        comp.Targets = TargetsValue.array 0) →
      ∃ jobs : List Job,
        jobGroupService.componentJobs d appName conditions comps acc =
            Completion.returned (Except.ok (acc ++ jobs)) ∧
          jobs.length = comps.length ∧
          ∀ (i : Nat) (comp : Component), comps[i]? = some comp →
            ∃ job : Job, jobs[i]? = some job ∧
              jobGroupService.componentJob d appName conditions comp =
                Completion.returned (Except.ok job) := by
  induction comps with
  | nil =>
    intro acc _
    exact ⟨[], by simp [jobGroupService.componentJobs], rfl, by simp⟩
  | cons c rest ih =>
    intro acc hwf
    obtain ⟨job, hjob, -⟩ := componentJob_wellFormed d appName conditions c
      (hwf c (List.mem_cons_self c rest))
    obtain ⟨jobs, hjobs, hlen, hslots⟩ := ih (acc ++ [job])
      (fun comp hc => hwf comp (List.mem_cons_of_mem c hc))
    refine ⟨job :: jobs, ?_, by simp [hlen], ?_⟩
    · simp only [jobGroupService.componentJobs, hjob, hjobs, List.append_assoc,
        List.singleton_append]
    · intro i comp hi
      cases i with
      | zero =>
        simp only [List.getElem?_cons_zero, Option.some.injEq] at hi
        subst hi
        exact ⟨job, List.getElem?_cons_zero, hjob⟩
      | succ n =>
        simp only [List.getElem?_cons_succ] at hi ⊢
        exact hslots n comp hi

theorem componentJobs_stops (d : JobGroupHeader) (appName : String)
    (conditions : List Condition) (pre post : List Component) (comp : Component) :
    ∀ acc : List Job,
      (∀ c ∈ pre, (∃ t, c.Targets = TargetsValue.object (Except.ok t)) ∨
        c.Targets = TargetsValue.array 0) →
      ((∀ message, jobGroupService.componentJob d appName conditions comp =
          Completion.exited message →
        jobGroupService.componentJobs d appName conditions (pre ++ comp :: post) acc =
          Completion.exited message) ∧
      (∀ err, jobGroupService.componentJob d appName conditions comp =
          Completion.returned (Except.error err) →
        jobGroupService.componentJobs d appName conditions (pre ++ comp :: post) acc =
          Completion.returned (Except.error err))) := by
  induction pre with
  | nil =>
    intro acc _
    constructor
    · intro message h
      simp only [List.nil_append, jobGroupService.componentJobs, h]
    · intro err h
      simp only [List.nil_append, jobGroupService.componentJobs, h]
  | cons c rest ih =>
    intro acc hwf
    obtain ⟨job, hjob, -⟩ := componentJob_wellFormed d appName conditions c
      (hwf c (List.mem_cons_self c rest))
    have h := ih (acc ++ [job]) (fun x hx => hwf x (List.mem_cons_of_mem c hx))
    constructor
    · intro message hm
      simp only [List.cons_append, jobGroupService.componentJobs, hjob]
      exact h.1 message hm
    · intro err hm
      simp only [List.cons_append, jobGroupService.componentJobs, hjob]
      exact h.2 err hm

theorem CreateJobGroup_of_jobs {σ : Type} (repo : JobGroupRepository σ) (d : JobGroupHeader)
    (t1 t2 : Int) (newUUID : String) (s : σ) (jobs : List Job)
    (h : jobGroupService.componentJobs d (if d.Name = "" then newUUID else d.Name)
      (jobGroupService.conditions t1 t2) d.Components [] = Completion.returned (Except.ok jobs)) :
    (∀ (err : String) (p : JobGroup) (s1 : σ),
        repo.SaveJobGroup
            { AppName := if d.Name = "" then newUUID else d.Name, AppDescription := d.Description,
              Jobs := jobs } s = ⟨Except.error err, p, s1⟩ →
          jobGroupService.CreateJobGroup repo (Except.ok d) t1 t2 newUUID s =
            (Completion.returned (Except.error err), s1)) ∧
      (∀ (g p : JobGroup) (s1 : σ),
        repo.SaveJobGroup
            { AppName := if d.Name = "" then newUUID else d.Name, AppDescription := d.Description,
              Jobs := jobs } s = ⟨Except.ok g, p, s1⟩ →
          jobGroupService.CreateJobGroup repo (Except.ok d) t1 t2 newUUID s =
            (Completion.returned (Except.ok p), s1)) := by
  constructor
  · intro err p s1 hs
    simp only [jobGroupService.CreateJobGroup, h, hs]
  · intro g p s1 hs
    simp only [jobGroupService.CreateJobGroup, h, hs]

theorem CreateJobGroup_mock_calls (ret : MockReturns) (calls : List JobGroupRepoCall)
    (d : JobGroupHeader) (t1 t2 : Int) (newUUID : String) (jobs : List Job)
    (h : jobGroupService.componentJobs d (if d.Name = "" then newUUID else d.Name)
      (jobGroupService.conditions t1 t2) d.Components [] = Completion.returned (Except.ok jobs)) :
    (jobGroupService.CreateJobGroup (MockJobGroupRepository ret) (Except.ok d) t1 t2 newUUID
        calls).2 =
      calls ++ [JobGroupRepoCall.SaveJobGroup
        { AppName := if d.Name = "" then newUUID else d.Name, AppDescription := d.Description,
          Jobs := jobs }] := by
  simp only [jobGroupService.CreateJobGroup, h, MockJobGroupRepository]
  cases ret.SaveJobGroup
    { AppName := if d.Name = "" then newUUID else d.Name, AppDescription := d.Description,
      Jobs := jobs } <;> rfl
/-- C22: for every descriptor, as the matchmaker answer resolved it, whose
components all have a well-formed placement (one target object that decodes,
or the empty list), CreateJobGroup hands to SaveJobGroup one group `submitted`
and returns what that call leaves (its error, or the group behind the
pointer).  `submitted` has exactly one job per component, in component order;
job `i` has type CreateDeployment, state Created, the empty owner, the name of
the descriptor as namespace, and a resource named after component `i` with
exactly the two conditions (Created, AwaitingForTarget) and (Created,
AwaitingForExecution), in this order. -/
theorem C22_CreateJobGroup_submits (d : JobGroupHeader) (t1 t2 : Int) (newUUID : String)
    (hwf : ∀ comp ∈ d.Components, (∃ t, comp.Targets = TargetsValue.object (Except.ok t)) ∨
      comp.Targets = TargetsValue.array 0) :
    ∃ submitted : JobGroup,
      (∀ (σ : Type) (repo : JobGroupRepository σ) (s s1 : σ) (err : String) (p : JobGroup),
        repo.SaveJobGroup submitted s = ⟨Except.error err, p, s1⟩ →
          jobGroupService.CreateJobGroup repo (Except.ok d) t1 t2 newUUID s =
            (Completion.returned (Except.error err), s1)) ∧
      (∀ (σ : Type) (repo : JobGroupRepository σ) (s s1 : σ) (g p : JobGroup),
        repo.SaveJobGroup submitted s = ⟨Except.ok g, p, s1⟩ →
          jobGroupService.CreateJobGroup repo (Except.ok d) t1 t2 newUUID s =
            (Completion.returned (Except.ok p), s1)) ∧
      (∀ (ret : MockReturns) (calls : List JobGroupRepoCall),
        (jobGroupService.CreateJobGroup (MockJobGroupRepository ret) (Except.ok d) t1 t2 newUUID
            calls).2 = calls ++ [JobGroupRepoCall.SaveJobGroup submitted]) ∧
      submitted.Jobs.length = d.Components.length ∧
      (∀ (i : Nat) (comp : Component), d.Components[i]? = some comp →
        ∃ (job : Job) (resource : Resource),
          submitted.Jobs[i]? = some job ∧ job.Type_ = CreateDeployment ∧
            job.State = JobCreated ∧ job.OwnerID = "" ∧ job.Namespace = d.Name ∧
            job.Resource = some resource ∧ resource.ResourceName = comp.Name ∧
            resource.Conditions.length = 2 ∧
            resource.Conditions.map (fun c => (c.Type_, c.Reason)) =
              [("Created", "AwaitingForTarget"), ("Created", "AwaitingForExecution")]) := by
  obtain ⟨jobs, hjobs, hlen, hslots⟩ := componentJobs_wellFormed d
    (if d.Name = "" then newUUID else d.Name) (jobGroupService.conditions t1 t2) d.Components []
    hwf
  rw [List.nil_append] at hjobs
  refine ⟨{ AppName := if d.Name = "" then newUUID else d.Name, AppDescription := d.Description,
            Jobs := jobs },
    fun σ repo s s1 err p h => (CreateJobGroup_of_jobs repo d t1 t2 newUUID s jobs hjobs).1 err p s1 h,
    fun σ repo s s1 g p h => (CreateJobGroup_of_jobs repo d t1 t2 newUUID s jobs hjobs).2 g p s1 h,
    fun ret calls => CreateJobGroup_mock_calls ret calls d t1 t2 newUUID jobs hjobs, hlen, ?_⟩
  intro i comp hi
  obtain ⟨job, hj, hcj⟩ := hslots i comp hi
  obtain ⟨job2, hcj2, hty, hst, hown, hns, -, hres, -, -⟩ := componentJob_wellFormed d
    (if d.Name = "" then newUUID else d.Name) (jobGroupService.conditions t1 t2) comp
    (hwf comp (List.getElem?_mem hi))
  rw [hcj2] at hcj
  injection hcj with hcj
  injection hcj with hcj
  subst hcj
  exact ⟨job2, _, hj, hty, hst, hown, hns, hres, rfl, rfl, rfl⟩

/-- C22 (witness): the descriptor `matchedDescriptor` (two components, one
placed on a target, one with the empty list) created through the mock: the
group handed to SaveJobGroup has two jobs. -/
theorem C22_CreateJobGroup_submits_witness :
    ∃ submitted : JobGroup,
      (jobGroupService.CreateJobGroup (MockJobGroupRepository (mockReturns {}))
          (Except.ok matchedDescriptor) 5 6 "27a69131-f34d-44b3-9063-81501a1c0fc8" []).2 =
        [JobGroupRepoCall.SaveJobGroup submitted] ∧
      submitted.Jobs.length = 2 ∧
      ∃ (job : Job) (resource : Resource),
        submitted.Jobs[1]? = some job ∧ job.Type_ = CreateDeployment ∧
          job.State = JobCreated ∧ job.OwnerID = "" ∧ job.Namespace = "test-job-group" ∧
          job.Resource = some resource ∧ resource.ResourceName = "producer" := by
  obtain ⟨submitted, -, -, hcalls, hlen, hslots⟩ :=
    C22_CreateJobGroup_submits matchedDescriptor 5 6 "27a69131-f34d-44b3-9063-81501a1c0fc8"
      (by
        intro comp hc
        simp only [matchedDescriptor, List.mem_cons, List.mem_singleton, List.not_mem_nil,
          or_false] at hc
        rcases hc with rfl | rfl
        · exact Or.inl ⟨_, rfl⟩
        · exact Or.inr rfl)
  obtain ⟨job, resource, h1, h2, h3, h4, h5, h6, h7, -⟩ := hslots 1 _ rfl
  exact ⟨submitted, hcalls (mockReturns {}) [], hlen, job, resource, h1, h2, h3, h4, h5, h6, h7⟩

theorem CreateJobGroup_stops {σ : Type} (repo : JobGroupRepository σ) (d : JobGroupHeader)
    (t1 t2 : Int) (newUUID : String) (s : σ) (pre post : List Component) (comp : Component)
    (hd : d.Components = pre ++ comp :: post)
    (hpre : ∀ c ∈ pre, (∃ t, c.Targets = TargetsValue.object (Except.ok t)) ∨
      c.Targets = TargetsValue.array 0) :
    (∀ message,
        jobGroupService.componentJob d (if d.Name = "" then newUUID else d.Name)
            (jobGroupService.conditions t1 t2) comp = Completion.exited message →
          jobGroupService.CreateJobGroup repo (Except.ok d) t1 t2 newUUID s =
            (Completion.exited message, s)) ∧
      (∀ err,
        jobGroupService.componentJob d (if d.Name = "" then newUUID else d.Name)
            (jobGroupService.conditions t1 t2) comp = Completion.returned (Except.error err) →
          jobGroupService.CreateJobGroup repo (Except.ok d) t1 t2 newUUID s =
            (Completion.returned (Except.error err), s)) := by
  have h := componentJobs_stops d (if d.Name = "" then newUUID else d.Name)
    (jobGroupService.conditions t1 t2) pre post comp [] hpre
  rw [← hd] at h
  constructor
  · intro message hm
    simp only [jobGroupService.CreateJobGroup, h.1 message hm]
  · intro err hm
    simp only [jobGroupService.CreateJobGroup, h.2 err hm]

/-- C23: a placement of another shape does not make CreateJobGroup return a
failure.  For `listedDescriptor`, whose component has a list holding one
target (the shape of the test's request body), and for a component without
`targets`, the call ends in `Fatalf`: the process is terminated, nothing is
returned to the caller, and SaveJobGroup is not called.  The neighbouring
branch of the same switch does return: a target object that does not decode
makes the call return the decoding error. -/
theorem C23_other_shape_terminates_process :
    jobGroupService.CreateJobGroup (MockJobGroupRepository (mockReturns {}))
          (Except.ok listedDescriptor) 5 6 "27a69131-f34d-44b3-9063-81501a1c0fc8" [] =
        (Completion.exited "Unexpected non-empty array for targets", []) ∧
      jobGroupService.CreateJobGroup (MockJobGroupRepository (mockReturns {}))
          (Except.ok { Name := "test-job-group", Components := [{ Name := "consumer" }] })
          5 6 "27a69131-f34d-44b3-9063-81501a1c0fc8" [] =
        (Completion.exited "Unexpected type for targets: <nil>", []) ∧
      (¬ ∃ (err : String) (calls : List JobGroupRepoCall),
        jobGroupService.CreateJobGroup (MockJobGroupRepository (mockReturns {}))
            (Except.ok listedDescriptor) 5 6 "27a69131-f34d-44b3-9063-81501a1c0fc8" [] =
          (Completion.returned (Except.error err), calls)) ∧
      jobGroupService.CreateJobGroup (MockJobGroupRepository (mockReturns {}))
          (Except.ok
            { Name := "test-job-group",
              Components :=
                [{ Name := "consumer",
                   Targets := TargetsValue.object (Except.error
                     "json: cannot unmarshal number into Go struct field Target.cluster_name of type string") }] })
          5 6 "27a69131-f34d-44b3-9063-81501a1c0fc8" [] =
        (Completion.returned (Except.error
          "json: cannot unmarshal number into Go struct field Target.cluster_name of type string"),
          []) := by
  have h1 : jobGroupService.CreateJobGroup (MockJobGroupRepository (mockReturns {}))
      (Except.ok listedDescriptor) 5 6 "27a69131-f34d-44b3-9063-81501a1c0fc8" [] =
        (Completion.exited "Unexpected non-empty array for targets", []) := rfl
  refine ⟨h1, rfl, ?_, rfl⟩
  rintro ⟨err, calls, h⟩
  rw [h1] at h
  cases h

/-- The placement of each component is decoded by shape.  Let `comp` be a
component of the descriptor whose predecessors are well placed.  If `comp` and
its successors are well placed too, the group is submitted and the job of
`comp` has as target the object of `comp` and as orchestrator the orchestrator
of that target, or the empty target when the placement is the empty list.  If
the placement of `comp` is a non-empty list or any other shape (a scalar, a
missing or null value), the call does not return: `Fatalf` terminates the
process, and the group is not submitted (the store is untouched, for every
repository).  An object that does not decode into a target makes the call
return the decoding error, the group not being submitted either. -/
theorem CreateJobGroup_placement_decoded (d : JobGroupHeader) (t1 t2 : Int) (newUUID : String)
    (pre post : List Component) (comp : Component)
    (hd : d.Components = pre ++ comp :: post)
    (hpre : ∀ c ∈ pre, (∃ t, c.Targets = TargetsValue.object (Except.ok t)) ∨
      c.Targets = TargetsValue.array 0) :
    ((∀ c ∈ post, (∃ t, c.Targets = TargetsValue.object (Except.ok t)) ∨
          c.Targets = TargetsValue.array 0) →
        ((∃ t, comp.Targets = TargetsValue.object (Except.ok t)) ∨
          comp.Targets = TargetsValue.array 0) →
        ∃ (submitted : JobGroup) (job : Job),
          (∀ (ret : MockReturns) (calls : List JobGroupRepoCall),
            (jobGroupService.CreateJobGroup (MockJobGroupRepository ret) (Except.ok d) t1 t2
                newUUID calls).2 = calls ++ [JobGroupRepoCall.SaveJobGroup submitted]) ∧
          submitted.Jobs[pre.length]? = some job ∧
          (∀ t, comp.Targets = TargetsValue.object (Except.ok t) →
            job.Targets = t ∧ job.Orchestrator = t.Orchestrator) ∧
          (comp.Targets = TargetsValue.array 0 → job.Targets = {})) ∧
      (∀ n : Nat, comp.Targets = TargetsValue.array (n + 1) →
        ∀ (σ : Type) (repo : JobGroupRepository σ) (s : σ),
          jobGroupService.CreateJobGroup repo (Except.ok d) t1 t2 newUUID s =
            (Completion.exited "Unexpected non-empty array for targets", s)) ∧
      (∀ typeName : String, comp.Targets = TargetsValue.other typeName →
        ∀ (σ : Type) (repo : JobGroupRepository σ) (s : σ),
          jobGroupService.CreateJobGroup repo (Except.ok d) t1 t2 newUUID s =
            (Completion.exited ("Unexpected type for targets: " ++ typeName), s)) ∧
      (∀ err : String, comp.Targets = TargetsValue.object (Except.error err) →
        ∀ (σ : Type) (repo : JobGroupRepository σ) (s : σ),
          jobGroupService.CreateJobGroup repo (Except.ok d) t1 t2 newUUID s =
            (Completion.returned (Except.error err), s)) := by
  refine ⟨?_, ?_, ?_, ?_⟩
  · intro hpost hcomp
    have hwf : ∀ c ∈ d.Components, (∃ t, c.Targets = TargetsValue.object (Except.ok t)) ∨
        c.Targets = TargetsValue.array 0 := by
      intro c hc
      rw [hd, List.mem_append, List.mem_cons] at hc
      rcases hc with hc | rfl | hc
      · exact hpre c hc
      · exact hcomp
      · exact hpost c hc
    obtain ⟨jobs, hjobs, -, hslots⟩ := componentJobs_wellFormed d
      (if d.Name = "" then newUUID else d.Name) (jobGroupService.conditions t1 t2) d.Components []
      hwf
    rw [List.nil_append] at hjobs
    have hi : d.Components[pre.length]? = some comp := by
      rw [hd, List.getElem?_append_right (Nat.le_refl _), Nat.sub_self]
      exact List.getElem?_cons_zero
    obtain ⟨job, hj, hcj⟩ := hslots pre.length comp hi
    obtain ⟨job2, hcj2, -, -, -, -, -, -, hobj, harr⟩ := componentJob_wellFormed d
      (if d.Name = "" then newUUID else d.Name) (jobGroupService.conditions t1 t2) comp hcomp
    rw [hcj2] at hcj
    injection hcj with hcj
    injection hcj with hcj
    subst hcj
    exact ⟨_, job2, fun ret calls => CreateJobGroup_mock_calls ret calls d t1 t2 newUUID jobs hjobs,
      hj, hobj, fun h => (harr h).1⟩
  · intro n hn σ repo s
    exact (CreateJobGroup_stops repo d t1 t2 newUUID s pre post comp hd hpre).1 _
      (by simp only [jobGroupService.componentJob, hn])
  · intro typeName hn σ repo s
    exact (CreateJobGroup_stops repo d t1 t2 newUUID s pre post comp hd hpre).1 _
      (by simp only [jobGroupService.componentJob, hn])
  · intro err hn σ repo s
    exact (CreateJobGroup_stops repo d t1 t2 newUUID s pre post comp hd hpre).2 _
      (by simp only [jobGroupService.componentJob, hn])

/-- In `matchedDescriptor` the component "consumer" carries one target object:
its job has that target and the orchestrator "nuvla". -/
theorem CreateJobGroup_placement_decoded_example :
    ∃ (submitted : JobGroup) (job : Job),
      (jobGroupService.CreateJobGroup (MockJobGroupRepository (mockReturns {}))
          (Except.ok matchedDescriptor) 5 6 "27a69131-f34d-44b3-9063-81501a1c0fc8" []).2 =
        [JobGroupRepoCall.SaveJobGroup submitted] ∧
      submitted.Jobs[0]? = some job ∧
      job.Targets = { ClusterName := "nuvlabox/55c7953e-2aa0-4d18-834c-b4d76d824bb9",
                      NodeName := "john-rasbpi-5-1", Orchestrator := "nuvla" } ∧
      job.Orchestrator = "nuvla" := by
  obtain ⟨submitted, job, hcalls, hjob, hobj, -⟩ :=
    (CreateJobGroup_placement_decoded matchedDescriptor 5 6 "27a69131-f34d-44b3-9063-81501a1c0fc8" []
      [{ Name := "producer", Type_ := "kubernetes",
         Manifests := [{ Name := "video-streaming-service" }],
         Targets := TargetsValue.array 0 }]
      { Name := "consumer", Type_ := "kubernetes",
        Manifests := [{ Name := "mjpeg" }, { Name := "mjpeg-service" }],
        Targets := TargetsValue.object (Except.ok
          { ClusterName := "nuvlabox/55c7953e-2aa0-4d18-834c-b4d76d824bb9",
            NodeName := "john-rasbpi-5-1", Orchestrator := "nuvla" }) }
      rfl (by simp)).1
      (by
        intro c hc
        rw [List.mem_singleton] at hc
        subst hc
        exact Or.inr rfl)
      (Or.inl ⟨_, rfl⟩)
  exact ⟨submitted, job, hcalls (mockReturns {}) [], hjob, (hobj _ rfl).1, (hobj _ rfl).2⟩

theorem FindJobByResourceUUID_found (env : Env) (uid : String) (db : DB) (r : JobRow)
    (hf : env.fault Stmt.FindJobByResourceUUID_First = none)
    (h : db.jobs.find? (fun x =>
        match x.Resource with
        | some y => y.JobID == x.ID && y.ResourceUID == uid
        | none => false) = some r) :
    jobRepository.FindJobByResourceUUID env uid db =
      (Except.ok { r.scan with Manifests := [] }, db) := by
  simp only [jobRepository.FindJobByResourceUUID, hf, h]

theorem UpdateJob_ok (env : Env) (job : Job) (db : DB)
    (hupd : env.fault Stmt.UpdateJob_Updates = none)
    (hcommit : env.fault Stmt.UpdateJob_Commit = none) :
    jobRepository.UpdateJob env job db =
      (Except.ok { job with UpdatedAt := env.now },
        { jobs := db.jobs.map (fun x => if x.ID = job.ID then updatesRow env job x else x) }) := by
  simp only [jobRepository.UpdateJob, hupd, hcommit]

theorem remediated_row_fields (env : Env) (inc : Incompliance) (r x : JobRow) (A : String)
    (hown : r.OwnerID = some A) (hA : A ≠ "") :
    (updatesRow env (remediatedJob inc { r.scan with Manifests := [] }) x).ID = x.ID ∧
      (updatesRow env (remediatedJob inc { r.scan with Manifests := [] }) x).State = JobCreated ∧
      (updatesRow env (remediatedJob inc { r.scan with Manifests := [] }) x).Type_ =
        UpdateDeployment ∧
      (updatesRow env (remediatedJob inc { r.scan with Manifests := [] }) x).OwnerID = some A := by
  have h1 : JobCreated ≠ 0 := by decide
  have h2 : UpdateDeployment ≠ 0 := by decide
  have hsc : r.scan.OwnerID = A := by simp [JobRow.scan, hown]
  refine ⟨rfl, ?_, ?_, ?_⟩
  · simp [updatesRow, remediatedJob, h1]
  · simp [updatesRow, remediatedJob, h2]
  · simp [updatesRow, remediatedJob, hsc, hA]

theorem dispatched_to_owner_only (db : DB) (k A o : String) (t : JobType)
    (ht : t = UpdateDeployment ∨ t = DeleteDeployment)
    (hall : ∀ x ∈ db.jobs, x.ID = k →
      x.State = JobCreated ∧ x.Type_ = t ∧ x.OwnerID = some A)
    (hex : ∃ x ∈ db.jobs, x.ID = k ∧ x.Orchestrator = o) :
    (∀ env2 : Env, env2.fault Stmt.FindJobsToExecute_Find = none →
        ∃ jobs : List Job,
          jobRepository.FindJobsToExecute env2 o A db = (Except.ok jobs, db) ∧
            ∃ job ∈ jobs, job.ID = k ∧ job.State = JobCreated ∧ job.Type_ = t ∧
              job.OwnerID = A ∧ job.Orchestrator = o) ∧
      (∀ (env2 : Env) (B o2 : String) (jobs : List Job) (db2 : DB), B ≠ A →
        jobRepository.FindJobsToExecute env2 o2 B db = (Except.ok jobs, db2) →
          ∀ job ∈ jobs, job.ID ≠ k) := by
  have hsel : ∀ x ∈ db.jobs, x.ID = k → ∀ (o2 B : String) (now : Int),
      toExecuteWhere x o2 B now = some true ↔ o2 = x.Orchestrator ∧ B = A := by
    intro x hx hk o2 B now
    obtain ⟨hs, hty, ho⟩ := hall x hx hk
    exact owned_created_selected_iff x A hs ho (by rw [hty]; exact ht) o2 B now
  constructor
  · intro env2 hf
    obtain ⟨x, hx, hk, hxo⟩ := hex
    obtain ⟨hs, hty, ho⟩ := hall x hx hk
    refine ⟨_, FindJobsToExecute_ok env2 o A db hf, x.scan, ?_, hk, hs, hty, ?_, hxo⟩
    · refine List.mem_map.2 ⟨x, List.mem_filter.2 ⟨hx, ?_⟩, rfl⟩
      simpa using (hsel x hx hk o A env2.now).2 ⟨hxo.symm, rfl⟩
    · simp [JobRow.scan, ho]
  · intro env2 B o2 jobs db2 hB hq job hjob hk
    cases hf : env2.fault Stmt.FindJobsToExecute_Find with
    | some err => simp [jobRepository.FindJobsToExecute, hf] at hq
    | none =>
      rw [FindJobsToExecute_ok env2 o2 B db hf] at hq
      injection hq with h1 h2
      injection h1 with h1
      subst h1
      obtain ⟨x, hx, hxj⟩ := List.mem_map.1 hjob
      have hxk : x.ID = k := by rw [← hk, ← hxj]; rfl
      have hm := List.mem_filter.1 hx
      exact hB ((hsel x hm.1 hxk o2 B env2.now).1 (by simpa using hm.2)).2

/-- C30: a successful HandlePolicyIncompliance on the gorm-backed job
repository, for a stored job `r` in state Finished with owner `A`.  The job
handed to UpdateJob is the job found with only state, type and subType
changed (owner, orchestrator, group id, manifests, target and resource are
those of the job found), and UpdateJob writes it to the row of the job: every
stored row with the job's id then has state Created, type UpdateDeployment and
owner `A`, the orchestrator of the job being unchanged.  Consequently the job
satisfies dispatch predicate (3): `FindJobsToExecute(o, A)` returns it for its
orchestrator `o`, and `FindJobsToExecute(o2, B)` returns it for no caller `B`
different from `A`. -/
theorem C30_remediated_job_dispatched_to_owner (env : Env) (pr : PolicyRepository DB)
    (db db1 : DB) (parsed saved inc : Incompliance) (r : JobRow) (A : String)
    (hsave : pr.SaveIncompliance parsed db = ⟨Except.ok saved, inc, db1⟩)
    (hrow : db1.jobs.find? (fun x =>
        match x.Resource with
        | some y => y.JobID == x.ID && y.ResourceUID == inc.Subject.ResourceID
        | none => false) = some r)
    (hown : r.OwnerID = some A) (hA : A ≠ "") (hstate : r.State = JobFinished)
    (hlook : env.fault Stmt.FindJobByResourceUUID_First = none)
    (hupd : env.fault Stmt.UpdateJob_Updates = none)
    (hcommit : env.fault Stmt.UpdateJob_Commit = none) :
    ∃ db3 : DB,
      policyService.HandlePolicyIncompliance pr (NewJobRepository env) (Except.ok parsed) db =
          ((some inc, none), db3) ∧
        db3.jobs = db1.jobs.map (fun x =>
          if x.ID = r.ID then
            updatesRow env (remediatedJob inc { r.scan with Manifests := [] }) x
          else x) ∧
        (∀ job : Job,
          remediatedJob inc job =
              { job with State := JobCreated, Type_ := UpdateDeployment,
                         SubType := remediationSubType inc.Remediation job.SubType } ∧
            (remediatedJob inc job).OwnerID = job.OwnerID ∧
            (remediatedJob inc job).Orchestrator = job.Orchestrator ∧
            (remediatedJob inc job).JobGroupID = job.JobGroupID ∧
            (remediatedJob inc job).Manifests = job.Manifests ∧
            (remediatedJob inc job).Targets = job.Targets ∧
            (remediatedJob inc job).Resource = job.Resource) ∧
        (∃ x ∈ db3.jobs, x.ID = r.ID ∧ x.Orchestrator = r.Orchestrator ∧
          x.JobGroupID = r.JobGroupID ∧ toExecuteClause3 x r.Orchestrator A = some true) ∧
        (∀ x ∈ db3.jobs, x.ID = r.ID →
          x.State = JobCreated ∧ x.Type_ = UpdateDeployment ∧ x.OwnerID = some A) ∧
        (∀ env2 : Env, env2.fault Stmt.FindJobsToExecute_Find = none →
          ∃ jobs : List Job,
            jobRepository.FindJobsToExecute env2 r.Orchestrator A db3 = (Except.ok jobs, db3) ∧
              ∃ job ∈ jobs, job.ID = r.ID ∧ job.State = JobCreated ∧
                job.Type_ = UpdateDeployment ∧ job.OwnerID = A ∧
                job.Orchestrator = r.Orchestrator) ∧
        (∀ (env2 : Env) (B o2 : String) (jobs : List Job) (db4 : DB), B ≠ A →
          jobRepository.FindJobsToExecute env2 o2 B db3 = (Except.ok jobs, db4) →
            ∀ job ∈ jobs, job.ID ≠ r.ID) := by
  have hfind : (NewJobRepository env).FindJobByResourceUUID inc.Subject.ResourceID db1 =
      (Except.ok { r.scan with Manifests := [] }, db1) :=
    FindJobByResourceUUID_found env _ db1 r hlook hrow
  have hjo : ({ r.scan with Manifests := [] } : Job).OwnerID ≠ "" := by
    simp [JobRow.scan, hown, hA]
  have hjs : ({ r.scan with Manifests := [] } : Job).State = JobFinished := hstate
  have hupdate : (NewJobRepository env).UpdateJob
      (remediatedJob inc { r.scan with Manifests := [] }) db1 = _ :=
    UpdateJob_ok env _ db1 hupd hcommit
  have hmem : r ∈ db1.jobs := List.mem_of_find?_eq_some hrow
  have hfields := remediated_row_fields env inc r
  have hall : ∀ x ∈ db1.jobs.map (fun x =>
      if x.ID = r.ID then updatesRow env (remediatedJob inc { r.scan with Manifests := [] }) x
      else x), x.ID = r.ID →
      x.State = JobCreated ∧ x.Type_ = UpdateDeployment ∧ x.OwnerID = some A := by
    intro x hx hk
    obtain ⟨y, -, hy⟩ := List.mem_map.1 hx
    by_cases hyk : y.ID = r.ID
    · rw [if_pos hyk] at hy
      subst hy
      exact (hfields y A hown hA).2
    · rw [if_neg hyk] at hy
      subst hy
      exact absurd hk hyk
  have horch : (updatesRow env (remediatedJob inc { r.scan with Manifests := [] }) r).Orchestrator
      = r.Orchestrator := by
    show (if r.Orchestrator = "" then r.Orchestrator else r.Orchestrator) = r.Orchestrator
    split <;> rfl
  have hgroup : (updatesRow env (remediatedJob inc { r.scan with Manifests := [] }) r).JobGroupID
      = r.JobGroupID := by
    show (if r.JobGroupID = "" then r.JobGroupID else r.JobGroupID) = r.JobGroupID
    split <;> rfl
  have hin : updatesRow env (remediatedJob inc { r.scan with Manifests := [] }) r ∈
      db1.jobs.map (fun x =>
        if x.ID = r.ID then updatesRow env (remediatedJob inc { r.scan with Manifests := [] }) x
        else x) :=
    List.mem_map.2 ⟨r, hmem, by rw [if_pos rfl]⟩
  have hdisp := dispatched_to_owner_only
    { jobs := db1.jobs.map (fun x =>
        if x.ID = r.ID then updatesRow env (remediatedJob inc { r.scan with Manifests := [] }) x
        else x) } r.ID A r.Orchestrator UpdateDeployment (Or.inl rfl) hall
    ⟨_, hin, rfl, horch⟩
  refine ⟨_, HandlePolicyIncompliance_updated pr (NewJobRepository env) db db1 db1 _ parsed saved
    inc _ _ hsave hfind hjo hjs hupdate, rfl, fun job => ⟨rfl, rfl, rfl, rfl, rfl, rfl, rfl⟩,
    ⟨_, hin, rfl, horch, hgroup, ?_⟩, hall, hdisp.1, hdisp.2⟩
  rw [toExecuteClause3_true]
  obtain ⟨h1, h2, h3⟩ := (hfields r A hown hA).2
  exact ⟨h2, h1, h3, horch⟩

theorem upsertJob_other (env : Env) (rows : List JobRow) (job : Job) (k : String)
    (hk : job.ID ≠ k) (P : JobRow → Prop) (h : ∀ x ∈ rows, x.ID = k → P x) :
    ∀ x ∈ upsertJob env rows job, x.ID = k → P x := by
  intro x hx hxk
  unfold upsertJob at hx
  split at hx
  · obtain ⟨y, hy, hyx⟩ := List.mem_map.1 hx
    by_cases hyj : y.ID = job.ID
    · rw [if_pos hyj] at hyx
      subst hyx
      exact absurd hxk hk
    · rw [if_neg hyj] at hyx
      subst hyx
      exact h y hy hxk
  · rcases List.mem_append.1 hx with hx | hx
    · exact h x hx hxk
    · rw [List.mem_singleton] at hx
      subst hx
      exact absurd hxk hk

theorem upsertJob_same (env : Env) (rows : List JobRow) (job : Job) (P : JobRow → Prop)
    (h : ∀ old, P (savedJobRow env job old)) :
    ∀ x ∈ upsertJob env rows job, x.ID = job.ID → P x := by
  intro x hx hxk
  unfold upsertJob at hx
  split at hx
  · obtain ⟨y, hy, hyx⟩ := List.mem_map.1 hx
    by_cases hyj : y.ID = job.ID
    · rw [if_pos hyj] at hyx
      subst hyx
      exact h _
    · rw [if_neg hyj] at hyx
      subst hyx
      exact absurd hxk hyj
  · rename_i hany
    rcases List.mem_append.1 hx with hx | hx
    · exfalso
      apply hany
      exact List.any_eq_true.2 ⟨x, hx, by simpa using hxk⟩
    · rw [List.mem_singleton] at hx
      subst hx
      exact h _

theorem upsertJob_keeps_key (env : Env) (rows : List JobRow) (job : Job) (k : String)
    (h : ∃ x ∈ rows, x.ID = k) : ∃ x ∈ upsertJob env rows job, x.ID = k := by
  obtain ⟨x, hx, hxk⟩ := h
  unfold upsertJob
  split
  · by_cases hxj : x.ID = job.ID
    · exact ⟨savedJobRow env job (some x), List.mem_map.2 ⟨x, hx, by rw [if_pos hxj]⟩,
        hxj.symm.trans hxk⟩
    · exact ⟨x, List.mem_map.2 ⟨x, hx, by rw [if_neg hxj]⟩, hxk⟩
  · exact ⟨x, List.mem_append.2 (Or.inl hx), hxk⟩

theorem saveJobs_keeps_key (env : Env) (groupID k : String) (jobs : List Job) :
    ∀ rows : List JobRow, (∃ x ∈ rows, x.ID = k) →
      ∃ x ∈ (saveJobs env groupID jobs rows).2, x.ID = k := by
  induction jobs with
  | nil => intro rows h; exact h
  | cons job rest ih =>
    intro rows h
    unfold saveJobs
    exact ih _ (upsertJob_keeps_key env rows _ k h)

theorem saveJobs_rows (env : Env) (groupID k : String) (P : JobRow → Prop) (jobs : List Job)
    (hids : ∀ job ∈ jobs, job.ID ≠ "")
    (hP : ∀ job ∈ jobs, job.ID = k → ∀ old,
      P (savedJobRow env
        { job with JobGroupID := groupID,
                   CreatedAt := if job.CreatedAt = 0 then env.now else job.CreatedAt,
                   UpdatedAt := if job.UpdatedAt = 0 then env.now else job.UpdatedAt } old)) :
    ∀ rows : List JobRow,
      ((∀ x ∈ rows, x.ID = k → P x) ∨ ∃ job ∈ jobs, job.ID = k) →
        ∀ x ∈ (saveJobs env groupID jobs rows).2, x.ID = k → P x := by
  induction jobs with
  | nil =>
    intro rows h
    rcases h with h | ⟨job, hjob, -⟩
    · exact h
    · cases hjob
  | cons job rest ih =>
    intro rows h
    have hid : job.ID ≠ "" := hids job (List.mem_cons_self job rest)
    have hjob1 : ({ job with ID := if job.ID = "" then env.newUUID rows.length else job.ID,
                             JobGroupID := groupID,
                             CreatedAt := if job.CreatedAt = 0 then env.now else job.CreatedAt,
                             UpdatedAt := if job.UpdatedAt = 0 then env.now else job.UpdatedAt }
        : Job) =
        { job with JobGroupID := groupID,
                   CreatedAt := if job.CreatedAt = 0 then env.now else job.CreatedAt,
                   UpdatedAt := if job.UpdatedAt = 0 then env.now else job.UpdatedAt } := by
      simp [hid]
    unfold saveJobs
    dsimp only
    rw [hjob1]
    refine ih (fun j hj => hids j (List.mem_cons_of_mem job hj))
      (fun j hj => hP j (List.mem_cons_of_mem job hj)) _ ?_
    by_cases hjk : job.ID = k
    · left
      intro x hx hxk
      exact upsertJob_same env rows _ P (hP job (List.mem_cons_self job rest) hjk) x hx
        (hxk.trans hjk.symm)
    · rcases h with h | ⟨j, hj, hjid⟩
      · left
        refine upsertJob_other env rows _ k ?_ P h
        exact hjk
      · right
        rcases List.mem_cons.1 hj with hj | hj
        · subst hj
          exact absurd hjid hjk
        · exact ⟨j, hj, hjid⟩

theorem FindJobGroupByUUID_found (env : Env) (id : String) (st : GroupStore) (g : JobGroupRow)
    (hf : env.fault Stmt.FindJobGroupByUUID_First = none)
    (hg : st.groups.find? (fun g => g.ID == id) = some g) :
    jobGroupRepository.FindJobGroupByUUID env id st =
      (Except.ok
        { ID := g.ID, CreatedAt := g.CreatedAt, UpdatedAt := g.UpdatedAt, AppName := g.AppName,
          AppDescription := g.AppDescription,
          Jobs := (st.db.jobs.filter (fun r => r.JobGroupID == g.ID)).map JobRow.load }, st) := by
  simp only [jobGroupRepository.FindJobGroupByUUID, hf, hg]

theorem UpdateJobGroup_ok (env : Env) (jg : JobGroup) (st : GroupStore)
    (hbegin : env.fault Stmt.UpdateJobGroup_Begin = none)
    (hupd : env.fault Stmt.UpdateJobGroup_Updates = none)
    (hcommit : env.fault Stmt.UpdateJobGroup_Commit = none) :
    ∃ st2 : GroupStore,
      jobGroupRepository.UpdateJobGroup env jg st =
          (Except.ok { jg with UpdatedAt := env.now,
                               Jobs := (saveJobs env jg.ID jg.Jobs st.db.jobs).1 }, st2) ∧
        st2.db.jobs = (saveJobs env jg.ID jg.Jobs st.db.jobs).2 := by
  simp only [jobGroupRepository.UpdateJobGroup, hbegin, hupd, hcommit]
  exact ⟨_, rfl, rfl⟩

/-- C29: StopJobGroupByID on the gorm-backed group repository, for a stored
group `id` and a stored member row `r` that is not in state Created and has
owner `A`.  The call succeeds.  On a member that is not Created the loop
changes only state and type (owner and orchestrator are kept), and
UpdateJobGroup writes the member back under its key: afterwards a row with the
id of `r` is stored, and every stored row with that id has state Created, type
DeleteDeployment, owner `A` and the orchestrator, group id, subType and
namespace of `r`, so it satisfies dispatch predicate (4).  Consequently
`FindJobsToExecute(o, A)` on the resulting table returns the job for its
orchestrator `o`, and `FindJobsToExecute(o2, B)` returns it for no caller `B`
different from `A`. -/
theorem C29_stopped_job_dispatched_to_owner (env : Env)
    (save : JobGroup → GroupStore → Outcome JobGroup GroupStore)
    (st : GroupStore) (id A : String) (g : JobGroupRow) (r : JobRow)
    (hid : id ≠ "")
    (hg : st.groups.find? (fun g => g.ID == id) = some g)
    (hr : r ∈ st.db.jobs) (hgrp : r.JobGroupID = id)
    (hkey : ∀ x ∈ st.db.jobs, x.ID = r.ID → x = r)
    (hkeys : ∀ x ∈ st.db.jobs, x.JobGroupID = id → x.ID ≠ "")
    (hstate : r.State ≠ JobCreated) (hown : r.OwnerID = some A)
    (hfind : env.fault Stmt.FindJobGroupByUUID_First = none)
    (hbegin : env.fault Stmt.UpdateJobGroup_Begin = none)
    (hupd : env.fault Stmt.UpdateJobGroup_Updates = none)
    (hcommit : env.fault Stmt.UpdateJobGroup_Commit = none) :
    ∃ (updated : JobGroup) (st2 : GroupStore),
      jobGroupService.StopJobGroupByID (NewJobGroupRepository env save) id st =
          (Except.ok updated, st2) ∧
        (∀ job : Job, job.State ≠ JobCreated →
          stopJob job = { job with State := JobCreated, Type_ := DeleteDeployment } ∧
            (stopJob job).OwnerID = job.OwnerID ∧
            (stopJob job).Orchestrator = job.Orchestrator) ∧
        (∃ x ∈ st2.db.jobs, x.ID = r.ID ∧ x.Orchestrator = r.Orchestrator ∧
          toExecuteClause4 x r.Orchestrator A = some true) ∧
        (∀ x ∈ st2.db.jobs, x.ID = r.ID →
          x.State = JobCreated ∧ x.Type_ = DeleteDeployment ∧ x.OwnerID = some A ∧
            x.Orchestrator = r.Orchestrator ∧ x.JobGroupID = r.JobGroupID ∧
            x.SubType = r.SubType ∧ x.Namespace = r.Namespace) ∧
        (∀ env2 : Env, env2.fault Stmt.FindJobsToExecute_Find = none →
          ∃ jobs : List Job,
            jobRepository.FindJobsToExecute env2 r.Orchestrator A st2.db =
                (Except.ok jobs, st2.db) ∧
              ∃ job ∈ jobs, job.ID = r.ID ∧ job.State = JobCreated ∧
                job.Type_ = DeleteDeployment ∧ job.OwnerID = A ∧
                job.Orchestrator = r.Orchestrator) ∧
        (∀ (env2 : Env) (B o2 : String) (jobs : List Job) (db4 : DB), B ≠ A →
          jobRepository.FindJobsToExecute env2 o2 B st2.db = (Except.ok jobs, db4) →
            ∀ job ∈ jobs, job.ID ≠ r.ID) := by
  have hgid : g.ID = id := by
    have := List.find?_some hg
    simpa using this
  have hfound := FindJobGroupByUUID_found env id st g hfind hg
  obtain ⟨st2, hupdated, hjobs⟩ := UpdateJobGroup_ok env
    { ID := g.ID, CreatedAt := g.CreatedAt, UpdatedAt := g.UpdatedAt, AppName := g.AppName,
      AppDescription := g.AppDescription,
      Jobs := ((st.db.jobs.filter (fun r => r.JobGroupID == g.ID)).map JobRow.load).map stopJob }
    st hbegin hupd hcommit
  have hstop : ∀ job : Job, job.State ≠ JobCreated →
      stopJob job = { job with State := JobCreated, Type_ := DeleteDeployment } :=
    fun job h => stopJob_other job h
  have hmembers : ∀ job ∈ ((st.db.jobs.filter (fun r => r.JobGroupID == g.ID)).map
      JobRow.load).map stopJob, ∃ x ∈ st.db.jobs, x.JobGroupID = id ∧ job = stopJob x.load := by
    intro job hjob
    obtain ⟨j, hj, hjj⟩ := List.mem_map.1 hjob
    obtain ⟨x, hx, hxj⟩ := List.mem_map.1 hj
    have hm := List.mem_filter.1 hx
    refine ⟨x, hm.1, ?_, ?_⟩
    · have := hm.2
      rw [hgid] at this
      simpa using this
    · rw [← hjj, ← hxj]
  have hstopID : ∀ x : JobRow, (stopJob x.load).ID = x.ID := by
    intro x
    unfold stopJob
    split <;> rfl
  have hall : ∀ x ∈ st2.db.jobs, x.ID = r.ID →
      x.State = JobCreated ∧ x.Type_ = DeleteDeployment ∧ x.OwnerID = some A ∧
        x.Orchestrator = r.Orchestrator ∧ x.JobGroupID = r.JobGroupID ∧
        x.SubType = r.SubType ∧ x.Namespace = r.Namespace := by
    rw [hjobs]
    refine saveJobs_rows env g.ID r.ID _ _ ?_ ?_ st.db.jobs (Or.inr ?_)
    · intro job hjob
      obtain ⟨x, hx, hxg, hxj⟩ := hmembers job hjob
      rw [hxj, hstopID]
      exact hkeys x hx hxg
    · intro job hjob hk old
      obtain ⟨x, hx, hxg, hxj⟩ := hmembers job hjob
      rw [hxj, hstopID] at hk
      have hxr := hkey x hx hk
      subst hxr
      rw [hxj, hstop _ hstate]
      refine ⟨rfl, rfl, ?_, rfl, ?_, rfl, rfl⟩
      · show some (x.OwnerID.getD "") = some A
        rw [hown]
        rfl
      · show g.ID = x.JobGroupID
        rw [hgid, hgrp]
    · refine ⟨stopJob r.load, ?_, hstopID r⟩
      refine List.mem_map.2 ⟨r.load, List.mem_map.2 ⟨r, List.mem_filter.2 ⟨hr, ?_⟩, rfl⟩, rfl⟩
      rw [hgid, hgrp]
      simp
  have hex : ∃ x ∈ st2.db.jobs, x.ID = r.ID := by
    rw [hjobs]
    exact saveJobs_keeps_key env g.ID r.ID _ st.db.jobs ⟨r, hr, rfl⟩
  obtain ⟨x, hx, hxk⟩ := hex
  obtain ⟨h1, h2, h3, h4, -⟩ := hall x hx hxk
  have hdisp := dispatched_to_owner_only st2.db r.ID A r.Orchestrator DeleteDeployment
    (Or.inr rfl) (fun y hy hyk => ⟨(hall y hy hyk).1, (hall y hy hyk).2.1, (hall y hy hyk).2.2.1⟩)
    ⟨x, hx, hxk, h4⟩
  refine ⟨_, st2, StopJobGroupByID_updated (NewJobGroupRepository env save) st st st2 id _ _ hid
    hfound hupdated, fun job h => ⟨hstop job h, ?_, ?_⟩,
    ⟨x, hx, hxk, h4, (toExecuteClause4_true x _ _).2 ⟨h2, h1, h3, h4⟩⟩, hall, hdisp.1, hdisp.2⟩
  · rw [hstop job h]
  · rw [hstop job h]

/-- Witness for C29 on `runningStore`: stopping group "g-2", whose member "j-2"
is Progressing and leased to "B", succeeds, and on the resulting table
`FindJobsToExecute("ocm", "B")` returns "j-2" as a Created DeleteDeployment
job, while `FindJobsToExecute("ocm", "C")` does not return it. -/
theorem C29_stopped_job_dispatched_to_owner_witness :
    ∃ (updated : JobGroup) (st2 : GroupStore),
      jobGroupService.StopJobGroupByID
          (NewJobGroupRepository (quietEnv 9) (fun jg st => ⟨Except.ok jg, jg, st⟩)) "g-2"
          runningStore = (Except.ok updated, st2) ∧
        (∃ jobs : List Job,
          jobRepository.FindJobsToExecute (quietEnv 10) "ocm" "B" st2.db =
              (Except.ok jobs, st2.db) ∧
            ∃ job ∈ jobs, job.ID = "j-2" ∧ job.State = JobCreated ∧
              job.Type_ = DeleteDeployment ∧ job.OwnerID = "B" ∧ job.Orchestrator = "ocm") ∧
        (∀ (jobs : List Job) (db4 : DB),
          jobRepository.FindJobsToExecute (quietEnv 10) "ocm" "C" st2.db = (Except.ok jobs, db4) →
            ∀ job ∈ jobs, job.ID ≠ "j-2") := by
  obtain ⟨updated, st2, hrun, -, -, -, hyes, hno⟩ :=
    C29_stopped_job_dispatched_to_owner (quietEnv 9) (fun jg st => ⟨Except.ok jg, jg, st⟩)
      runningStore "g-2" "B"
      { ID := "g-2", AppName := "example-jobgroup", CreatedAt := 3, UpdatedAt := 3 }
      { ID := "j-2", JobGroupID := "g-2", Type_ := CreateDeployment, State := JobProgressing,
        OwnerID := some "B", Orchestrator := "ocm", CreatedAt := 3, UpdatedAt := 5 }
      (by decide) rfl (by simp [runningStore]) rfl (by simp [runningStore])
      (by simp [runningStore]) (by decide) rfl rfl rfl rfl rfl
  exact ⟨updated, st2, hrun, hyes (quietEnv 10) rfl,
    fun jobs db4 h => hno (quietEnv 10) "C" "ocm" jobs db4 (by decide) h⟩

/-- Witness for C30 on the stored job `finishedRow`: the ScaleOut report for
its resource is handled with success, and on the resulting table
`FindJobsToExecute("ocm", "owner-123")` returns the job as a Created
UpdateDeployment job, while `FindJobsToExecute("ocm", "B")` does not return
it. -/
theorem C30_remediated_job_dispatched_to_owner_witness :
    ∃ db3 : DB,
      policyService.HandlePolicyIncompliance
          { SaveIncompliance := fun i db => ⟨Except.ok i, i, db⟩ } (NewJobRepository (quietEnv 9))
          (Except.ok (report ScaleOut)) { jobs := [finishedRow] } =
          ((some (report ScaleOut), none), db3) ∧
        (∃ jobs : List Job,
          jobRepository.FindJobsToExecute (quietEnv 10) "ocm" "owner-123" db3 =
              (Except.ok jobs, db3) ∧
            ∃ job ∈ jobs, job.ID = "6616b77c-dbb0-47aa-bc9b-ff45548db029" ∧
              job.State = JobCreated ∧ job.Type_ = UpdateDeployment ∧
              job.OwnerID = "owner-123" ∧ job.Orchestrator = "ocm") ∧
        (∀ (jobs : List Job) (db4 : DB),
          jobRepository.FindJobsToExecute (quietEnv 10) "ocm" "B" db3 = (Except.ok jobs, db4) →
            ∀ job ∈ jobs, job.ID ≠ "6616b77c-dbb0-47aa-bc9b-ff45548db029") := by
  obtain ⟨db3, hrun, -, -, -, -, hyes, hno⟩ :=
    C30_remediated_job_dispatched_to_owner (quietEnv 9)
      { SaveIncompliance := fun i db => ⟨Except.ok i, i, db⟩ } { jobs := [finishedRow] }
      { jobs := [finishedRow] } (report ScaleOut) (report ScaleOut) (report ScaleOut)
      finishedRow "owner-123" rfl (by decide) rfl (by decide) rfl rfl rfl rfl
  exact ⟨db3, hrun, hyes (quietEnv 10) rfl,
    fun jobs db4 h => hno (quietEnv 10) "B" "ocm" jobs db4 (by decide) h⟩

end JobManager
